import Mathlib

/-!
Shallow embedding of the transaction/ledger consistency engine of the
dompy-finance backend (src/backend/app/crud/{transaction,account,budget,category}.py
and src/backend/app/services/import_service.py), together with proofs of the
frozen claims about it.

Modelling conventions:
* identifiers (UUIDs, user ids) are `Nat`;
* fixed-point decimal amounts are `Int` (the code only adds, negates and sums
  them, so integer arithmetic is faithful);
* a SQLAlchemy session that has run to completion is a pure function
  `DB → DB`; the commit-granularity model needed for the atomicity claim is a
  separate `Session` structure further down;
* ORM rows fetched with `.first()` and then mutated are modelled by updating
  the first matching list entry (`updateFirstP`), and `db.delete(row)` by
  erasing the first matching entry (`List.eraseP`);
* tag rows are modelled by their normalised names (no claim concerns the tag
  table itself).
-/

namespace Dompy

/-- Calendar date (only year/month/day equality and the year/month projections
are used by the engine). -/
structure Date where
  year : Nat
  month : Nat
  day : Nat
deriving DecidableEq, Repr

/-- The `type` column of transactions and categories. -/
inductive TxType where
  | income
  | expense
deriving DecidableEq, Repr

/-- Account row (models/account.py). -/
structure Account where
  id : Nat
  user_id : Nat
  name : String
  balance : Int
deriving DecidableEq, Repr

/-- Category row (models/category.py, with the is_system column added by the
transfer-support migration). -/
structure Category where
  id : Nat
  user_id : Nat
  name : String
  type : TxType
  parent_id : Option Nat
  is_system : Bool
deriving DecidableEq, Repr

/-- Budget row (models/budget.py); `month` is a first-of-month date. -/
structure Budget where
  id : Nat
  user_id : Nat
  category_id : Nat
  month : Date
  limit_amount : Int
  spent_amount : Int
deriving DecidableEq, Repr

/-- Transaction row (models/transaction.py). -/
structure Transaction where
  id : Nat
  user_id : Nat
  date : Date
  type : TxType
  amount : Int
  category_id : Nat
  account_id : Nat
  description : String
  is_transfer : Bool
  transfer_group_id : Option Nat
  hide_from_summary : Bool
  tags : List String
deriving DecidableEq, Repr

/-- Relational store plus the id sources (UUID generation is modelled by
counters so that freshness is provable). -/
structure DB where
  accounts : List Account
  categories : List Category
  budgets : List Budget
  transactions : List Transaction
  next_transaction_id : Nat
  next_category_id : Nat
  next_group_id : Nat
deriving DecidableEq, Repr

/-- schemas/transaction.py TransactionCreate. -/
structure TransactionCreate where
  date : Date
  type : TxType
  amount : Int
  category_id : Nat
  account_id : Nat
  description : String
  tags : List String
deriving DecidableEq, Repr

/-- schemas/transaction.py TransactionUpdate; `none` means the field was not
set in the patch (pydantic `exclude_unset`). -/
structure TransactionUpdate where
  date : Option Date := none
  type : Option TxType := none
  amount : Option Int := none
  category_id : Option Nat := none
  account_id : Option Nat := none
  description : Option String := none
  tags : Option (List String) := none
deriving DecidableEq, Repr

/-- schemas/transaction.py TransferCreate. -/
structure TransferCreate where
  from_account_id : Nat
  to_account_id : Nat
  amount : Int
  date : Date
  description : String
  hide_from_summary : Bool
deriving DecidableEq, Repr

/-- Replace the first list entry satisfying `p` with its image under `f`
(an ORM row fetched with `.first()` and mutated in place). -/
def updateFirstP (p : α → Bool) (f : α → α) : List α → List α
  | [] => []
  | x :: l => if p x then f x :: l else x :: updateFirstP p f l

/-- crud/account.py get_account. -/
def get_account (db : DB) (account_id : Nat) (user_id : Nat) : Option Account :=
  db.accounts.find? (fun a => a.id == account_id && a.user_id == user_id)

/-- crud/account.py update_balance: adds the delta to the matching owned
account; returns the DB and the `Account | None` result. -/
def update_balance (db : DB) (account_id : Nat) (amount_delta : Int)
    (user_id : Nat) : DB × Option Account :=
  match get_account db account_id user_id with
  | none => (db, none)
  | some account =>
      let updated := { account with balance := account.balance + amount_delta }
      ({ db with accounts :=
          (updateFirstP (fun a => a.id == account_id && a.user_id == user_id)
            (fun a => { a with balance := a.balance + amount_delta }) db.accounts) },
       some updated)

/-- date(d.year, d.month, 1). -/
def monthFloor (d : Date) : Date := ⟨d.year, d.month, 1⟩

/-- crud/budget.py get_budget_by_category_month. -/
def get_budget_by_category_month (db : DB) (category_id : Nat) (month : Date)
    (user_id : Nat) : Option Budget :=
  db.budgets.find? (fun b =>
    b.user_id == user_id && b.category_id == category_id && b.month == month)

/-- The row filter of the aggregate query inside crud/budget.py
recalculate_spent: the owner's expense transactions in the category whose
date falls in the month of `month`, excluding hidden transactions. -/
def spentFilter (category_id : Nat) (month : Date) (user_id : Nat)
    (t : Transaction) : Bool :=
  t.user_id == user_id && t.category_id == category_id &&
  t.type == TxType.expense && t.hide_from_summary == false &&
  t.date.year == month.year && t.date.month == month.month

/-- The recalculate_spent aggregate over an explicit transaction list. -/
def spentSumL (ts : List Transaction) (category_id : Nat) (month : Date)
    (user_id : Nat) : Int :=
  ((ts.filter (spentFilter category_id month user_id)).map Transaction.amount).sum

/-- The aggregate query inside crud/budget.py recalculate_spent. -/
def spentSum (db : DB) (category_id : Nat) (month : Date) (user_id : Nat) : Int :=
  spentSumL db.transactions category_id month user_id

/-- crud/budget.py recalculate_spent. -/
def recalculate_spent (db : DB) (category_id : Nat) (month : Date)
    (user_id : Nat) : DB :=
  match get_budget_by_category_month db category_id month user_id with
  | none => db
  | some _ =>
      let spent := spentSum db category_id month user_id
      { db with budgets :=
          (updateFirstP (fun b =>
              b.user_id == user_id && b.category_id == category_id && b.month == month)
            (fun b => { b with spent_amount := spent }) db.budgets) }

/-- crud/tag.py get_or_create_tags, modelled by the normalised names it
returns (lowercase, trimmed, empty names dropped). -/
def get_or_create_tags (tag_names : List String) : List String :=
  (tag_names.map (fun n => n.toLower.trim)).filter (fun n => n ≠ "")

/-- The signed balance delta of a transaction (income positive, expense
negative), as computed at each call site of update_balance. -/
def signedDelta (t : Transaction) : Int :=
  if t.type = TxType.income then t.amount else -t.amount

/-- crud/transaction.py get_transaction. -/
def get_transaction (db : DB) (transaction_id : Nat) (user_id : Nat) :
    Option Transaction :=
  db.transactions.find? (fun t => t.id == transaction_id && t.user_id == user_id)

/-- crud/transaction.py create_transaction. -/
def create_transaction (db : DB) (data : TransactionCreate) (user_id : Nat) :
    DB × Transaction :=
  let tags := get_or_create_tags data.tags
  let transaction : Transaction :=
    { id := db.next_transaction_id
      user_id := user_id
      date := data.date
      type := data.type
      amount := data.amount
      category_id := data.category_id
      account_id := data.account_id
      description := data.description
      is_transfer := false
      transfer_group_id := none
      hide_from_summary := false
      tags := tags }
  let db1 := { db with
    transactions := db.transactions ++ [transaction]
    next_transaction_id := db.next_transaction_id + 1 }
  let delta := if data.type = TxType.income then data.amount else -data.amount
  let db2 := (update_balance db1 data.account_id delta user_id).1
  let db3 :=
    if data.type = TxType.expense then
      recalculate_spent db2 data.category_id (monthFloor data.date) user_id
    else db2
  (db3, transaction)

/-- Field patch application of update_transaction (setattr per field present
in model_dump(exclude_unset=True)). -/
def applyPatch (t : Transaction) (data : TransactionUpdate) : Transaction :=
  { t with
    date := data.date.getD t.date
    type := data.type.getD t.type
    amount := data.amount.getD t.amount
    category_id := data.category_id.getD t.category_id
    account_id := data.account_id.getD t.account_id
    description := data.description.getD t.description
    tags := match data.tags with
      | some ts => get_or_create_tags ts
      | none => t.tags }

/-- crud/transaction.py update_transaction. -/
def update_transaction (db : DB) (transaction_id : Nat) (data : TransactionUpdate)
    (user_id : Nat) : Option (DB × Transaction) :=
  match get_transaction db transaction_id user_id with
  | none => none
  | some t0 =>
      let old_type := t0.type
      let old_amount := t0.amount
      let old_account_id := t0.account_id
      let old_category_id := t0.category_id
      let old_date := t0.date
      let t1 := applyPatch t0 data
      let db1 := { db with transactions :=
        (updateFirstP (fun t => t.id == transaction_id && t.user_id == user_id)
          (fun t => applyPatch t data) db.transactions) }
      let old_delta := if old_type = TxType.income then old_amount else -old_amount
      let db2 := (update_balance db1 old_account_id (-old_delta) user_id).1
      let new_delta := if t1.type = TxType.income then t1.amount else -t1.amount
      let db3 := (update_balance db2 t1.account_id new_delta user_id).1
      let db4 :=
        if old_type = TxType.expense then
          recalculate_spent db3 old_category_id (monthFloor old_date) user_id
        else db3
      let db5 :=
        if t1.type = TxType.expense then
          recalculate_spent db4 t1.category_id (monthFloor t1.date) user_id
        else db4
      some (db5, t1)

/-- crud/transaction.py delete_transaction; `none` models the `False`
(not found / not owned) result. -/
def delete_transaction (db : DB) (transaction_id : Nat) (user_id : Nat) :
    Option DB :=
  match get_transaction db transaction_id user_id with
  | none => none
  | some t =>
      let db1 := { db with transactions :=
        db.transactions.eraseP (fun x => x.id == transaction_id && x.user_id == user_id) }
      let delta := if t.type = TxType.income then t.amount else -t.amount
      let db2 := (update_balance db1 t.account_id (-delta) user_id).1
      let db3 :=
        if t.type = TxType.expense then
          recalculate_spent db2 t.category_id (monthFloor t.date) user_id
        else db2
      some db3

/-- Predicate selecting the rows removed by delete_transactions_by_account. -/
def byAccount (account_id user_id : Nat) (t : Transaction) : Bool :=
  t.account_id == account_id && t.user_id == user_id

/-- crud/transaction.py delete_transactions_by_account: bulk delete, no
balance reversal, budget recalculation for each distinct (category, month)
pair of a deleted expense transaction.  The Python set of pairs is modelled
by deduplicating the pair list (recalculations of distinct budgets commute,
so the iteration order of the set is immaterial). -/
def delete_transactions_by_account (db : DB) (account_id : Nat) (user_id : Nat) :
    DB × Nat :=
  let transactions := db.transactions.filter (byAccount account_id user_id)
  if transactions.isEmpty then (db, 0)
  else
    let affected_budgets :=
      (((transactions.filter (fun t => t.type == TxType.expense)).map
        (fun t => (t.category_id, monthFloor t.date))).dedup)
    let db1 := { db with transactions :=
      (db.transactions.filter (fun t => !byAccount account_id user_id t)) }
    let db2 := affected_budgets.foldl
      (fun d kv => recalculate_spent d kv.1 kv.2 user_id) db1
    (db2, transactions.length)

/-- Predicate selecting the rows removed by delete_transactions_by_category. -/
def byCategory (ids_to_delete : List Nat) (user_id : Nat) (t : Transaction) : Bool :=
  ids_to_delete.contains t.category_id && t.user_id == user_id

/-- Total reversal delta a bulk category delete applies to one account
(the account_deltas dictionary). -/
def accountReversal (transactions : List Transaction) (acct : Nat) : Int :=
  ((transactions.filter (fun t => t.account_id == acct)).map
    (fun t => -signedDelta t)).sum

/-- crud/transaction.py delete_transactions_by_category: bulk delete with
balance reversal summed per account and budget recalculation per distinct
(category, month) pair.  Dictionary iteration order is modelled by the
first-occurrence order of `dedup`. -/
def delete_transactions_by_category (db : DB) (category_id : Nat) (user_id : Nat)
    (category_ids : Option (List Nat)) : DB × Nat :=
  let ids_to_delete := match category_ids with
    | some l => if l.isEmpty then [category_id] else l
    | none => [category_id]
  let transactions := db.transactions.filter (byCategory ids_to_delete user_id)
  if transactions.isEmpty then (db, 0)
  else
    let affected_budgets :=
      (((transactions.filter (fun t => t.type == TxType.expense)).map
        (fun t => (t.category_id, monthFloor t.date))).dedup)
    let account_ids := ((transactions.map (fun t => t.account_id)).dedup)
    let db1 := { db with transactions :=
      (db.transactions.filter (fun t => !byCategory ids_to_delete user_id t)) }
    let db2 := account_ids.foldl
      (fun d acct => (update_balance d acct (accountReversal transactions acct) user_id).1) db1
    let db3 := affected_budgets.foldl
      (fun d kv => recalculate_spent d kv.1 kv.2 user_id) db2
    (db3, transactions.length)

/-- Modelled from the spec: crud/category.py `get_category_by_name` is called
by the import service (with `any_parent=True`) but its definition is not part
of the sources; per the spec it looks a category up by name for the owner at
any hierarchy level. -/
def get_category_by_name (db : DB) (name : String) (user_id : Nat) :
    Option Category :=
  db.categories.find? (fun c => c.name == name && c.user_id == user_id)

/-- Modelled from the spec: crud/category.py `ensure_transfer_categories` is
called by create_transfer and onboarding but its definition is not part of the
sources.  Per the spec it idempotently ensures the two reserved system
categories "Outgoing transfer" (expense) and "Incoming transfer" (income)
exist for the owner and returns their ids. -/
def ensure_transfer_categories (db : DB) (user_id : Nat) : DB × Nat × Nat :=
  let step1 : DB × Nat :=
    match get_category_by_name db "Outgoing transfer" user_id with
    | some c => (db, c.id)
    | none =>
        let c : Category :=
          ⟨db.next_category_id, user_id, "Outgoing transfer", TxType.expense, none, true⟩
        ({ db with categories := db.categories ++ [c]
                   next_category_id := db.next_category_id + 1 }, c.id)
  let db1 := step1.1
  let outgoing_id := step1.2
  let step2 : DB × Nat :=
    match get_category_by_name db1 "Incoming transfer" user_id with
    | some c => (db1, c.id)
    | none =>
        let c : Category :=
          ⟨db1.next_category_id, user_id, "Incoming transfer", TxType.income, none, true⟩
        ({ db1 with categories := db1.categories ++ [c]
                    next_category_id := db1.next_category_id + 1 }, c.id)
  (step2.1, outgoing_id, step2.2)

/-- crud/transaction.py create_transfer. -/
def create_transfer (db : DB) (data : TransferCreate) (user_id : Nat) :
    Except String (DB × Transaction × Transaction) :=
  if data.from_account_id = data.to_account_id then
    .error "Cannot transfer to the same account"
  else
    let ensured := ensure_transfer_categories db user_id
    let db1 := ensured.1
    let outgoing_cat := ensured.2.1
    let incoming_cat := ensured.2.2
    let transfer_group_id := db1.next_group_id
    let outgoing : Transaction :=
      { id := db1.next_transaction_id
        user_id := user_id
        date := data.date
        type := TxType.expense
        amount := data.amount
        category_id := outgoing_cat
        account_id := data.from_account_id
        description := data.description
        is_transfer := true
        transfer_group_id := some transfer_group_id
        hide_from_summary := data.hide_from_summary
        tags := [] }
    let incoming : Transaction :=
      { id := db1.next_transaction_id + 1
        user_id := user_id
        date := data.date
        type := TxType.income
        amount := data.amount
        category_id := incoming_cat
        account_id := data.to_account_id
        description := data.description
        is_transfer := true
        transfer_group_id := some transfer_group_id
        hide_from_summary := data.hide_from_summary
        tags := [] }
    let db2 := { db1 with
      transactions := db1.transactions ++ [outgoing, incoming]
      next_transaction_id := db1.next_transaction_id + 2
      next_group_id := db1.next_group_id + 1 }
    let db3 := (update_balance db2 data.from_account_id (-data.amount) user_id).1
    let db4 := (update_balance db3 data.to_account_id data.amount user_id).1
    .ok (db4, outgoing, incoming)

/-- crud/transaction.py get_paired_transaction. -/
def get_paired_transaction (db : DB) (transaction : Transaction) (user_id : Nat) :
    Option Transaction :=
  if !transaction.is_transfer || transaction.transfer_group_id.isNone then none
  else
    db.transactions.find? (fun x =>
      x.transfer_group_id == transaction.transfer_group_id &&
      x.user_id == user_id && x.id != transaction.id)

/-- The shared-field patch update_transfer applies to both legs after popping
type, category_id, account_id and tags from the update data (schemas'
TransactionUpdate has no hide_from_summary field, so the remaining fields are
amount, date and description). -/
def applyTransferPatch (data : TransactionUpdate) (t : Transaction) : Transaction :=
  { t with
    amount := data.amount.getD t.amount
    date := data.date.getD t.date
    description := data.description.getD t.description }

/-- crud/transaction.py update_transfer. -/
def update_transfer (db : DB) (transaction_id : Nat) (data : TransactionUpdate)
    (user_id : Nat) : Option (DB × Transaction × Transaction) :=
  match get_transaction db transaction_id user_id with
  | none => none
  | some transaction =>
    if !transaction.is_transfer then none
    else
      match get_paired_transaction db transaction user_id with
      | none => none
      | some paired =>
        let outgoing :=
          if transaction.type = TxType.expense then transaction else paired
        let incoming :=
          if transaction.type = TxType.expense then paired else transaction
        let db1 :=
          match data.amount with
          | some new_amount =>
              let old_amount := outgoing.amount
              let d1 := (update_balance db outgoing.account_id
                (old_amount - new_amount) user_id).1
              (update_balance d1 incoming.account_id
                (new_amount - old_amount) user_id).1
          | none => db
        let db2 := { db1 with transactions :=
          (db1.transactions.map (fun t =>
            if t.id == outgoing.id || t.id == incoming.id then
              applyTransferPatch data t
            else t)) }
        some (db2, applyTransferPatch data outgoing, applyTransferPatch data incoming)

/-- crud/transaction.py delete_transfer. -/
def delete_transfer (db : DB) (transaction_id : Nat) (user_id : Nat) : DB × Bool :=
  match get_transaction db transaction_id user_id with
  | none => (db, false)
  | some transaction =>
    if !transaction.is_transfer then (db, false)
    else
      match get_paired_transaction db transaction user_id with
      | none =>
          ({ db with transactions :=
            (db.transactions.eraseP (fun t => t.id == transaction.id)) }, true)
      | some paired =>
        let outgoing :=
          if transaction.type = TxType.expense then transaction else paired
        let incoming :=
          if transaction.type = TxType.expense then paired else transaction
        let db1 := (update_balance db outgoing.account_id outgoing.amount user_id).1
        let db2 := (update_balance db1 incoming.account_id (-incoming.amount) user_id).1
        let db3 := { db2 with transactions :=
          ((db2.transactions.eraseP (fun t => t.id == outgoing.id)).eraseP
            (fun t => t.id == incoming.id)) }
        (db3, true)

/-- routers/transactions.py PATCH endpoint dispatch: a transfer leg is updated
through update_transfer, an ordinary transaction through update_transaction. -/
def router_update_transaction (db : DB) (transaction_id : Nat)
    (data : TransactionUpdate) (user_id : Nat) : DB :=
  match get_transaction db transaction_id user_id with
  | none => db
  | some existing =>
    if existing.is_transfer then
      match update_transfer db transaction_id data user_id with
      | some (db', _, _) => db'
      | none => db
    else
      match update_transaction db transaction_id data user_id with
      | some (db', _) => db'
      | none => db

/-- routers/transactions.py DELETE endpoint dispatch. -/
def router_delete_transaction (db : DB) (transaction_id : Nat) (user_id : Nat) : DB :=
  match get_transaction db transaction_id user_id with
  | none => db
  | some existing =>
    if existing.is_transfer then (delete_transfer db transaction_id user_id).1
    else (delete_transaction db transaction_id user_id).getD db

/-- schemas/category.py CategoryCreate (color and icon omitted: the engine
never reads them). -/
structure CategoryCreate where
  name : String
  type : TxType
  parent_id : Option Nat := none
deriving DecidableEq, Repr

/-- schemas/category.py CategoryUpdate; for parent_id the outer Option is
"was the field set in the patch", the inner one is the nullable value. -/
structure CategoryUpdate where
  name : Option String := none
  type : Option TxType := none
  parent_id : Option (Option Nat) := none
deriving DecidableEq, Repr

/-- crud/category.py get_category. -/
def get_category (db : DB) (category_id : Nat) (user_id : Nat) : Option Category :=
  db.categories.find? (fun c => c.id == category_id && c.user_id == user_id)

/-- crud/category.py create_category (ValueError modelled as Except.error). -/
def create_category (db : DB) (data : CategoryCreate) (user_id : Nat) :
    Except String (DB × Category) :=
  let insert : DB × Category :=
    let c : Category :=
      { id := db.next_category_id
        user_id := user_id
        name := data.name
        type := data.type
        parent_id := data.parent_id
        is_system := false }
    ({ db with categories := db.categories ++ [c]
               next_category_id := db.next_category_id + 1 }, c)
  match data.parent_id with
  | none => .ok insert
  | some pid =>
    match get_category db pid user_id with
    | none => .error "Parent category not found"
    | some parent =>
      if parent.parent_id.isSome then
        .error "Cannot create more than 2 levels of category hierarchy"
      else if parent.type ≠ data.type then
        .error "Child category must have the same type as parent"
      else .ok insert

/-- Field patch application of update_category. -/
def applyCategoryPatch (c : Category) (data : CategoryUpdate) : Category :=
  { c with
    name := data.name.getD c.name
    type := data.type.getD c.type
    parent_id := match data.parent_id with
      | some p => p
      | none => c.parent_id }

/-- crud/category.py update_category: `Except.ok none` is the not-found
result, `Except.error` a ValueError.  Validation runs only when the patch
sets a non-null parent_id. -/
def update_category (db : DB) (category_id : Nat) (data : CategoryUpdate)
    (user_id : Nat) : Except String (Option (DB × Category)) :=
  match get_category db category_id user_id with
  | none => .ok none
  | some category =>
    let check : Except String Unit :=
      match data.parent_id with
      | some (some pid) =>
        match get_category db pid user_id with
        | none => .error "Parent category not found"
        | some parent =>
          if parent.parent_id.isSome then
            .error "Cannot create more than 2 levels of category hierarchy"
          else
            let new_type := data.type.getD category.type
            if parent.type ≠ new_type then
              .error "Child category must have the same type as parent"
            else .ok ()
      | _ => .ok ()
    match check with
    | .error e => .error e
    | .ok _ =>
      .ok (some
        ({ db with categories :=
            (updateFirstP (fun c => c.id == category_id && c.user_id == user_id)
              (fun c => applyCategoryPatch c data) db.categories) },
         applyCategoryPatch category data))

/-- schemas/import_profile.py ParsedRow.  `date` is the raw date string from
the file (transfer-pair detection groups by the string, not the parsed
date). -/
structure ParsedRow where
  row_index : Nat
  external_id : String
  date : String
  category_value : String
  account_value : String
  amount : Int
  description : String
deriving DecidableEq, Repr

/-- Absolute value of an integer amount. -/
def intAbs (i : Int) : Int := if i < 0 then -i else i

/-- Parse a string of digits. -/
def parseNatDigits (s : String) : Option Nat :=
  if s.isEmpty then none
  else if s.all Char.isDigit then s.toNat?
  else none

/-- One date component layout: positions of day, month, year in the split. -/
def mkDateDMY (d m y : Option Nat) : Option Date :=
  match d, m, y with
  | some d, some m, some y =>
      if 1 ≤ m ∧ m ≤ 12 ∧ 1 ≤ d ∧ d ≤ 31 then some ⟨y, m, d⟩ else none
  | _, _, _ => none

/-- Try to read `s` as three numeric fields separated by `sep`, in
day/month/year order. -/
def tryDMY (sep : Char) (s : String) : Option Date :=
  match s.split (· = sep) with
  | [a, b, c] => mkDateDMY (parseNatDigits a) (parseNatDigits b) (parseNatDigits c)
  | _ => none

/-- Try year/month/day order. -/
def tryYMD (sep : Char) (s : String) : Option Date :=
  match s.split (· = sep) with
  | [a, b, c] => mkDateDMY (parseNatDigits c) (parseNatDigits b) (parseNatDigits a)
  | _ => none

/-- Try month/day/year order. -/
def tryMDY (sep : Char) (s : String) : Option Date :=
  match s.split (· = sep) with
  | [a, b, c] => mkDateDMY (parseNatDigits b) (parseNatDigits a) (parseNatDigits c)
  | _ => none

/-- import_service.py parse_date: tries dd/MM/yyyy, dd-MM-yyyy, yyyy-MM-dd,
MM/dd/yyyy, dd.MM.yyyy in that order on the trimmed string (calendar
validation beyond month 1-12 / day 1-31 is not modelled; no claim depends on
it). -/
def parse_date (s : String) : Option Date :=
  let t := s.trim
  (tryDMY '/' t).orElse (fun _ =>
    (tryDMY '-' t).orElse (fun _ =>
      (tryYMD '-' t).orElse (fun _ =>
        (tryMDY '/' t).orElse (fun _ =>
          tryDMY '.' t))))

/-- The pair of reserved transfer category ids, as returned by
import_service.py get_transfer_category_ids. -/
structure TransferCatIds where
  incoming : Nat
  outgoing : Nat
deriving DecidableEq, Repr

/-- import_service.py get_transfer_category_ids (uses the spec-modelled
get_category_by_name). -/
def get_transfer_category_ids (db : DB) (user_id : Nat) : Option TransferCatIds :=
  match get_category_by_name db "Incoming transfer" user_id,
        get_category_by_name db "Outgoing transfer" user_id with
  | some i, some o => some ⟨i.id, o.id⟩
  | _, _ => none

/-- A row is a transfer candidate when its resolved category is one of the
two reserved transfer categories. -/
def isTransferCandidate (catMap : String → Option Nat) (tc : TransferCatIds)
    (r : ParsedRow) : Bool :=
  match catMap r.category_value with
  | some c => c == tc.incoming || c == tc.outgoing
  | none => false

/-- Grouping key of transfer-pair detection: (raw date string, absolute
amount). -/
def rowKey (r : ParsedRow) : String × Int := (r.date, intAbs r.amount)

/-- Keys of the grouping dictionary in first-insertion order (Python dict
iteration order). -/
def groupKeys (rows : List ParsedRow) : List (String × Int) :=
  rows.foldl (fun acc r => if acc.contains (rowKey r) then acc else acc ++ [rowKey r]) []

/-- First incoming candidate on a different account that is not yet matched
(`id(in_row) not in matched_incoming`; candidate rows are indexed to model
Python object identity). -/
def findMatch (out_account : String) (ins : List (Nat × ParsedRow))
    (matched : List Nat) : Option (Nat × ParsedRow) :=
  ins.find? (fun p => out_account != p.2.account_value && !(matched.contains p.1))

/-- The inner pairing loop over the outgoing candidates of one group.
Returns the pairs, the unmatched outgoing rows, and the final matched
incoming index set. -/
def matchOuts (ins : List (Nat × ParsedRow)) :
    List ParsedRow → List Nat →
    List (ParsedRow × ParsedRow) × List ParsedRow × List Nat
  | [], matched => ([], [], matched)
  | o :: os, matched =>
    match findMatch o.account_value ins matched with
    | some p =>
        let rest := matchOuts ins os (matched ++ [p.1])
        ((o, p.2) :: rest.1, rest.2.1, rest.2.2)
    | none =>
        let rest := matchOuts ins os matched
        (rest.1, o :: rest.2.1, rest.2.2)

/-- Pairing within one (date, abs amount) group: outgoing candidates are the
negative-amount rows, incoming the positive ones; returns the pairs and the
unmatched rows (unmatched outgoing first, then unmatched incoming, as the
source collects them). -/
def processGroup (rows : List ParsedRow) :
    List (ParsedRow × ParsedRow) × List ParsedRow :=
  let outs := rows.filter (fun r => r.amount < 0)
  let ins := (rows.filter (fun r => r.amount > 0)).enum
  let res := matchOuts ins outs []
  let unmatchedIns := ((ins.filter (fun p => !(res.2.2.contains p.1))).map Prod.snd)
  (res.1, res.2.1 ++ unmatchedIns)

/-- Warning emitted for an unmatched transfer-candidate row. -/
def unmatchedWarning (r : ParsedRow) : String :=
  "Row " ++ toString (r.row_index + 1) ++
    ": Transfer category but no matching pair found, importing as regular transaction"

/-- import_service.py detect_transfer_pairs. -/
def detect_transfer_pairs (rows : List ParsedRow) (catMap : String → Option Nat)
    (tc : TransferCatIds) :
    List (ParsedRow × ParsedRow) × List ParsedRow × List String :=
  let transfer_candidates := rows.filter (isTransferCandidate catMap tc)
  let regular_rows := rows.filter (fun r => !isTransferCandidate catMap tc r)
  if transfer_candidates.isEmpty then ([], regular_rows, [])
  else
    let keys := groupKeys transfer_candidates
    let results := keys.map (fun k =>
      processGroup (transfer_candidates.filter (fun r => rowKey r == k)))
    let transfer_pairs := (results.map Prod.fst).flatten
    let unmatched := (results.map Prod.snd).flatten
    let warnings := unmatched.map unmatchedWarning
    (transfer_pairs, regular_rows ++ unmatched, warnings)

/-- schemas/import_profile.py MappingItem. -/
structure MappingItem where
  csv_value : String
  internal_id : Nat
deriving DecidableEq, Repr

/-- schemas/import_profile.py ImportResult. -/
structure ImportResult where
  imported_count : Nat
  skipped_count : Nat
  transfer_count : Nat
  errors : List String
deriving DecidableEq, Repr

/-- The value mappings of one import profile and mapping type, keyed by
csv_value. -/
abbrev MappingTable := List (String × Nat)

/-- crud/import_profile.py get_value_mappings_dict lookup. -/
def lookupMapping (l : MappingTable) (k : String) : Option Nat :=
  (List.find? (fun p => p.1 == k) l).map Prod.snd

/-- crud/import_profile.py create_value_mappings_batch upsert of one item:
an existing mapping for the csv_value is re-targeted, otherwise a new row is
added. -/
def upsertMapping (l : MappingTable) (item : MappingItem) : MappingTable :=
  if (List.find? (fun p => p.1 == item.csv_value) l).isSome then
    List.map (fun p => if p.1 == item.csv_value then (p.1, item.internal_id) else p) l
  else l ++ [(item.csv_value, item.internal_id)]

/-- crud/import_profile.py create_value_mappings_batch. -/
def create_value_mappings_batch (l : MappingTable) (items : List MappingItem) :
    MappingTable :=
  items.foldl upsertMapping l

/-- The running state of the two execute_import loops. -/
structure ImportAcc where
  db : DB
  imported : Nat
  skipped : Nat
  transfers : Nat
  errors : List String
  processed : List Nat
deriving Repr

/-- The prefix "Rows i & j: " of pair-level error messages (1-indexed). -/
def pairMsg (out_row in_row : ParsedRow) : String :=
  "Rows " ++ toString (out_row.row_index + 1) ++ " & " ++
    toString (in_row.row_index + 1) ++ ": "

/-- One iteration of the transfer-pair loop of execute_import.  The
`Except.error` branch of create_transfer is the caught exception: the session
is rolled back (processing continues from the unchanged `acc.db`), the error
recorded, and the loop moves on. -/
def processPair (user_id : Nat) (accMap : String → Option Nat)
    (valid_account_ids : List Nat) (acc : ImportAcc)
    (pr : ParsedRow × ParsedRow) : ImportAcc :=
  let out_row := pr.1
  let in_row := pr.2
  match parse_date out_row.date, parse_date in_row.date with
  | none, _ =>
      { acc with errors := acc.errors ++ [pairMsg out_row in_row ++ "Invalid date"]
                 skipped := acc.skipped + 2 }
  | some _, none =>
      { acc with errors := acc.errors ++ [pairMsg out_row in_row ++ "Invalid date"]
                 skipped := acc.skipped + 2 }
  | some out_date, some _ =>
    match accMap out_row.account_value, accMap in_row.account_value with
    | none, _ =>
        { acc with errors := acc.errors ++ [pairMsg out_row in_row ++ "Missing account mapping"]
                   skipped := acc.skipped + 2 }
    | some _, none =>
        { acc with errors := acc.errors ++ [pairMsg out_row in_row ++ "Missing account mapping"]
                   skipped := acc.skipped + 2 }
    | some from_account_id, some to_account_id =>
      if !valid_account_ids.contains from_account_id then
        { acc with errors := acc.errors ++ [pairMsg out_row in_row ++ "Source account no longer exists"]
                   skipped := acc.skipped + 2 }
      else if !valid_account_ids.contains to_account_id then
        { acc with errors := acc.errors ++ [pairMsg out_row in_row ++ "Destination account no longer exists"]
                   skipped := acc.skipped + 2 }
      else
        let transfer_data : TransferCreate :=
          { from_account_id := from_account_id
            to_account_id := to_account_id
            amount := intAbs out_row.amount
            date := out_date
            description :=
              if out_row.description ≠ "" then out_row.description
              else if in_row.description ≠ "" then in_row.description
              else "Imported transfer"
            hide_from_summary := true }
        match create_transfer acc.db transfer_data user_id with
        | .ok (db', _, _) =>
            { acc with db := db'
                       transfers := acc.transfers + 1
                       processed := acc.processed ++ [out_row.row_index, in_row.row_index] }
        | .error e =>
            { acc with errors := acc.errors ++ [pairMsg out_row in_row ++ e]
                       skipped := acc.skipped + 2 }

/-- The prefix "Row i: " of row-level error messages (1-indexed). -/
def rowMsg (row : ParsedRow) : String :=
  "Row " ++ toString (row.row_index + 1) ++ ": "

/-- One iteration of the regular-row loop of execute_import.  Every failing
validation of the row records an error (or silently skips, for a zero
amount) and leaves the database untouched; create_transaction itself has no
failing path in the model. -/
def processRow (user_id : Nat) (catMap accMap : String → Option Nat)
    (valid_category_ids valid_account_ids : List Nat) (acc : ImportAcc)
    (row : ParsedRow) : ImportAcc :=
  if acc.processed.contains row.row_index then acc
  else
    match parse_date row.date with
    | none =>
        { acc with
            errors := (acc.errors ++
              [rowMsg row ++ "Invalid date format " ++ "'" ++ row.date ++ "'"])
            skipped := acc.skipped + 1 }
    | some parsed_date =>
      match catMap row.category_value with
      | none =>
          { acc with
              errors := (acc.errors ++
                [rowMsg row ++ "No mapping for category " ++ "'" ++ row.category_value ++ "'"])
              skipped := acc.skipped + 1 }
      | some category_id =>
        if !valid_category_ids.contains category_id then
          { acc with
              errors := (acc.errors ++ [rowMsg row ++ "Category no longer exists (was deleted?)"])
              skipped := acc.skipped + 1 }
        else
          match accMap row.account_value with
          | none =>
              { acc with
                  errors := (acc.errors ++
                    [rowMsg row ++ "No mapping for account " ++ "'" ++ row.account_value ++ "'"])
                  skipped := acc.skipped + 1 }
          | some account_id =>
            if !valid_account_ids.contains account_id then
              { acc with
                  errors := (acc.errors ++ [rowMsg row ++ "Account no longer exists (was deleted?)"])
                  skipped := acc.skipped + 1 }
            else if row.amount = 0 then
              { acc with skipped := acc.skipped + 1 }
            else
              let tx_data : TransactionCreate :=
                { date := parsed_date
                  type := if row.amount < 0 then TxType.expense else TxType.income
                  amount := intAbs row.amount
                  category_id := category_id
                  account_id := account_id
                  description :=
                    if row.description ≠ "" then row.description
                    else "Imported: " ++ row.external_id
                  tags := [] }
              { acc with db := (create_transaction acc.db tx_data user_id).1
                         imported := acc.imported + 1 }

/-- import_service.py execute_import.  The per-profile value-mapping store is
passed and returned explicitly; the result carries the updated database, the
updated store and the ImportResult. -/
def execute_import (db : DB) (cat_store acct_store : MappingTable) (user_id : Nat)
    (parsed_rows : List ParsedRow) (category_mappings account_mappings : List MappingItem)
    (excluded_indices : List Nat) : DB × MappingTable × MappingTable × ImportResult :=
  let rows_to_import := parsed_rows.filter (fun r => !excluded_indices.contains r.row_index)
  let skipped0 := parsed_rows.length - rows_to_import.length
  let cat_store1 := create_value_mappings_batch cat_store category_mappings
  let acct_store1 := create_value_mappings_batch acct_store account_mappings
  let all_cat := lookupMapping cat_store1
  let all_acct := lookupMapping acct_store1
  let detected :=
    match get_transfer_category_ids db user_id with
    | some tc => detect_transfer_pairs rows_to_import all_cat tc
    | none => ([], rows_to_import, [])
  let transfer_pairs := detected.1
  let regular_rows := detected.2.1
  let pair_warnings := detected.2.2
  let valid_category_ids :=
    ((db.categories.filter (fun c => c.user_id == user_id)).map Category.id)
  let valid_account_ids :=
    ((db.accounts.filter (fun a => a.user_id == user_id)).map Account.id)
  let acc0 : ImportAcc :=
    { db := db, imported := 0, skipped := skipped0, transfers := 0
      errors := pair_warnings, processed := [] }
  let acc1 := transfer_pairs.foldl (processPair user_id all_acct valid_account_ids) acc0
  let acc2 := regular_rows.foldl
    (processRow user_id all_cat all_acct valid_category_ids valid_account_ids) acc1
  (acc2.db, cat_store1, acct_store1,
   { imported_count := acc2.imported
     skipped_count := acc2.skipped
     transfer_count := acc2.transfers
     errors := acc2.errors.take 50 })

/-!
Commit-granularity model of the SQLAlchemy session, needed to settle the
atomicity claim.  `committed` is the durable database, `pending` the
session's working state; `db.commit()` publishes pending work,
`db.rollback()` discards it.  crud/account.py update_balance and
crud/budget.py recalculate_spent each end in `db.commit()`, so they commit
everything flushed so far, not only their own write.
-/

/-- A live session: the durable state and the uncommitted working state. -/
structure Session where
  committed : DB
  pending : DB
deriving DecidableEq, Repr

/-- db.commit(). -/
def Session.commit (s : Session) : Session := ⟨s.pending, s.pending⟩

/-- db.rollback(). -/
def Session.rollback (s : Session) : Session := ⟨s.committed, s.committed⟩

/-- crud/account.py update_balance run inside a live session: it mutates the
matching account and then calls db.commit(), committing the whole session. -/
def update_balance_session (s : Session) (account_id : Nat) (amount_delta : Int)
    (user_id : Nat) : Session :=
  match get_account s.pending account_id user_id with
  | none => s
  | some _ =>
      Session.commit ⟨s.committed,
        { s.pending with accounts :=
            (updateFirstP (fun a => a.id == account_id && a.user_id == user_id)
              (fun a => { a with balance := a.balance + amount_delta })
              s.pending.accounts) }⟩

/-- crud/transaction.py create_transaction executed up to the point where
recalculate_spent raises (an expense transaction, so the budget
recalculation runs): the row insert and flush touch only the pending state,
but the update_balance call commits the session; the exception then
propagates and the surrounding boundary rolls the session back.  The
returned session is the durable outcome of the failed operation. -/
def create_transaction_budget_fault (s : Session) (data : TransactionCreate)
    (user_id : Nat) : Session :=
  let tags := get_or_create_tags data.tags
  let transaction : Transaction :=
    { id := s.pending.next_transaction_id
      user_id := user_id
      date := data.date
      type := data.type
      amount := data.amount
      category_id := data.category_id
      account_id := data.account_id
      description := data.description
      is_transfer := false
      transfer_group_id := none
      hide_from_summary := false
      tags := tags }
  let s1 : Session := ⟨s.committed,
    { s.pending with
      transactions := s.pending.transactions ++ [transaction]
      next_transaction_id := s.pending.next_transaction_id + 1 }⟩
  let delta := if data.type = TxType.income then data.amount else -data.amount
  let s2 := update_balance_session s1 data.account_id delta user_id
  Session.rollback s2

/-!
Invariants and operation sequences.
-/

/-- Sum of the signed amounts of the transactions in a list that are against
one account (income positive, expense negative; transfer legs are ordinary
rows and are counted the same way). -/
def signedSumL (ts : List Transaction) (acct : Nat) : Int :=
  ((ts.filter (fun t => t.account_id == acct)).map signedDelta).sum

/-- Sum of the signed amounts of all currently-existing transactions against
one account. -/
def signedSum (db : DB) (acct : Nat) : Int :=
  signedSumL db.transactions acct

/-- Balance conservation: every stored account balance equals the signed sum
of the existing transactions against that account. -/
def BalanceInv (db : DB) : Prop :=
  ∀ a ∈ db.accounts, a.balance = signedSum db a.id

/-- Budget consistency: every stored spent_amount equals the recomputed sum
for its (category, month) window. -/
def BudgetInv (db : DB) (u : Nat) : Prop :=
  ∀ b ∈ db.budgets, b.spent_amount = spentSum db b.category_id b.month u

/-- The opposite transaction type. -/
def oppositeType : TxType → TxType
  | TxType.income => TxType.expense
  | TxType.expense => TxType.income

/-- Transfer pairing: non-transfer rows carry no group id, and every transfer
leg belongs to a group shared by exactly two transactions that have opposite
types, different accounts and equal amounts. -/
def PairInv (db : DB) : Prop :=
  (∀ t ∈ db.transactions, t.is_transfer = false → t.transfer_group_id = none) ∧
  (∀ t ∈ db.transactions, t.is_transfer = true →
    ∃ g, t.transfer_group_id = some g ∧
      ∃ s ∈ db.transactions, s.id ≠ t.id ∧ s.is_transfer = true ∧
        s.transfer_group_id = some g ∧ s.type = oppositeType t.type ∧
        s.account_id ≠ t.account_id ∧ s.amount = t.amount ∧
        (db.transactions.filter
          (fun x => x.transfer_group_id == some g)).length = 2)

/-- Well-formedness of a single-user database: every row belongs to user `u`,
row ids are distinct and below the id counters, and budgets are normalised
first-of-month rows with unique (category, month) keys. -/
structure WF (db : DB) (u : Nat) : Prop where
  acct_user : ∀ a ∈ db.accounts, a.user_id = u
  acct_nodup : (db.accounts.map Account.id).Nodup
  txn_user : ∀ t ∈ db.transactions, t.user_id = u
  txn_nodup : (db.transactions.map Transaction.id).Nodup
  txn_fresh : ∀ t ∈ db.transactions, t.id < db.next_transaction_id
  gid_fresh : ∀ t ∈ db.transactions, ∀ g, t.transfer_group_id = some g →
    g < db.next_group_id
  budget_user : ∀ b ∈ db.budgets, b.user_id = u
  budget_keys_nodup : (db.budgets.map (fun b => (b.category_id, b.month))).Nodup
  budget_month_norm : ∀ b ∈ db.budgets, b.month.day = 1
  cat_user : ∀ c ∈ db.categories, c.user_id = u

/-- The operations quantified over by the balance-conservation claim:
transaction create/update/delete plus transfer creation (so that sequences
can produce the transfer legs the claim counts). -/
inductive Op where
  | create (data : TransactionCreate)
  | update (transaction_id : Nat) (data : TransactionUpdate)
  | delete (transaction_id : Nat)
  | transfer (data : TransferCreate)
deriving Repr

/-- Run one operation, keeping the database of a failed or not-found
operation unchanged. -/
def applyOp (u : Nat) (db : DB) : Op → DB
  | Op.create data => (create_transaction db data u).1
  | Op.update tid data =>
      match update_transaction db tid data u with
      | some r => r.1
      | none => db
  | Op.delete tid => (delete_transaction db tid u).getD db
  | Op.transfer data =>
      match create_transfer db data u with
      | Except.ok r => r.1
      | Except.error _ => db

/-- Run a sequence of operations. -/
def applyOps (u : Nat) (db : DB) (ops : List Op) : DB :=
  ops.foldl (applyOp u) db

/-- The operations quantified over by the budget-consistency claim:
transaction create/update/delete and the two bulk cascade deletes. -/
inductive MOp where
  | create (data : TransactionCreate)
  | update (transaction_id : Nat) (data : TransactionUpdate)
  | delete (transaction_id : Nat)
  | bulk_account (account_id : Nat)
  | bulk_category (category_id : Nat) (category_ids : Option (List Nat))
deriving Repr

/-- Run one budget-claim operation. -/
def applyMOp (u : Nat) (db : DB) : MOp → DB
  | MOp.create data => (create_transaction db data u).1
  | MOp.update tid data =>
      match update_transaction db tid data u with
      | some r => r.1
      | none => db
  | MOp.delete tid => (delete_transaction db tid u).getD db
  | MOp.bulk_account aid => (delete_transactions_by_account db aid u).1
  | MOp.bulk_category cid cids => (delete_transactions_by_category db cid u cids).1

/-- Run a sequence of budget-claim operations. -/
def applyMOps (u : Nat) (db : DB) (ops : List MOp) : DB :=
  ops.foldl (applyMOp u) db

/-- The router-level operations for the transfer-pairing claim: the HTTP
layer dispatches update/delete on a transfer leg to the transfer engine
(routers/transactions.py), so the pairing invariant is stated over these
entry points. -/
inductive ROp where
  | create (data : TransactionCreate)
  | update (transaction_id : Nat) (data : TransactionUpdate)
  | delete (transaction_id : Nat)
  | transfer (data : TransferCreate)
  | transfer_update (transaction_id : Nat) (data : TransactionUpdate)
deriving Repr

/-- Run one router-level operation. -/
def applyROp (u : Nat) (db : DB) : ROp → DB
  | ROp.create data => (create_transaction db data u).1
  | ROp.update tid data => router_update_transaction db tid data u
  | ROp.delete tid => router_delete_transaction db tid u
  | ROp.transfer data =>
      match create_transfer db data u with
      | Except.ok r => r.1
      | Except.error _ => db
  | ROp.transfer_update tid data =>
      match update_transfer db tid data u with
      | some r => r.1
      | none => db

/-- Run a sequence of router-level operations. -/
def applyROps (u : Nat) (db : DB) (ops : List ROp) : DB :=
  ops.foldl (applyROp u) db

/-!
Generic list toolkit.
-/

theorem updateFirstP_of_find_none {α : Type} {p : α → Bool} (f : α → α)
    {l : List α} (h : l.find? p = none) : updateFirstP p f l = l := by
  induction l with
  | nil => rfl
  | cons a l ih =>
    rw [List.find?_cons] at h
    cases hpa : p a with
    | true => rw [hpa] at h; cases h
    | false =>
      rw [hpa] at h
      simp only [updateFirstP, hpa]
      simp [ih h]

theorem find_decomposition {α : Type} {p : α → Bool} {x : α}
    {l : List α} (h : l.find? p = some x) :
    ∃ l₁ l₂, l = l₁ ++ x :: l₂ ∧ (∀ y ∈ l₁, p y = false) ∧ p x = true ∧
      (∀ f : α → α, updateFirstP p f l = l₁ ++ f x :: l₂) ∧
      l.eraseP p = l₁ ++ l₂ := by
  induction l with
  | nil => cases h
  | cons a l ih =>
    rw [List.find?_cons] at h
    cases hpa : p a with
    | true =>
      rw [hpa] at h
      cases h
      refine ⟨[], l, rfl, by simp, hpa, ?_, ?_⟩
      · intro f; simp [updateFirstP, hpa]
      · simp [List.eraseP_cons, hpa]
    | false =>
      rw [hpa] at h
      obtain ⟨l₁, l₂, hl, h₁, hx, hupd, herase⟩ := ih h
      refine ⟨a :: l₁, l₂, by rw [hl]; rfl, ?_, hx, ?_, ?_⟩
      · intro y hy
        rcases List.mem_cons.1 hy with rfl | hy
        · exact hpa
        · exact h₁ y hy
      · intro f
        simp only [updateFirstP, hpa]
        simp [hupd f]
      · simp [List.eraseP_cons, hpa, herase]

theorem eraseP_of_find_none {α : Type} {p : α → Bool}
    {l : List α} (h : l.find? p = none) : l.eraseP p = l := by
  rw [List.find?_eq_none] at h
  rw [List.eraseP_of_forall_not]
  intro a ha
  exact h a ha

theorem forall2_mem_right {α β : Type} {r : α → β → Prop}
    {l : List α} {l' : List β} (h : List.Forall₂ r l l') :
    ∀ b ∈ l', ∃ a ∈ l, r a b := by
  induction h with
  | nil => intro b hb; cases hb
  | cons hr _ ih =>
    intro b hb
    rcases List.mem_cons.1 hb with rfl | hb
    · exact ⟨_, List.mem_cons_self _ _, hr⟩
    · obtain ⟨a, ha, har⟩ := ih b hb
      exact ⟨a, List.mem_cons_of_mem _ ha, har⟩

theorem forall2_comp {α β γ : Type} {r : α → β → Prop} {s : β → γ → Prop}
    {l₁ : List α} {l₂ : List β} (h₁ : List.Forall₂ r l₁ l₂) :
    ∀ {l₃ : List γ}, List.Forall₂ s l₂ l₃ →
      List.Forall₂ (fun a c => ∃ b, r a b ∧ s b c) l₁ l₃ := by
  induction h₁ with
  | nil =>
    intro l₃ h₂
    cases h₂
    exact List.Forall₂.nil
  | cons hr _ ih =>
    intro l₃ h₂
    cases h₂ with
    | cons hs htl =>
      exact List.Forall₂.cons ⟨_, hr, hs⟩ (ih htl)

theorem updateFirstP_map_eq {α β : Type} {p : α → Bool} {f : α → α} {g : α → β}
    (hg : ∀ x, g (f x) = g x) : ∀ l : List α, (updateFirstP p f l).map g = l.map g := by
  intro l
  induction l with
  | nil => rfl
  | cons a l ih =>
    simp only [updateFirstP]
    cases hpa : p a with
    | true => simp [hg a]
    | false => simp [ih]

theorem signedSumL_append (ts₁ ts₂ : List Transaction) (acct : Nat) :
    signedSumL (ts₁ ++ ts₂) acct = signedSumL ts₁ acct + signedSumL ts₂ acct := by
  simp [signedSumL, List.filter_append]

theorem signedSumL_single (t : Transaction) (acct : Nat) :
    signedSumL [t] acct = if t.account_id = acct then signedDelta t else 0 := by
  by_cases h : t.account_id = acct
  · have hb : (t.account_id == acct) = true := by simpa using h
    simp [signedSumL, List.filter, hb, h]
  · have hb : (t.account_id == acct) = false := by simpa using h
    simp [signedSumL, List.filter, hb, h]

theorem signedSumL_cons (t : Transaction) (ts : List Transaction) (acct : Nat) :
    signedSumL (t :: ts) acct =
      (if t.account_id = acct then signedDelta t else 0) + signedSumL ts acct := by
  have := signedSumL_append [t] ts acct
  simp only [List.singleton_append] at this
  rw [this, signedSumL_single]

theorem spentSumL_append (ts₁ ts₂ : List Transaction) (c : Nat) (m : Date) (u : Nat) :
    spentSumL (ts₁ ++ ts₂) c m u = spentSumL ts₁ c m u + spentSumL ts₂ c m u := by
  simp [spentSumL, List.filter_append]

theorem spentSumL_single (t : Transaction) (c : Nat) (m : Date) (u : Nat) :
    spentSumL [t] c m u = if spentFilter c m u t then t.amount else 0 := by
  cases h : spentFilter c m u t <;> simp [spentSumL, List.filter, h]


theorem spentSumL_cons (t : Transaction) (ts : List Transaction) (c : Nat) (m : Date) (u : Nat) :
    spentSumL (t :: ts) c m u =
      (if spentFilter c m u t then t.amount else 0) + spentSumL ts c m u := by
  have := spentSumL_append [t] ts c m u
  simp only [List.singleton_append] at this
  rw [this, spentSumL_single]

/-!
Effect lemmas for the primitive operations.
-/

theorem update_balance_fst (db : DB) (aid : Nat) (δ : Int) (u : Nat) :
    (update_balance db aid δ u).1 =
      { db with accounts :=
          (updateFirstP (fun a => a.id == aid && a.user_id == u)
            (fun a => { a with balance := a.balance + δ }) db.accounts) } := by
  unfold update_balance get_account
  cases h : db.accounts.find? (fun a => a.id == aid && a.user_id == u) with
  | none =>
    simp only []
    rw [updateFirstP_of_find_none _ h]
  | some a => rfl

theorem recalculate_spent_eq (db : DB) (c : Nat) (m : Date) (u : Nat) :
    recalculate_spent db c m u =
      { db with budgets :=
          (updateFirstP (fun b => b.user_id == u && b.category_id == c && b.month == m)
            (fun b => { b with spent_amount := spentSum db c m u }) db.budgets) } := by
  unfold recalculate_spent get_budget_by_category_month
  cases h : db.budgets.find? (fun b => b.user_id == u && b.category_id == c && b.month == m) with
  | none =>
    simp only []
    rw [updateFirstP_of_find_none _ h]
  | some b => rfl

/-- Pointwise effect of update_balance on a well-formed single-user account
table: ids, users and names are untouched and the balance of the account with
the given id (and no other) moves by the delta. -/
theorem update_balance_spec (db : DB) (aid : Nat) (δ : Int) (u : Nat)
    (hu : ∀ a ∈ db.accounts, a.user_id = u)
    (hnd : (db.accounts.map Account.id).Nodup) :
    List.Forall₂ (fun a b => b.id = a.id ∧ b.user_id = a.user_id ∧ b.name = a.name ∧
        b.balance = a.balance + (if a.id = aid then δ else 0))
      db.accounts ((update_balance db aid δ u).1).accounts := by
  rw [update_balance_fst]
  simp only []
  cases hfind : db.accounts.find? (fun a => a.id == aid && a.user_id == u) with
  | none =>
    rw [updateFirstP_of_find_none _ hfind]
    rw [List.forall₂_same]
    intro a ha
    have hnp := List.find?_eq_none.1 hfind a ha
    have : a.id ≠ aid := by
      intro hc
      apply hnp
      simp [hc, hu a ha]
    simp [this]
  | some x =>
    obtain ⟨l₁, l₂, hl, h₁, hx, hupd, -⟩ := find_decomposition hfind
    rw [hupd]
    conv_lhs => rw [hl]
    have hxid : x.id = aid := by
      have := hx
      simp only [Bool.and_eq_true, beq_iff_eq] at this
      exact this.1
    have hnd' : ((l₁ ++ x :: l₂).map Account.id).Nodup := by rw [← hl]; exact hnd
    refine List.rel_append ?_ (List.Forall₂.cons ?_ ?_)
    · rw [List.forall₂_same]
      intro y hy
      have hnp := h₁ y hy
      have : y.id ≠ aid := by
        intro hc
        have hyu : y.user_id = u := hu y (by rw [hl]; exact List.mem_append_left _ hy)
        rw [hc, hyu] at hnp
        simp at hnp
      simp [this]
    · simp [hxid]
    · rw [List.forall₂_same]
      intro y hy
      have hnd2 : ((x :: l₂).map Account.id).Nodup := by
        rw [List.map_append] at hnd'
        exact hnd'.of_append_right
      have hxnot : x.id ∉ l₂.map Account.id := by
        rw [List.map_cons, List.nodup_cons] at hnd2
        exact hnd2.1
      have : y.id ≠ aid := by
        intro hc
        apply hxnot
        rw [hxid, ← hc]
        exact List.mem_map_of_mem Account.id hy
      simp [this]

@[simp]
theorem update_balance_transactions (db : DB) (aid : Nat) (δ : Int) (u : Nat) :
    ((update_balance db aid δ u).1).transactions = db.transactions := by
  rw [update_balance_fst]

@[simp]
theorem update_balance_budgets (db : DB) (aid : Nat) (δ : Int) (u : Nat) :
    ((update_balance db aid δ u).1).budgets = db.budgets := by
  rw [update_balance_fst]

@[simp]
theorem update_balance_categories (db : DB) (aid : Nat) (δ : Int) (u : Nat) :
    ((update_balance db aid δ u).1).categories = db.categories := by
  rw [update_balance_fst]

@[simp]
theorem update_balance_next_transaction_id (db : DB) (aid : Nat) (δ : Int) (u : Nat) :
    ((update_balance db aid δ u).1).next_transaction_id = db.next_transaction_id := by
  rw [update_balance_fst]

@[simp]
theorem update_balance_next_group_id (db : DB) (aid : Nat) (δ : Int) (u : Nat) :
    ((update_balance db aid δ u).1).next_group_id = db.next_group_id := by
  rw [update_balance_fst]

@[simp]
theorem update_balance_next_category_id (db : DB) (aid : Nat) (δ : Int) (u : Nat) :
    ((update_balance db aid δ u).1).next_category_id = db.next_category_id := by
  rw [update_balance_fst]

@[simp]
theorem update_balance_accounts_ids (db : DB) (aid : Nat) (δ : Int) (u : Nat) :
    ((update_balance db aid δ u).1).accounts.map Account.id =
      db.accounts.map Account.id := by
  rw [update_balance_fst]
  apply updateFirstP_map_eq
  intro x
  rfl

@[simp]
theorem update_balance_accounts_users (db : DB) (aid : Nat) (δ : Int) (u : Nat) :
    ((update_balance db aid δ u).1).accounts.map Account.user_id =
      db.accounts.map Account.user_id := by
  rw [update_balance_fst]
  apply updateFirstP_map_eq
  intro x
  rfl

@[simp]
theorem recalculate_spent_transactions (db : DB) (c : Nat) (m : Date) (u : Nat) :
    (recalculate_spent db c m u).transactions = db.transactions := by
  rw [recalculate_spent_eq]

@[simp]
theorem recalculate_spent_accounts (db : DB) (c : Nat) (m : Date) (u : Nat) :
    (recalculate_spent db c m u).accounts = db.accounts := by
  rw [recalculate_spent_eq]

@[simp]
theorem recalculate_spent_categories (db : DB) (c : Nat) (m : Date) (u : Nat) :
    (recalculate_spent db c m u).categories = db.categories := by
  rw [recalculate_spent_eq]

@[simp]
theorem recalculate_spent_next_transaction_id (db : DB) (c : Nat) (m : Date) (u : Nat) :
    (recalculate_spent db c m u).next_transaction_id = db.next_transaction_id := by
  rw [recalculate_spent_eq]

@[simp]
theorem recalculate_spent_next_group_id (db : DB) (c : Nat) (m : Date) (u : Nat) :
    (recalculate_spent db c m u).next_group_id = db.next_group_id := by
  rw [recalculate_spent_eq]

@[simp]
theorem recalculate_spent_next_category_id (db : DB) (c : Nat) (m : Date) (u : Nat) :
    (recalculate_spent db c m u).next_category_id = db.next_category_id := by
  rw [recalculate_spent_eq]

/-- The budget key (category, month) of a row. -/
def budgetKey (b : Budget) : Nat × Date := (b.category_id, b.month)

@[simp]
theorem recalculate_spent_budget_keys (db : DB) (c : Nat) (m : Date) (u : Nat) :
    (recalculate_spent db c m u).budgets.map budgetKey = db.budgets.map budgetKey := by
  rw [recalculate_spent_eq]
  apply updateFirstP_map_eq
  intro x
  rfl

@[simp]
theorem recalculate_spent_budget_users (db : DB) (c : Nat) (m : Date) (u : Nat) :
    (recalculate_spent db c m u).budgets.map Budget.user_id =
      db.budgets.map Budget.user_id := by
  rw [recalculate_spent_eq]
  apply updateFirstP_map_eq
  intro x
  rfl

/-- Pointwise effect of recalculate_spent on a well-formed single-user budget
table: only the spent_amount of the budget with the targeted (category,
month) key changes, and it becomes the recomputed aggregate. -/
theorem recalculate_spent_spec (db : DB) (c : Nat) (m : Date) (u : Nat)
    (hu : ∀ b ∈ db.budgets, b.user_id = u)
    (hnd : (db.budgets.map budgetKey).Nodup) :
    List.Forall₂ (fun b b2 => b2.id = b.id ∧ b2.user_id = b.user_id ∧
        b2.category_id = b.category_id ∧ b2.month = b.month ∧
        b2.limit_amount = b.limit_amount ∧
        b2.spent_amount = (if b.category_id = c ∧ b.month = m then
          spentSum db c m u else b.spent_amount))
      db.budgets (recalculate_spent db c m u).budgets := by
  rw [recalculate_spent_eq]
  simp only []
  cases hfind : db.budgets.find?
      (fun b => b.user_id == u && b.category_id == c && b.month == m) with
  | none =>
    rw [updateFirstP_of_find_none _ hfind]
    rw [List.forall₂_same]
    intro b hb
    have hnp := List.find?_eq_none.1 hfind b hb
    have : ¬(b.category_id = c ∧ b.month = m) := by
      rintro ⟨h1, h2⟩
      apply hnp
      simp [h1, h2, hu b hb]
    simp [this]
  | some x =>
    obtain ⟨l₁, l₂, hl, h₁, hx, hupd, -⟩ := find_decomposition hfind
    rw [hupd]
    conv_lhs => rw [hl]
    have hxkey : x.category_id = c ∧ x.month = m := by
      simp only [Bool.and_eq_true, beq_iff_eq] at hx
      exact ⟨hx.1.2, hx.2⟩
    have hnd' : ((l₁ ++ x :: l₂).map budgetKey).Nodup := by rw [← hl]; exact hnd
    refine List.rel_append ?_ (List.Forall₂.cons ?_ ?_)
    · rw [List.forall₂_same]
      intro y hy
      have hnp := h₁ y hy
      have : ¬(y.category_id = c ∧ y.month = m) := by
        rintro ⟨h1, h2⟩
        have hyu : y.user_id = u := hu y (by rw [hl]; exact List.mem_append_left _ hy)
        rw [h1, h2, hyu] at hnp
        simp at hnp
      simp [this]
    · simp [hxkey]
    · rw [List.forall₂_same]
      intro y hy
      have hnd2 : ((x :: l₂).map budgetKey).Nodup := by
        rw [List.map_append] at hnd'
        exact hnd'.of_append_right
      have hxnot : budgetKey x ∉ l₂.map budgetKey := by
        rw [List.map_cons, List.nodup_cons] at hnd2
        exact hnd2.1
      have : ¬(y.category_id = c ∧ y.month = m) := by
        rintro ⟨h1, h2⟩
        apply hxnot
        have : budgetKey x = budgetKey y := by
          simp [budgetKey, hxkey.1, hxkey.2, h1, h2]
        rw [this]
        exact List.mem_map_of_mem budgetKey hy
      simp [this]

/-- Transport a pointwise property of a projection along a map equality. -/
theorem forall_of_map_eq {α β : Type} (g : α → β) (P : β → Prop) {l l' : List α}
    (h : l'.map g = l.map g) (hp : ∀ x ∈ l, P (g x)) : ∀ x ∈ l', P (g x) := by
  intro x hx
  have hm : g x ∈ l'.map g := List.mem_map_of_mem g hx
  rw [h] at hm
  obtain ⟨y, hy, he⟩ := List.mem_map.1 hm
  rw [← he]
  exact hp y hy

/-- Membership-level form of update_balance_spec. -/
theorem update_balance_pointwise (db : DB) (aid : Nat) (δ : Int) (u : Nat)
    (hu : ∀ a ∈ db.accounts, a.user_id = u)
    (hnd : (db.accounts.map Account.id).Nodup) :
    ∀ b ∈ ((update_balance db aid δ u).1).accounts, ∃ a ∈ db.accounts,
      b.id = a.id ∧ b.user_id = a.user_id ∧
      b.balance = a.balance + (if a.id = aid then δ else 0) := by
  intro b hb
  obtain ⟨a, ha, h1, h2, h3, h4⟩ :=
    forall2_mem_right (update_balance_spec db aid δ u hu hnd) b hb
  exact ⟨a, ha, h1, h2, h4⟩

/-- Balance conservation is preserved by create_transaction. -/
theorem create_transaction_conserves (db : DB) (data : TransactionCreate) (u : Nat)
    (hu : ∀ a ∈ db.accounts, a.user_id = u)
    (hnd : (db.accounts.map Account.id).Nodup)
    (hinv : BalanceInv db) :
    BalanceInv (create_transaction db data u).1 := by
  unfold create_transaction
  simp only []
  set t : Transaction :=
    { id := db.next_transaction_id
      user_id := u
      date := data.date
      type := data.type
      amount := data.amount
      category_id := data.category_id
      account_id := data.account_id
      description := data.description
      is_transfer := false
      transfer_group_id := none
      hide_from_summary := false
      tags := get_or_create_tags data.tags } with ht
  set db1 : DB := { db with
    transactions := db.transactions ++ [t]
    next_transaction_id := db.next_transaction_id + 1 } with hdb1
  set δ : Int := if data.type = TxType.income then data.amount else -data.amount with hδ
  set db2 : DB := (update_balance db1 data.account_id δ u).1 with hdb2
  have hacc1 : db1.accounts = db.accounts := rfl
  have htx1 : db1.transactions = db.transactions ++ [t] := rfl
  have hδt : δ = signedDelta t := rfl
  have hpoint := update_balance_pointwise db1 data.account_id δ u
    (by rw [hacc1]; exact hu) (by rw [hacc1]; exact hnd)
  have htx2 : db2.transactions = db.transactions ++ [t] := by
    rw [hdb2, update_balance_transactions, htx1]
  have key : BalanceInv db2 := by
    intro b hb
    obtain ⟨a, ha, hid, huser, hbal⟩ := hpoint b hb
    rw [hacc1] at ha
    have hsum : signedSum db2 b.id =
        signedSum db b.id + (if t.account_id = b.id then signedDelta t else 0) := by
      unfold signedSum
      rw [htx2, signedSumL_append, signedSumL_single]
    rw [hsum, hid, hbal, hinv a ha, hδt]
    have : t.account_id = data.account_id := rfl
    rw [this]
    by_cases hcase : a.id = data.account_id
    · simp [hcase]
    · have : ¬(data.account_id = a.id) := fun hc => hcase hc.symm
      simp [hcase, this]
  by_cases hdt : data.type = TxType.expense
  · rw [if_pos hdt]
    intro b hb
    rw [recalculate_spent_accounts] at hb
    have hsum : signedSum (recalculate_spent db2 data.category_id (monthFloor data.date) u) b.id
        = signedSum db2 b.id := by
      unfold signedSum
      rw [recalculate_spent_transactions]
    rw [hsum]
    exact key b hb
  · rw [if_neg hdt]
    exact key

@[simp]
theorem ite_recalc_accounts (cond : Prop) [Decidable cond] (db : DB) (c : Nat)
    (m : Date) (u : Nat) :
    (if cond then recalculate_spent db c m u else db).accounts = db.accounts := by
  by_cases h : cond <;> simp [h]

@[simp]
theorem ite_recalc_transactions (cond : Prop) [Decidable cond] (db : DB) (c : Nat)
    (m : Date) (u : Nat) :
    (if cond then recalculate_spent db c m u else db).transactions = db.transactions := by
  by_cases h : cond <;> simp [h]

/-- Push a negation out of a conditional delta. -/
theorem ite_neg (c : Prop) [Decidable c] (v : Int) :
    (if c then -v else 0) = -(if c then v else 0) := by
  by_cases h : c <;> simp [h]

/-- Symmetric form of the conditional delta. -/
theorem ite_eq_comm (a b : Nat) (x : Int) :
    (if a = b then x else 0) = (if b = a then x else 0) := by
  by_cases h : a = b
  · simp [h]
  · have h2 : ¬b = a := fun hc => h hc.symm
    simp [h, h2]

/-- Balance conservation is preserved by update_transaction. -/
theorem update_transaction_conserves (db : DB) (tid : Nat) (data : TransactionUpdate)
    (u : Nat)
    (hu : ∀ a ∈ db.accounts, a.user_id = u)
    (hnd : (db.accounts.map Account.id).Nodup)
    (hinv : BalanceInv db) :
    ∀ r, update_transaction db tid data u = some r → BalanceInv r.1 := by
  intro r hr
  unfold update_transaction at hr
  cases hget : get_transaction db tid u with
  | none => rw [hget] at hr; cases hr
  | some t0 =>
    rw [hget] at hr
    simp only [] at hr
    cases hr
    obtain ⟨l₁, l₂, hl, h₁, hq, hupd, -⟩ := find_decomposition hget
    set t1 := applyPatch t0 data with ht1
    set db1 : DB := { db with transactions :=
      (updateFirstP (fun t => t.id == tid && t.user_id == u)
        (fun t => applyPatch t data) db.transactions) } with hdb1
    have htx1 : db1.transactions = l₁ ++ t1 :: l₂ := by
      show updateFirstP _ _ db.transactions = _
      rw [hupd]
    have hacc1 : db1.accounts = db.accounts := rfl
    set oldδ : Int := if t0.type = TxType.income then t0.amount else -t0.amount with holdδ
    set db2 : DB := (update_balance db1 t0.account_id (-oldδ) u).1 with hdb2
    set newδ : Int := if t1.type = TxType.income then t1.amount else -t1.amount with hnewδ
    set db3 : DB := (update_balance db2 t1.account_id newδ u).1 with hdb3
    have holdsd : oldδ = signedDelta t0 := rfl
    have hnewsd : newδ = signedDelta t1 := rfl
    have hsum1 : ∀ acct, signedSumL db1.transactions acct =
        signedSumL db.transactions acct
          - (if t0.account_id = acct then signedDelta t0 else 0)
          + (if t1.account_id = acct then signedDelta t1 else 0) := by
      intro acct
      rw [htx1]
      conv_rhs => rw [hl]
      have e0 : signedSumL (l₁ ++ t0 :: l₂) acct =
          signedSumL l₁ acct + ((if t0.account_id = acct then signedDelta t0 else 0)
            + signedSumL l₂ acct) := by
        rw [signedSumL_append, signedSumL_cons]
      have e1 : signedSumL (l₁ ++ t1 :: l₂) acct =
          signedSumL l₁ acct + ((if t1.account_id = acct then signedDelta t1 else 0)
            + signedSumL l₂ acct) := by
        rw [signedSumL_append, signedSumL_cons]
      rw [e0, e1]
      ring
    have hpoint2 := update_balance_pointwise db1 t0.account_id (-oldδ) u
      (by rw [hacc1]; exact hu) (by rw [hacc1]; exact hnd)
    have hacc2ids : db2.accounts.map Account.id = db.accounts.map Account.id := by
      rw [hdb2, update_balance_accounts_ids, hacc1]
    have hacc2users : db2.accounts.map Account.user_id =
        db.accounts.map Account.user_id := by
      rw [hdb2, update_balance_accounts_users, hacc1]
    have hu2 : ∀ a ∈ db2.accounts, a.user_id = u := by
      have := forall_of_map_eq Account.user_id (fun v => v = u) hacc2users hu
      exact this
    have hnd2 : (db2.accounts.map Account.id).Nodup := by rw [hacc2ids]; exact hnd
    have hpoint3 := update_balance_pointwise db2 t1.account_id newδ u hu2 hnd2
    have htx3 : db3.transactions = db1.transactions := by
      rw [hdb3, update_balance_transactions, hdb2, update_balance_transactions]
    have key : BalanceInv db3 := by
      intro b hb
      obtain ⟨a2, ha2, hid2, huser2, hbal2⟩ := hpoint3 b hb
      obtain ⟨a, ha, hid1, huser1, hbal1⟩ := hpoint2 a2 ha2
      rw [hacc1] at ha
      have hsum : signedSum db3 b.id = signedSumL db1.transactions b.id := by
        unfold signedSum
        rw [htx3]
      rw [hsum, hsum1, hid2, hid1]
      have hinva : a.balance = signedSumL db.transactions a.id := hinv a ha
      rw [hbal2, hbal1, hinva, hid1, holdsd, hnewsd]
      rw [ite_eq_comm t0.account_id a.id, ite_eq_comm t1.account_id a.id, ite_neg]
      ring
    intro b hb
    simp only [ite_recalc_accounts] at hb
    have : signedSum (if t1.type = TxType.expense then
        recalculate_spent (if t0.type = TxType.expense then
          recalculate_spent db3 t0.category_id (monthFloor t0.date) u else db3)
          t1.category_id (monthFloor t1.date) u
        else (if t0.type = TxType.expense then
          recalculate_spent db3 t0.category_id (monthFloor t0.date) u else db3)) b.id
        = signedSum db3 b.id := by
      unfold signedSum
      simp only [ite_recalc_transactions]
    rw [this]
    exact key b hb

/-- Balance conservation is preserved by delete_transaction. -/
theorem delete_transaction_conserves (db : DB) (tid : Nat) (u : Nat)
    (hu : ∀ a ∈ db.accounts, a.user_id = u)
    (hnd : (db.accounts.map Account.id).Nodup)
    (hinv : BalanceInv db) :
    ∀ r, delete_transaction db tid u = some r → BalanceInv r := by
  intro r hr
  unfold delete_transaction at hr
  cases hget : get_transaction db tid u with
  | none => rw [hget] at hr; cases hr
  | some t0 =>
    rw [hget] at hr
    simp only [] at hr
    cases hr
    obtain ⟨l₁, l₂, hl, h₁, hq, -, herase⟩ := find_decomposition hget
    set db1 : DB := { db with transactions :=
      (db.transactions.eraseP (fun x => x.id == tid && x.user_id == u)) } with hdb1
    have htx1 : db1.transactions = l₁ ++ l₂ := by
      show db.transactions.eraseP _ = _
      rw [herase]
    have hacc1 : db1.accounts = db.accounts := rfl
    set δ : Int := if t0.type = TxType.income then t0.amount else -t0.amount with hδ
    set db2 : DB := (update_balance db1 t0.account_id (-δ) u).1 with hdb2
    have hsd : δ = signedDelta t0 := rfl
    have hsum1 : ∀ acct, signedSumL db1.transactions acct =
        signedSumL db.transactions acct
          - (if t0.account_id = acct then signedDelta t0 else 0) := by
      intro acct
      rw [htx1]
      conv_rhs => rw [hl]
      rw [signedSumL_append]
      conv_rhs => rw [signedSumL_append, signedSumL_cons]
      ring
    have hpoint := update_balance_pointwise db1 t0.account_id (-δ) u
      (by rw [hacc1]; exact hu) (by rw [hacc1]; exact hnd)
    have htx2 : db2.transactions = db1.transactions := by
      rw [hdb2, update_balance_transactions]
    have key : BalanceInv db2 := by
      intro b hb
      obtain ⟨a, ha, hid, huser, hbal⟩ := hpoint b hb
      rw [hacc1] at ha
      have hsum : signedSum db2 b.id = signedSumL db1.transactions b.id := by
        unfold signedSum
        rw [htx2]
      rw [hsum, hsum1, hid]
      have hinva : a.balance = signedSumL db.transactions a.id := hinv a ha
      rw [hbal, hinva, hsd]
      rw [ite_eq_comm t0.account_id a.id, ite_neg]
      ring
    intro b hb
    simp only [ite_recalc_accounts] at hb
    have : signedSum (if t0.type = TxType.expense then
        recalculate_spent db2 t0.category_id (monthFloor t0.date) u else db2) b.id
        = signedSum db2 b.id := by
      unfold signedSum
      simp only [ite_recalc_transactions]
    rw [this]
    exact key b hb

@[simp]
theorem ensure_transfer_categories_accounts (db : DB) (u : Nat) :
    (ensure_transfer_categories db u).1.accounts = db.accounts := by
  unfold ensure_transfer_categories
  cases get_category_by_name db "Outgoing transfer" u <;>
    simp only [] <;>
    cases hgi : get_category_by_name { db with
        categories := db.categories ++ [⟨db.next_category_id, u, "Outgoing transfer",
          TxType.expense, none, true⟩]
        next_category_id := db.next_category_id + 1 } "Incoming transfer" u <;>
    first
      | rfl
      | (cases get_category_by_name db "Incoming transfer" u <;> rfl)

/-- ensure_transfer_categories only touches the category table and its id
counter. -/
theorem ensure_transfer_categories_only_categories (db : DB) (u : Nat) :
    (ensure_transfer_categories db u).1.accounts = db.accounts ∧
    (ensure_transfer_categories db u).1.budgets = db.budgets ∧
    (ensure_transfer_categories db u).1.transactions = db.transactions ∧
    (ensure_transfer_categories db u).1.next_transaction_id = db.next_transaction_id ∧
    (ensure_transfer_categories db u).1.next_group_id = db.next_group_id := by
  unfold ensure_transfer_categories
  cases get_category_by_name db "Outgoing transfer" u <;>
    simp only [] <;>
    (first
      | (cases get_category_by_name { db with
            categories := db.categories ++ [⟨db.next_category_id, u, "Outgoing transfer",
              TxType.expense, none, true⟩]
            next_category_id := db.next_category_id + 1 } "Incoming transfer" u <;>
          exact ⟨rfl, rfl, rfl, rfl, rfl⟩)
      | (cases get_category_by_name db "Incoming transfer" u <;>
          exact ⟨rfl, rfl, rfl, rfl, rfl⟩))

/-- Balance conservation is preserved by create_transfer. -/
theorem create_transfer_conserves (db : DB) (data : TransferCreate) (u : Nat)
    (hu : ∀ a ∈ db.accounts, a.user_id = u)
    (hnd : (db.accounts.map Account.id).Nodup)
    (hinv : BalanceInv db) :
    ∀ r, create_transfer db data u = Except.ok r → BalanceInv r.1 := by
  intro r hr
  unfold create_transfer at hr
  by_cases hsame : data.from_account_id = data.to_account_id
  · rw [if_pos hsame] at hr; cases hr
  rw [if_neg hsame] at hr
  simp only [] at hr
  cases hr
  obtain ⟨heacc, hebud, hetx, henid, hegid⟩ :=
    ensure_transfer_categories_only_categories db u
  set db1 : DB := (ensure_transfer_categories db u).1 with hdb1
  set outgoing : Transaction :=
    { id := db1.next_transaction_id
      user_id := u
      date := data.date
      type := TxType.expense
      amount := data.amount
      category_id := (ensure_transfer_categories db u).2.1
      account_id := data.from_account_id
      description := data.description
      is_transfer := true
      transfer_group_id := some db1.next_group_id
      hide_from_summary := data.hide_from_summary
      tags := [] } with hout
  set incoming : Transaction :=
    { id := db1.next_transaction_id + 1
      user_id := u
      date := data.date
      type := TxType.income
      amount := data.amount
      category_id := (ensure_transfer_categories db u).2.2
      account_id := data.to_account_id
      description := data.description
      is_transfer := true
      transfer_group_id := some db1.next_group_id
      hide_from_summary := data.hide_from_summary
      tags := [] } with hinc
  set db2 : DB := { db1 with
    transactions := db1.transactions ++ [outgoing, incoming]
    next_transaction_id := db1.next_transaction_id + 2
    next_group_id := db1.next_group_id + 1 } with hdb2
  have hacc2 : db2.accounts = db.accounts := by
    show db1.accounts = db.accounts
    exact heacc
  have htx2 : db2.transactions = db.transactions ++ [outgoing, incoming] := by
    show db1.transactions ++ [outgoing, incoming] = _
    rw [hetx]
  set db3 : DB := (update_balance db2 data.from_account_id (-data.amount) u).1 with hdb3
  set db4 : DB := (update_balance db3 data.to_account_id data.amount u).1 with hdb4
  have hpoint3 := update_balance_pointwise db2 data.from_account_id (-data.amount) u
    (by rw [hacc2]; exact hu) (by rw [hacc2]; exact hnd)
  have hacc3ids : db3.accounts.map Account.id = db.accounts.map Account.id := by
    rw [hdb3, update_balance_accounts_ids, hacc2]
  have hacc3users : db3.accounts.map Account.user_id =
      db.accounts.map Account.user_id := by
    rw [hdb3, update_balance_accounts_users, hacc2]
  have hu3 : ∀ a ∈ db3.accounts, a.user_id = u :=
    forall_of_map_eq Account.user_id (fun v => v = u) hacc3users hu
  have hnd3 : (db3.accounts.map Account.id).Nodup := by rw [hacc3ids]; exact hnd
  have hpoint4 := update_balance_pointwise db3 data.to_account_id data.amount u hu3 hnd3
  have htx4 : db4.transactions = db.transactions ++ [outgoing, incoming] := by
    rw [hdb4, update_balance_transactions, hdb3, update_balance_transactions, htx2]
  intro b hb
  obtain ⟨a3, ha3, hid4, huser4, hbal4⟩ := hpoint4 b hb
  obtain ⟨a, ha, hid3, huser3, hbal3⟩ := hpoint3 a3 ha3
  rw [hacc2] at ha
  have hsum : signedSum db4 b.id =
      signedSumL db.transactions b.id
        + (if outgoing.account_id = b.id then signedDelta outgoing else 0)
        + (if incoming.account_id = b.id then signedDelta incoming else 0) := by
    unfold signedSum
    rw [htx4]
    have : (db.transactions ++ [outgoing, incoming]) =
        (db.transactions ++ [outgoing]) ++ [incoming] := by simp
    rw [this, signedSumL_append, signedSumL_append, signedSumL_single, signedSumL_single]
  have hsdo : signedDelta outgoing = -data.amount := rfl
  have hsdi : signedDelta incoming = data.amount := rfl
  have hao : outgoing.account_id = data.from_account_id := rfl
  have hai : incoming.account_id = data.to_account_id := rfl
  have hinva : a.balance = signedSumL db.transactions a.id := hinv a ha
  rw [hsum, hid4, hid3, hbal4, hbal3, hinva, hid3, hsdo, hsdi, hao, hai]
  rw [ite_eq_comm data.from_account_id a.id, ite_eq_comm data.to_account_id a.id,
    ite_neg]

/-- Single-user well-formedness of the account table. -/
def AcctWF (db : DB) (u : Nat) : Prop :=
  (∀ a ∈ db.accounts, a.user_id = u) ∧ (db.accounts.map Account.id).Nodup

/-- No engine operation adds or removes account rows or changes their ids or
owners. -/
theorem applyOp_accounts_maps (u : Nat) (db : DB) (op : Op) :
    (applyOp u db op).accounts.map Account.id = db.accounts.map Account.id ∧
    (applyOp u db op).accounts.map Account.user_id = db.accounts.map Account.user_id := by
  cases op with
  | create data =>
    simp only [applyOp]
    unfold create_transaction
    simp only []
    constructor <;>
      simp [ite_recalc_accounts]
  | update tid data =>
    simp only [applyOp]
    cases hupd : update_transaction db tid data u with
    | none => exact ⟨rfl, rfl⟩
    | some r =>
      unfold update_transaction at hupd
      cases hget : get_transaction db tid u with
      | none => rw [hget] at hupd; cases hupd
      | some t0 =>
        rw [hget] at hupd
        simp only [] at hupd
        cases hupd
        constructor <;> simp [ite_recalc_accounts]
  | delete tid =>
    simp only [applyOp]
    cases hdel : delete_transaction db tid u with
    | none => exact ⟨rfl, rfl⟩
    | some r =>
      unfold delete_transaction at hdel
      cases hget : get_transaction db tid u with
      | none => rw [hget] at hdel; cases hdel
      | some t0 =>
        rw [hget] at hdel
        simp only [] at hdel
        cases hdel
        simp only [Option.getD_some]
        constructor <;> simp [ite_recalc_accounts]
  | transfer data =>
    simp only [applyOp]
    cases htr : create_transfer db data u with
    | error e => exact ⟨rfl, rfl⟩
    | ok r =>
      unfold create_transfer at htr
      by_cases hsame : data.from_account_id = data.to_account_id
      · rw [if_pos hsame] at htr; cases htr
      · rw [if_neg hsame] at htr
        simp only [] at htr
        cases htr
        obtain ⟨heacc, -, -, -, -⟩ := ensure_transfer_categories_only_categories db u
        constructor <;> simp [heacc]

/-- AcctWF is preserved by every operation. -/
theorem applyOp_acctWF (u : Nat) (db : DB) (op : Op) (h : AcctWF db u) :
    AcctWF (applyOp u db op) u := by
  obtain ⟨hids, husers⟩ := applyOp_accounts_maps u db op
  exact ⟨forall_of_map_eq Account.user_id (fun v => v = u) husers h.1,
    by rw [hids]; exact h.2⟩

/-- Balance conservation is preserved by every operation of the claim. -/
theorem applyOp_conserves (u : Nat) (db : DB) (op : Op) (hwf : AcctWF db u)
    (hinv : BalanceInv db) : BalanceInv (applyOp u db op) := by
  cases op with
  | create data => exact create_transaction_conserves db data u hwf.1 hwf.2 hinv
  | update tid data =>
    simp only [applyOp]
    cases hget : update_transaction db tid data u with
    | none => exact hinv
    | some r => exact update_transaction_conserves db tid data u hwf.1 hwf.2 hinv r hget
  | delete tid =>
    simp only [applyOp]
    cases hget : delete_transaction db tid u with
    | none => exact hinv
    | some r =>
      simp only [Option.getD_some]
      exact delete_transaction_conserves db tid u hwf.1 hwf.2 hinv r hget
  | transfer data =>
    simp only [applyOp]
    cases hget : create_transfer db data u with
    | error e => exact hinv
    | ok r => exact create_transfer_conserves db data u hwf.1 hwf.2 hinv r hget

/-- Balance conservation holds after any operation sequence. -/
theorem applyOps_conserves (u : Nat) (ops : List Op) : ∀ (db : DB),
    AcctWF db u → BalanceInv db → BalanceInv (applyOps u db ops) := by
  induction ops with
  | nil => intro db _ hinv; exact hinv
  | cons op rest ih =>
    intro db hwf hinv
    exact ih (applyOp u db op) (applyOp_acctWF u db op hwf)
      (applyOp_conserves u db op hwf hinv)

/-- Claim C1: balance conservation.  For every account of a well-formed
single-user database whose balances initially agree with the signed
transaction sums (e.g. a fresh database), after any sequence of transaction
create/update/delete operations (with transfer creation included so that the
sequences can produce transfer legs, which the sum counts like ordinary
rows), every account's stored balance equals the sum of signed amounts of
all currently-existing transactions against that account, counting income
as +amount and expense as -amount. -/
theorem claim_C1_balance_conservation (u : Nat) (db : DB) (ops : List Op)
    (husers : ∀ a ∈ db.accounts, a.user_id = u)
    (hnd : (db.accounts.map Account.id).Nodup)
    (hinit : ∀ a ∈ db.accounts, a.balance = signedSum db a.id) :
    ∀ a ∈ (applyOps u db ops).accounts,
      a.balance = signedSum (applyOps u db ops) a.id :=
  applyOps_conserves u ops db ⟨husers, hnd⟩ hinit

/-- Concrete database for the conservation witness: two fresh accounts, one
category, no transactions. -/
def exC1db : DB :=
  { accounts := [⟨1, 7, "cash", 0⟩, ⟨2, 7, "bank", 0⟩]
    categories := [⟨10, 7, "Food", TxType.expense, none, false⟩]
    budgets := []
    transactions := []
    next_transaction_id := 100
    next_category_id := 20
    next_group_id := 50 }

/-- Concrete operation sequence for the conservation witness: an expense, a
transfer, an amount update and a delete. -/
def exC1ops : List Op :=
  [Op.create ⟨⟨2024, 1, 15⟩, TxType.expense, 50000, 10, 1, "groceries", []⟩,
   Op.transfer ⟨1, 2, 30000, ⟨2024, 1, 16⟩, "move", true⟩,
   Op.update 100 { amount := some 20000 },
   Op.delete 100]

theorem claim_C1_balance_conservation_witness :
    ((applyOps 7 exC1db exC1ops).accounts.all
      (fun a => a.balance == signedSum (applyOps 7 exC1db exC1ops) a.id)) =
      true := by
  have h := claim_C1_balance_conservation 7 exC1db exC1ops (by decide)
    (by decide) (by decide)
  rw [List.all_eq_true]
  intro a ha
  simpa using h a ha

/-- Single-user well-formedness of the budget table: owner, unique
(category, month) keys, normalised first-of-month months. -/
def BudgetWF (db : DB) (u : Nat) : Prop :=
  (∀ b ∈ db.budgets, b.user_id = u) ∧ (db.budgets.map budgetKey).Nodup ∧
  (∀ b ∈ db.budgets, b.month.day = 1)

/-- Effect on the budget table of a conditional recalculation (the
`if expense: recalculate_spent(...)` pattern of the transaction engine). -/
theorem cond_recalc_budgets_spec (db : DB) (cond : Prop) [Decidable cond]
    (c : Nat) (m : Date) (u : Nat)
    (hu : ∀ b ∈ db.budgets, b.user_id = u)
    (hnd : (db.budgets.map budgetKey).Nodup) :
    List.Forall₂ (fun b b2 => b2.id = b.id ∧ b2.user_id = b.user_id ∧
        b2.category_id = b.category_id ∧ b2.month = b.month ∧
        b2.limit_amount = b.limit_amount ∧
        b2.spent_amount = (if cond ∧ b.category_id = c ∧ b.month = m then
          spentSumL db.transactions c m u else b.spent_amount))
      db.budgets ((if cond then recalculate_spent db c m u else db).budgets) := by
  by_cases h : cond
  · rw [if_pos h]
    refine List.Forall₂.imp ?_ (recalculate_spent_spec db c m u hu hnd)
    intro b b2 hb
    obtain ⟨h1, h2, h3, h4, h5, h6⟩ := hb
    refine ⟨h1, h2, h3, h4, h5, ?_⟩
    rw [h6]
    by_cases hk : b.category_id = c ∧ b.month = m
    · simp [hk, h, spentSum]
    · simp [hk, h]
  · rw [if_neg h]
    rw [List.forall₂_same]
    intro b _
    exact ⟨rfl, rfl, rfl, rfl, rfl, by simp [h]⟩

@[simp]
theorem fold_recalc_transactions (u : Nat) (keys : List (Nat × Date)) : ∀ (db : DB),
    (keys.foldl (fun d kv => recalculate_spent d kv.1 kv.2 u) db).transactions =
      db.transactions := by
  induction keys with
  | nil => intro db; rfl
  | cons k rest ih =>
    intro db
    simp only [List.foldl_cons]
    rw [ih, recalculate_spent_transactions]

@[simp]
theorem fold_recalc_accounts (u : Nat) (keys : List (Nat × Date)) : ∀ (db : DB),
    (keys.foldl (fun d kv => recalculate_spent d kv.1 kv.2 u) db).accounts =
      db.accounts := by
  induction keys with
  | nil => intro db; rfl
  | cons k rest ih =>
    intro db
    simp only [List.foldl_cons]
    rw [ih, recalculate_spent_accounts]

/-- Effect of the bulk operations' budget recalculation loop: every budget
whose (category, month) key occurs in the recalculated key list ends at the
recomputed aggregate, all others keep their spent_amount. -/
theorem fold_recalc_budgets_spec (u : Nat) (keys : List (Nat × Date)) : ∀ (db : DB),
    (∀ b ∈ db.budgets, b.user_id = u) → (db.budgets.map budgetKey).Nodup →
    List.Forall₂ (fun b b2 => b2.id = b.id ∧ b2.user_id = b.user_id ∧
        b2.category_id = b.category_id ∧ b2.month = b.month ∧
        b2.limit_amount = b.limit_amount ∧
        b2.spent_amount = (if budgetKey b ∈ keys then
          spentSumL db.transactions b.category_id b.month u else b.spent_amount))
      db.budgets
      ((keys.foldl (fun d kv => recalculate_spent d kv.1 kv.2 u) db).budgets) := by
  induction keys with
  | nil =>
    intro db hu hnd
    simp only [List.foldl_nil]
    rw [List.forall₂_same]
    intro b _
    exact ⟨rfl, rfl, rfl, rfl, rfl, by simp⟩
  | cons k rest ih =>
    intro db hu hnd
    simp only [List.foldl_cons]
    have hspec1 := recalculate_spent_spec db k.1 k.2 u hu hnd
    have hu1 : ∀ b ∈ (recalculate_spent db k.1 k.2 u).budgets, b.user_id = u :=
      forall_of_map_eq Budget.user_id (fun v => v = u)
        (recalculate_spent_budget_users db k.1 k.2 u) hu
    have hnd1 : ((recalculate_spent db k.1 k.2 u).budgets.map budgetKey).Nodup := by
      rw [recalculate_spent_budget_keys]; exact hnd
    have hspec2 := ih (recalculate_spent db k.1 k.2 u) hu1 hnd1
    have hcomp := forall2_comp hspec1 hspec2
    refine List.Forall₂.imp ?_ hcomp
    intro b b2 hb
    obtain ⟨bm, ⟨h1, h2, h3, h4, h5, h6⟩, ⟨g1, g2, g3, g4, g5, g6⟩⟩ := hb
    refine ⟨by rw [g1, h1], by rw [g2, h2], by rw [g3, h3], by rw [g4, h4],
      by rw [g5, h5], ?_⟩
    rw [g6, h6, recalculate_spent_transactions]
    have hkeym : budgetKey bm = budgetKey b := by
      simp [budgetKey, h3, h4]
    rw [hkeym, h3, h4]
    by_cases hin : budgetKey b ∈ rest
    · simp [hin, List.mem_cons]
    · by_cases heq : budgetKey b = k
      · have hc : b.category_id = k.1 ∧ b.month = k.2 := by
          constructor
          · rw [← heq]; rfl
          · rw [← heq]; rfl
        simp [hin, heq, hc.1, hc.2, List.mem_cons, spentSum]
      · have hc : ¬(b.category_id = k.1 ∧ b.month = k.2) := by
          rintro ⟨hx, hy⟩
          exact heq (by simp [budgetKey, hx, hy])
        have : budgetKey b ∉ k :: rest := by
          rw [List.mem_cons]
          rintro (h | h)
          · exact heq h
          · exact hin h
        simp [hin, hc, this]

theorem date_ext {a b : Date} (hy : a.year = b.year) (hm : a.month = b.month)
    (hd : a.day = b.day) : a = b := by
  cases a
  cases b
  simp_all

theorem spentFilter_true_iff (c : Nat) (m : Date) (u : Nat) (t : Transaction) :
    spentFilter c m u t = true ↔
      (t.user_id = u ∧ t.category_id = c ∧ t.type = TxType.expense ∧
       t.hide_from_summary = false ∧ t.date.year = m.year ∧
       t.date.month = m.month) := by
  simp [spentFilter, Bool.and_eq_true, beq_iff_eq, and_assoc]

@[simp]
theorem ite_recalc_budget_users (cond : Prop) [Decidable cond] (db : DB) (c : Nat)
    (m : Date) (u : Nat) :
    (if cond then recalculate_spent db c m u else db).budgets.map Budget.user_id =
      db.budgets.map Budget.user_id := by
  by_cases h : cond <;> simp [h]

@[simp]
theorem ite_recalc_budget_keys (cond : Prop) [Decidable cond] (db : DB) (c : Nat)
    (m : Date) (u : Nat) :
    (if cond then recalculate_spent db c m u else db).budgets.map budgetKey =
      db.budgets.map budgetKey := by
  by_cases h : cond <;> simp [h]

theorem spentSumL_filter_not (ts : List Transaction) (sel : Transaction → Bool)
    (c : Nat) (m : Date) (u : Nat)
    (h : ∀ t ∈ ts, sel t = true → spentFilter c m u t = false) :
    spentSumL (ts.filter (fun t => !sel t)) c m u = spentSumL ts c m u := by
  induction ts with
  | nil => rfl
  | cons t ts ih =>
    have ih' := ih (fun x hx hs => h x (List.mem_cons_of_mem t hx) hs)
    cases hsel : sel t with
    | true =>
      have hsf := h t (List.mem_cons_self t ts) hsel
      have hstep : (t :: ts).filter (fun x => !sel x) = ts.filter (fun x => !sel x) := by
        simp [List.filter_cons, hsel]
      rw [hstep, ih', spentSumL_cons, hsf]
      simp
    | false =>
      have hstep : (t :: ts).filter (fun x => !sel x) =
          t :: ts.filter (fun x => !sel x) := by
        simp [List.filter_cons, hsel]
      rw [hstep, spentSumL_cons, spentSumL_cons, ih']

/-- Budget consistency is preserved by create_transaction. -/
theorem create_transaction_budgetInv (db : DB) (data : TransactionCreate) (u : Nat)
    (hwf : BudgetWF db u) (hinv : BudgetInv db u) :
    BudgetInv (create_transaction db data u).1 u := by
  obtain ⟨hbu, hbnd, hbnorm⟩ := hwf
  unfold create_transaction
  simp only []
  set t : Transaction :=
    { id := db.next_transaction_id
      user_id := u
      date := data.date
      type := data.type
      amount := data.amount
      category_id := data.category_id
      account_id := data.account_id
      description := data.description
      is_transfer := false
      transfer_group_id := none
      hide_from_summary := false
      tags := get_or_create_tags data.tags } with ht
  set db1 : DB := { db with
    transactions := db.transactions ++ [t]
    next_transaction_id := db.next_transaction_id + 1 } with hdb1
  set δ : Int := if data.type = TxType.income then data.amount else -data.amount with hδ
  set db2 : DB := (update_balance db1 data.account_id δ u).1 with hdb2
  have hbud2 : db2.budgets = db.budgets := by
    rw [hdb2, update_balance_budgets]
  have htx2 : db2.transactions = db.transactions ++ [t] := by
    rw [hdb2, update_balance_transactions]
  have hspec := cond_recalc_budgets_spec db2 (data.type = TxType.expense)
    data.category_id (monthFloor data.date) u
    (by rw [hbud2]; exact hbu) (by rw [hbud2]; exact hbnd)
  intro b2 hb2
  obtain ⟨b, hb, h1, h2, h3, h4, h5, h6⟩ := forall2_mem_right hspec b2 hb2
  rw [hbud2] at hb
  have htxf : (if data.type = TxType.expense then
      recalculate_spent db2 data.category_id (monthFloor data.date) u
      else db2).transactions = db.transactions ++ [t] := by
    rw [ite_recalc_transactions, htx2]
  show b2.spent_amount = spentSumL _ b2.category_id b2.month u
  rw [htxf, h6, h3, h4]
  by_cases hcase : data.type = TxType.expense ∧
      b.category_id = data.category_id ∧ b.month = monthFloor data.date
  · rw [if_pos hcase]
    rw [htx2, hcase.2.1, hcase.2.2]
  · rw [if_neg hcase]
    rw [spentSumL_append, spentSumL_single]
    have hz : ¬(spentFilter b.category_id b.month u t = true) := by
      intro hsf
      obtain ⟨hfu, hfc, hfe, hfh, hfy, hfm⟩ := (spentFilter_true_iff _ _ _ _).1 hsf
      apply hcase
      have htty : t.type = data.type := rfl
      have htc : t.category_id = data.category_id := rfl
      have htd : t.date = data.date := rfl
      refine ⟨by rw [← htty]; exact hfe, by rw [← hfc], ?_⟩
      have hmn := hbnorm b hb
      apply date_ext
      · show b.month.year = data.date.year
        rw [← hfy, htd]
      · show b.month.month = data.date.month
        rw [← hfm, htd]
      · exact hmn
    rw [if_neg hz]
    have := hinv b hb
    rw [this]
    simp [spentSum]

/-- Contribution of a single transaction to one budget window is zero unless
the transaction is an expense in exactly that (category, month). -/
theorem contrib_zero_of_not_key (b : Budget) (t : Transaction) (u : Nat)
    (hnorm : b.month.day = 1)
    (hnot : ¬(t.type = TxType.expense ∧ b.category_id = t.category_id ∧
      b.month = monthFloor t.date)) :
    spentFilter b.category_id b.month u t = false := by
  cases hsf : spentFilter b.category_id b.month u t with
  | false => rfl
  | true =>
    exfalso
    obtain ⟨hfu, hfc, hfe, hfh, hfy, hfm⟩ := (spentFilter_true_iff _ _ _ _).1 hsf
    apply hnot
    refine ⟨hfe, hfc.symm, ?_⟩
    apply date_ext
    · exact hfy.symm
    · exact hfm.symm
    · exact hnorm

/-- Budget consistency is preserved by update_transaction. -/
theorem update_transaction_budgetInv (db : DB) (tid : Nat) (data : TransactionUpdate)
    (u : Nat) (hwf : BudgetWF db u) (hinv : BudgetInv db u) :
    ∀ r, update_transaction db tid data u = some r → BudgetInv r.1 u := by
  obtain ⟨hbu, hbnd, hbnorm⟩ := hwf
  intro r hr
  unfold update_transaction at hr
  cases hget : get_transaction db tid u with
  | none => rw [hget] at hr; cases hr
  | some t0 =>
    rw [hget] at hr
    simp only [] at hr
    cases hr
    obtain ⟨l₁, l₂, hl, h₁, hq, hupd, -⟩ := find_decomposition hget
    set t1 := applyPatch t0 data with ht1
    set db1 : DB := { db with transactions :=
      (updateFirstP (fun t => t.id == tid && t.user_id == u)
        (fun t => applyPatch t data) db.transactions) } with hdb1
    have htx1 : db1.transactions = l₁ ++ t1 :: l₂ := by
      show updateFirstP _ _ db.transactions = _
      rw [hupd]
    set db2 : DB := (update_balance db1 t0.account_id
      (-(if t0.type = TxType.income then t0.amount else -t0.amount)) u).1 with hdb2
    set db3 : DB := (update_balance db2 t1.account_id
      (if t1.type = TxType.income then t1.amount else -t1.amount) u).1 with hdb3
    have hbud3 : db3.budgets = db.budgets := by
      rw [hdb3, update_balance_budgets, hdb2, update_balance_budgets]
    have htx3 : db3.transactions = l₁ ++ t1 :: l₂ := by
      rw [hdb3, update_balance_transactions, hdb2, update_balance_transactions, htx1]
    set db4 : DB := if t0.type = TxType.expense then
      recalculate_spent db3 t0.category_id (monthFloor t0.date) u else db3 with hdb4
    have hbud4u : ∀ b ∈ db4.budgets, b.user_id = u := by
      refine forall_of_map_eq Budget.user_id (fun v => v = u) ?_ hbu
      rw [hdb4, ite_recalc_budget_users, hbud3]
    have hbud4k : (db4.budgets.map budgetKey).Nodup := by
      rw [hdb4, ite_recalc_budget_keys, hbud3]
      exact hbnd
    have htx4 : db4.transactions = l₁ ++ t1 :: l₂ := by
      rw [hdb4, ite_recalc_transactions, htx3]
    have hspec4 := cond_recalc_budgets_spec db3 (t0.type = TxType.expense)
      t0.category_id (monthFloor t0.date) u
      (by rw [hbud3]; exact hbu) (by rw [hbud3]; exact hbnd)
    have hspec5 := cond_recalc_budgets_spec db4 (t1.type = TxType.expense)
      t1.category_id (monthFloor t1.date) u hbud4u hbud4k
    rw [← hdb4] at hspec4
    have hcomp := forall2_comp hspec4 hspec5
    intro b2 hb2
    obtain ⟨b, hb, bm, ⟨h1, h2, h3, h4, h5, h6⟩, ⟨g1, g2, g3, g4, g5, g6⟩⟩ :=
      forall2_mem_right hcomp b2 hb2
    rw [hbud3] at hb
    have htxf : (if t1.type = TxType.expense then
        recalculate_spent db4 t1.category_id (monthFloor t1.date) u
        else db4).transactions = l₁ ++ t1 :: l₂ := by
      rw [ite_recalc_transactions, htx4]
    show b2.spent_amount = spentSumL _ b2.category_id b2.month u
    rw [htxf, g6, g3, g4, h3, h4, htx4]
    by_cases hA : t1.type = TxType.expense ∧
        b.category_id = t1.category_id ∧ b.month = monthFloor t1.date
    · rw [if_pos hA, hA.2.1, hA.2.2]
    · rw [if_neg hA, h6, htx3]
      by_cases hB : t0.type = TxType.expense ∧
          b.category_id = t0.category_id ∧ b.month = monthFloor t0.date
      · rw [if_pos hB, hB.2.1, hB.2.2]
      · rw [if_neg hB]
        have hmn := hbnorm b hb
        have hz1 : spentFilter b.category_id b.month u t1 = false :=
          contrib_zero_of_not_key b t1 u hmn hA
        have hz0 : spentFilter b.category_id b.month u t0 = false :=
          contrib_zero_of_not_key b t0 u hmn hB
        have := hinv b hb
        rw [this]
        show spentSum db b.category_id b.month u = _
        unfold spentSum
        rw [hl, spentSumL_append, spentSumL_append, spentSumL_cons, spentSumL_cons,
          hz0, hz1]
        simp

/-- Budget consistency is preserved by delete_transaction. -/
theorem delete_transaction_budgetInv (db : DB) (tid : Nat) (u : Nat)
    (hwf : BudgetWF db u) (hinv : BudgetInv db u) :
    ∀ r, delete_transaction db tid u = some r → BudgetInv r u := by
  obtain ⟨hbu, hbnd, hbnorm⟩ := hwf
  intro r hr
  unfold delete_transaction at hr
  cases hget : get_transaction db tid u with
  | none => rw [hget] at hr; cases hr
  | some t0 =>
    rw [hget] at hr
    simp only [] at hr
    cases hr
    obtain ⟨l₁, l₂, hl, h₁, hq, -, herase⟩ := find_decomposition hget
    set db1 : DB := { db with transactions :=
      (db.transactions.eraseP (fun x => x.id == tid && x.user_id == u)) } with hdb1
    have htx1 : db1.transactions = l₁ ++ l₂ := by
      show db.transactions.eraseP _ = _
      rw [herase]
    set db2 : DB := (update_balance db1 t0.account_id
      (-(if t0.type = TxType.income then t0.amount else -t0.amount)) u).1 with hdb2
    have hbud2 : db2.budgets = db.budgets := by
      rw [hdb2, update_balance_budgets]
    have htx2 : db2.transactions = l₁ ++ l₂ := by
      rw [hdb2, update_balance_transactions, htx1]
    have hspec := cond_recalc_budgets_spec db2 (t0.type = TxType.expense)
      t0.category_id (monthFloor t0.date) u
      (by rw [hbud2]; exact hbu) (by rw [hbud2]; exact hbnd)
    intro b2 hb2
    obtain ⟨b, hb, h1, h2, h3, h4, h5, h6⟩ := forall2_mem_right hspec b2 hb2
    rw [hbud2] at hb
    have htxf : (if t0.type = TxType.expense then
        recalculate_spent db2 t0.category_id (monthFloor t0.date) u
        else db2).transactions = l₁ ++ l₂ := by
      rw [ite_recalc_transactions, htx2]
    show b2.spent_amount = spentSumL _ b2.category_id b2.month u
    rw [htxf, h6, h3, h4, htx2]
    by_cases hB : t0.type = TxType.expense ∧
        b.category_id = t0.category_id ∧ b.month = monthFloor t0.date
    · rw [if_pos hB, hB.2.1, hB.2.2]
    · rw [if_neg hB]
      have hmn := hbnorm b hb
      have hz0 : spentFilter b.category_id b.month u t0 = false :=
        contrib_zero_of_not_key b t0 u hmn hB
      have := hinv b hb
      rw [this]
      show spentSum db b.category_id b.month u = _
      unfold spentSum
      rw [hl, spentSumL_append, spentSumL_append, spentSumL_cons, hz0]
      simp

@[simp]
theorem fold_update_balance_budgets (u : Nat) (g : Nat → Int) (ids : List Nat) :
    ∀ db : DB,
    (ids.foldl (fun d acct => (update_balance d acct (g acct) u).1) db).budgets =
      db.budgets := by
  induction ids with
  | nil => intro db; rfl
  | cons i rest ih =>
    intro db
    simp only [List.foldl_cons]
    rw [ih, update_balance_budgets]

@[simp]
theorem fold_update_balance_transactions (u : Nat) (g : Nat → Int) (ids : List Nat) :
    ∀ db : DB,
    (ids.foldl (fun d acct => (update_balance d acct (g acct) u).1) db).transactions =
      db.transactions := by
  induction ids with
  | nil => intro db; rfl
  | cons i rest ih =>
    intro db
    simp only [List.foldl_cons]
    rw [ih, update_balance_transactions]

/-- A deleted transaction whose budget window was touched has its key in the
affected list of a bulk delete. -/
theorem deleted_key_mem_affected (dels : List Transaction) (b : Budget) (u : Nat)
    (hnorm : b.month.day = 1) (t : Transaction) (ht : t ∈ dels)
    (hsf : spentFilter b.category_id b.month u t = true) :
    budgetKey b ∈
      (((dels.filter (fun t => t.type == TxType.expense)).map
        (fun t => (t.category_id, monthFloor t.date))).dedup) := by
  obtain ⟨hfu, hfc, hfe, hfh, hfy, hfm⟩ := (spentFilter_true_iff _ _ _ _).1 hsf
  rw [List.mem_dedup]
  have htm : t ∈ dels.filter (fun t => t.type == TxType.expense) := by
    rw [List.mem_filter]
    exact ⟨ht, by simp [hfe]⟩
  have : budgetKey b = (t.category_id, monthFloor t.date) := by
    have hbm : b.month = monthFloor t.date :=
      date_ext hfy.symm hfm.symm hnorm
    simp [budgetKey, hfc.symm, hbm]
  rw [this]
  exact List.mem_map_of_mem _ htm

/-- Budget consistency is preserved by delete_transactions_by_account. -/
theorem delete_by_account_budgetInv (db : DB) (aid : Nat) (u : Nat)
    (hwf : BudgetWF db u) (hinv : BudgetInv db u) :
    BudgetInv (delete_transactions_by_account db aid u).1 u := by
  obtain ⟨hbu, hbnd, hbnorm⟩ := hwf
  unfold delete_transactions_by_account
  simp only []
  by_cases hemp : (db.transactions.filter (byAccount aid u)).isEmpty = true
  · rw [if_pos hemp]
    exact hinv
  · rw [if_neg hemp]
    simp only []
    set dels := db.transactions.filter (byAccount aid u) with hdels
    set affected := (((dels.filter (fun t => t.type == TxType.expense)).map
      (fun t => (t.category_id, monthFloor t.date))).dedup) with haff
    set db1 : DB := { db with transactions :=
      (db.transactions.filter (fun t => !byAccount aid u t)) } with hdb1
    have hbud1 : db1.budgets = db.budgets := rfl
    have hspec := fold_recalc_budgets_spec u affected db1
      (by rw [hbud1]; exact hbu) (by rw [hbud1]; exact hbnd)
    intro b2 hb2
    obtain ⟨b, hb, h1, h2, h3, h4, h5, h6⟩ := forall2_mem_right hspec b2 hb2
    rw [hbud1] at hb
    show b2.spent_amount = spentSumL _ b2.category_id b2.month u
    rw [fold_recalc_transactions, h6, h3, h4]
    by_cases hin : budgetKey b ∈ affected
    · rw [if_pos hin]
    · rw [if_neg hin]
      have hfn : spentSumL db1.transactions b.category_id b.month u =
          spentSumL db.transactions b.category_id b.month u := by
        show spentSumL (db.transactions.filter (fun t => !byAccount aid u t)) _ _ _ = _
        apply spentSumL_filter_not
        intro t htm hsel
        cases hsf : spentFilter b.category_id b.month u t with
        | false => rfl
        | true =>
          exfalso
          apply hin
          refine deleted_key_mem_affected dels b u (hbnorm b hb) t ?_ hsf
          rw [hdels, List.mem_filter]
          exact ⟨htm, hsel⟩
      rw [hfn]
      exact hinv b hb

/-- Budget consistency is preserved by delete_transactions_by_category. -/
theorem delete_by_category_budgetInv (db : DB) (cid : Nat) (u : Nat)
    (cids : Option (List Nat))
    (hwf : BudgetWF db u) (hinv : BudgetInv db u) :
    BudgetInv (delete_transactions_by_category db cid u cids).1 u := by
  obtain ⟨hbu, hbnd, hbnorm⟩ := hwf
  unfold delete_transactions_by_category
  simp only []
  set ids_to_delete := (match cids with
    | some l => if l.isEmpty then [cid] else l
    | none => [cid]) with hids
  by_cases hemp : (db.transactions.filter (byCategory ids_to_delete u)).isEmpty = true
  · rw [if_pos hemp]
    exact hinv
  · rw [if_neg hemp]
    simp only []
    set dels := db.transactions.filter (byCategory ids_to_delete u) with hdels
    set affected := (((dels.filter (fun t => t.type == TxType.expense)).map
      (fun t => (t.category_id, monthFloor t.date))).dedup) with haff
    set db1 : DB := { db with transactions :=
      (db.transactions.filter (fun t => !byCategory ids_to_delete u t)) } with hdb1
    set db2 : DB := ((dels.map (fun t => t.account_id)).dedup).foldl
      (fun d acct => (update_balance d acct (accountReversal dels acct) u).1) db1
      with hdb2
    have hbud2 : db2.budgets = db.budgets := by
      rw [hdb2, fold_update_balance_budgets]
    have htx2 : db2.transactions = db1.transactions := by
      rw [hdb2, fold_update_balance_transactions]
    have hspec := fold_recalc_budgets_spec u affected db2
      (by rw [hbud2]; exact hbu) (by rw [hbud2]; exact hbnd)
    intro b2 hb2
    obtain ⟨b, hb, h1, h2, h3, h4, h5, h6⟩ := forall2_mem_right hspec b2 hb2
    rw [hbud2] at hb
    show b2.spent_amount = spentSumL _ b2.category_id b2.month u
    rw [fold_recalc_transactions, htx2, h6, h3, h4, htx2]
    by_cases hin : budgetKey b ∈ affected
    · rw [if_pos hin]
    · rw [if_neg hin]
      have hfn : spentSumL db1.transactions b.category_id b.month u =
          spentSumL db.transactions b.category_id b.month u := by
        show spentSumL (db.transactions.filter (fun t => !byCategory ids_to_delete u t)) _ _ _ = _
        apply spentSumL_filter_not
        intro t htm hsel
        cases hsf : spentFilter b.category_id b.month u t with
        | false => rfl
        | true =>
          exfalso
          apply hin
          refine deleted_key_mem_affected dels b u (hbnorm b hb) t ?_ hsf
          rw [hdels, List.mem_filter]
          exact ⟨htm, hsel⟩
      rw [hfn]
      exact hinv b hb

@[simp]
theorem fold_recalc_budget_keys (u : Nat) (keys : List (Nat × Date)) : ∀ db : DB,
    (keys.foldl (fun d kv => recalculate_spent d kv.1 kv.2 u) db).budgets.map budgetKey =
      db.budgets.map budgetKey := by
  induction keys with
  | nil => intro db; rfl
  | cons k rest ih =>
    intro db
    simp only [List.foldl_cons]
    rw [ih, recalculate_spent_budget_keys]

@[simp]
theorem fold_recalc_budget_users (u : Nat) (keys : List (Nat × Date)) : ∀ db : DB,
    (keys.foldl (fun d kv => recalculate_spent d kv.1 kv.2 u) db).budgets.map
      Budget.user_id = db.budgets.map Budget.user_id := by
  induction keys with
  | nil => intro db; rfl
  | cons k rest ih =>
    intro db
    simp only [List.foldl_cons]
    rw [ih, recalculate_spent_budget_users]

/-- No budget-claim operation adds or removes budget rows or changes their
keys or owners. -/
theorem applyMOp_budget_maps (u : Nat) (db : DB) (op : MOp) :
    (applyMOp u db op).budgets.map budgetKey = db.budgets.map budgetKey ∧
    (applyMOp u db op).budgets.map Budget.user_id = db.budgets.map Budget.user_id := by
  cases op with
  | create data =>
    simp only [applyMOp]
    unfold create_transaction
    simp only []
    constructor <;> simp
  | update tid data =>
    simp only [applyMOp]
    cases hupd : update_transaction db tid data u with
    | none => exact ⟨rfl, rfl⟩
    | some r =>
      unfold update_transaction at hupd
      cases hget : get_transaction db tid u with
      | none => rw [hget] at hupd; cases hupd
      | some t0 =>
        rw [hget] at hupd
        simp only [] at hupd
        cases hupd
        constructor <;> simp
  | delete tid =>
    simp only [applyMOp]
    cases hdel : delete_transaction db tid u with
    | none => exact ⟨rfl, rfl⟩
    | some r =>
      unfold delete_transaction at hdel
      cases hget : get_transaction db tid u with
      | none => rw [hget] at hdel; cases hdel
      | some t0 =>
        rw [hget] at hdel
        simp only [] at hdel
        cases hdel
        simp only [Option.getD_some]
        constructor <;> simp
  | bulk_account aid =>
    simp only [applyMOp]
    unfold delete_transactions_by_account
    simp only []
    by_cases hemp : (db.transactions.filter (byAccount aid u)).isEmpty = true
    · rw [if_pos hemp]; exact ⟨rfl, rfl⟩
    · rw [if_neg hemp]
      constructor <;> simp
  | bulk_category cid cids =>
    simp only [applyMOp]
    unfold delete_transactions_by_category
    simp only []
    by_cases hemp : (db.transactions.filter (byCategory (match cids with
        | some l => if l.isEmpty then [cid] else l
        | none => [cid]) u)).isEmpty = true
    · rw [if_pos hemp]; exact ⟨rfl, rfl⟩
    · rw [if_neg hemp]
      constructor <;> simp

/-- BudgetWF is preserved by every budget-claim operation. -/
theorem applyMOp_budgetWF (u : Nat) (db : DB) (op : MOp) (h : BudgetWF db u) :
    BudgetWF (applyMOp u db op) u := by
  obtain ⟨hkeys, husers⟩ := applyMOp_budget_maps u db op
  refine ⟨forall_of_map_eq Budget.user_id (fun v => v = u) husers h.1,
    by rw [hkeys]; exact h.2.1, ?_⟩
  have := forall_of_map_eq budgetKey (fun k => k.2.day = 1) hkeys
    (fun b hb => h.2.2 b hb)
  exact fun b hb => this b hb

/-- Budget consistency is preserved by every budget-claim operation. -/
theorem applyMOp_budgetInv (u : Nat) (db : DB) (op : MOp) (hwf : BudgetWF db u)
    (hinv : BudgetInv db u) : BudgetInv (applyMOp u db op) u := by
  cases op with
  | create data => exact create_transaction_budgetInv db data u hwf hinv
  | update tid data =>
    simp only [applyMOp]
    cases hupd : update_transaction db tid data u with
    | none => exact hinv
    | some r => exact update_transaction_budgetInv db tid data u hwf hinv r hupd
  | delete tid =>
    simp only [applyMOp]
    cases hdel : delete_transaction db tid u with
    | none => exact hinv
    | some r =>
      simp only [Option.getD_some]
      exact delete_transaction_budgetInv db tid u hwf hinv r hdel
  | bulk_account aid => exact delete_by_account_budgetInv db aid u hwf hinv
  | bulk_category cid cids => exact delete_by_category_budgetInv db cid u cids hwf hinv

/-- Budget consistency holds after any budget-claim operation sequence. -/
theorem applyMOps_budgetInv (u : Nat) (ops : List MOp) : ∀ db : DB,
    BudgetWF db u → BudgetInv db u → BudgetInv (applyMOps u db ops) u := by
  induction ops with
  | nil => intro db _ hinv; exact hinv
  | cons op rest ih =>
    intro db hwf hinv
    exact ih (applyMOp u db op) (applyMOp_budgetWF u db op hwf)
      (applyMOp_budgetInv u db op hwf hinv)

/-- Claim C3: recalculate_spent sets the matching budget's spent_amount to
the sum of the owner's expense transactions in that category and month with
hide_from_summary false; when no budget exists for that (owner, category,
month) it changes nothing (and raises no error — it is total); and
consequently, starting from any consistent well-formed database, after every
sequence of transaction create/update/delete and bulk cascade-delete
operations every budget's spent_amount equals exactly this sum. -/
theorem claim_C3_recalculate_spent (u : Nat) (db : DB) (c : Nat) (m : Date)
    (ops : List MOp) (hwf : BudgetWF db u) (hinv : BudgetInv db u) :
    (get_budget_by_category_month db c m u = none →
      recalculate_spent db c m u = db) ∧
    (∀ b2 ∈ (recalculate_spent db c m u).budgets,
      b2.category_id = c → b2.month = m → b2.spent_amount = spentSum db c m u) ∧
    (∀ b ∈ (applyMOps u db ops).budgets,
      b.spent_amount = spentSum (applyMOps u db ops) b.category_id b.month u) := by
  refine ⟨?_, ?_, applyMOps_budgetInv u ops db hwf hinv⟩
  · intro hnone
    unfold recalculate_spent
    rw [hnone]
  · intro b2 hb2 hc hm
    obtain ⟨b, hb, h1, h2, h3, h4, h5, h6⟩ := forall2_mem_right
      (recalculate_spent_spec db c m u hwf.1 hwf.2.1) b2 hb2
    rw [h6]
    have : b.category_id = c ∧ b.month = m := ⟨by rw [← h3]; exact hc,
      by rw [← h4]; exact hm⟩
    rw [if_pos this]

/-- Concrete database for the budget-consistency witness: one budget for
(category 10, January 2024) with one matching expense transaction. -/
def exC3db : DB :=
  { accounts := [⟨1, 3, "cash", -40000⟩]
    categories := [⟨10, 3, "Food", TxType.expense, none, false⟩]
    budgets := [⟨200, 3, 10, ⟨2024, 1, 1⟩, 100000, 40000⟩]
    transactions := [⟨100, 3, ⟨2024, 1, 20⟩, TxType.expense, 40000, 10, 1,
      "groceries", false, none, false, []⟩]
    next_transaction_id := 101
    next_category_id := 20
    next_group_id := 50 }

/-- Concrete operations for the budget-consistency witness: the budget-move
scenario (date moved to a month with no budget) followed by a create, a
delete and a bulk cascade delete. -/
def exC3ops : List MOp :=
  [MOp.update 100 { date := some ⟨2024, 2, 5⟩ },
   MOp.create ⟨⟨2024, 1, 9⟩, TxType.expense, 15000, 10, 1, "coffee", []⟩,
   MOp.delete 100,
   MOp.bulk_account 1]

theorem claim_C3_recalculate_spent_witness :
    (get_budget_by_category_month exC3db 99 ⟨2024, 3, 1⟩ 3 = none →
      recalculate_spent exC3db 99 ⟨2024, 3, 1⟩ 3 = exC3db) ∧
    (∀ b2 ∈ (recalculate_spent exC3db 99 ⟨2024, 3, 1⟩ 3).budgets,
      b2.category_id = 99 → b2.month = ⟨2024, 3, 1⟩ →
      b2.spent_amount = spentSum exC3db 99 ⟨2024, 3, 1⟩ 3) ∧
    (∀ b ∈ (applyMOps 3 exC3db exC3ops).budgets,
      b.spent_amount = spentSum (applyMOps 3 exC3db exC3ops) b.category_id b.month 3) :=
  claim_C3_recalculate_spent 3 exC3db 99 ⟨2024, 3, 1⟩ exC3ops
    (by refine ⟨?_, ?_, ?_⟩ <;> decide) (by unfold BudgetInv; decide)

theorem update_balance_none (db : DB) (aid : Nat) (δ : Int) (u : Nat)
    (h : get_account db aid u = none) : update_balance db aid δ u = (db, none) := by
  unfold update_balance
  rw [h]

theorem get_account_congr {db1 db2 : DB} (h : db1.accounts = db2.accounts)
    (aid u : Nat) : get_account db1 aid u = get_account db2 aid u := by
  unfold get_account
  rw [h]

/-- Claim C10 (implicit): update_balance returns None and changes nothing
when the account is missing or not owned; create_transaction,
update_transaction and delete_transaction ignore that None result, so a call
whose referenced accounts are all unowned still completes and succeeds while
no account row changes. -/
theorem claim_C10_unowned_account_noop (db : DB) (u aid tid : Nat) (δ : Int)
    (cdata : TransactionCreate) (udata : TransactionUpdate) (t0 : Transaction) :
    (get_account db aid u = none → update_balance db aid δ u = (db, none)) ∧
    (get_account db cdata.account_id u = none →
      (create_transaction db cdata u).1.accounts = db.accounts ∧
      (create_transaction db cdata u).1.transactions =
        db.transactions ++ [(create_transaction db cdata u).2]) ∧
    (get_transaction db tid u = some t0 →
      get_account db t0.account_id u = none →
      get_account db (applyPatch t0 udata).account_id u = none →
      ∃ r, update_transaction db tid udata u = some r ∧
        r.1.accounts = db.accounts ∧ r.2 = applyPatch t0 udata) ∧
    (get_transaction db tid u = some t0 →
      get_account db t0.account_id u = none →
      ∃ db2, delete_transaction db tid u = some db2 ∧
        db2.accounts = db.accounts ∧
        db2.transactions = db.transactions.eraseP
          (fun x => x.id == tid && x.user_id == u)) := by
  refine ⟨fun h => update_balance_none db aid δ u h, ?_, ?_, ?_⟩
  · intro hnone
    unfold create_transaction
    simp only []
    constructor
    · rw [ite_recalc_accounts, update_balance_fst]
      show updateFirstP _ _ db.accounts = db.accounts
      exact updateFirstP_of_find_none _ hnone
    · rw [ite_recalc_transactions, update_balance_transactions]
  · intro hget hold hnew
    unfold update_transaction
    rw [hget]
    simp only []
    set db1 : DB := { db with transactions :=
      (updateFirstP (fun t => t.id == tid && t.user_id == u)
        (fun t => applyPatch t udata) db.transactions) } with hdb1
    have e2 : update_balance db1 t0.account_id
        (-(if t0.type = TxType.income then t0.amount else -t0.amount)) u =
        (db1, none) :=
      update_balance_none _ _ _ _ hold
    have e3 : update_balance db1 (applyPatch t0 udata).account_id
        (if (applyPatch t0 udata).type = TxType.income then
          (applyPatch t0 udata).amount else -(applyPatch t0 udata).amount) u =
        (db1, none) :=
      update_balance_none _ _ _ _ hnew
    rw [e2]
    simp only []
    rw [e3]
    simp only []
    refine ⟨_, rfl, ?_, rfl⟩
    simp only [ite_recalc_accounts]
  · intro hget hold
    unfold delete_transaction
    rw [hget]
    simp only []
    set db1 : DB := { db with transactions :=
      (db.transactions.eraseP (fun x => x.id == tid && x.user_id == u)) } with hdb1
    have e2 : update_balance db1 t0.account_id
        (-(if t0.type = TxType.income then t0.amount else -t0.amount)) u =
        (db1, none) :=
      update_balance_none _ _ _ _ hold
    rw [e2]
    simp only []
    refine ⟨_, rfl, ?_, ?_⟩
    · simp only [ite_recalc_accounts]
    · simp only [ite_recalc_transactions]

/-- Concrete database for the unowned-account witness: the only account row
belongs to user 9, while user 3 owns the transaction that references it. -/
def exC10db : DB :=
  { accounts := [⟨1, 9, "other", 500⟩]
    categories := [⟨10, 3, "Food", TxType.expense, none, false⟩]
    budgets := []
    transactions := [⟨100, 3, ⟨2024, 1, 5⟩, TxType.expense, 50, 10, 1, "x",
      false, none, false, []⟩]
    next_transaction_id := 101
    next_category_id := 20
    next_group_id := 50 }

def exC10t0 : Transaction :=
  ⟨100, 3, ⟨2024, 1, 5⟩, TxType.expense, 50, 10, 1, "x", false, none, false, []⟩

def exC10cdata : TransactionCreate :=
  ⟨⟨2024, 1, 6⟩, TxType.income, 70, 10, 1, "y", []⟩

def exC10udata : TransactionUpdate := { amount := some 777 }

theorem claim_C10_unowned_account_noop_witness :
    update_balance exC10db 1 500 3 = (exC10db, none) ∧
    ((create_transaction exC10db exC10cdata 3).1.accounts = exC10db.accounts ∧
     (create_transaction exC10db exC10cdata 3).1.transactions =
       exC10db.transactions ++ [(create_transaction exC10db exC10cdata 3).2]) ∧
    (∃ r, update_transaction exC10db 100 exC10udata 3 = some r ∧
      r.1.accounts = exC10db.accounts ∧ r.2 = applyPatch exC10t0 exC10udata) ∧
    (∃ db2, delete_transaction exC10db 100 3 = some db2 ∧
      db2.accounts = exC10db.accounts ∧
      db2.transactions = exC10db.transactions.eraseP
        (fun x => x.id == 100 && x.user_id == 3)) := by
  have h := claim_C10_unowned_account_noop exC10db 3 1 100 500 exC10cdata
    exC10udata exC10t0
  exact ⟨h.1 (by decide), h.2.1 (by decide),
    h.2.2.1 (by decide) (by decide) (by decide),
    h.2.2.2 (by decide) (by decide)⟩

/-- Concrete input for the atomicity fault: a fresh account and a budget for
the (category, month) of the expense being created, so the budget
recalculation step runs (and, in the modelled execution, fails). -/
def exC2db : DB :=
  { accounts := [⟨1, 4, "cash", 0⟩]
    categories := [⟨10, 4, "Food", TxType.expense, none, false⟩]
    budgets := [⟨200, 4, 10, ⟨2024, 1, 1⟩, 100000, 0⟩]
    transactions := []
    next_transaction_id := 100
    next_category_id := 20
    next_group_id := 50 }

def exC2data : TransactionCreate :=
  ⟨⟨2024, 1, 5⟩, TxType.expense, 50, 10, 1, "groceries", []⟩

/-- Claim C2 is false on the code: update_balance commits the session itself
(crud/account.py line 94), so when budget recalculation fails after the
balance update inside create_transaction, the subsequent rollback cannot
undo the transaction insert or the balance change — the committed state
keeps both partial effects, instead of rolling the insert back as the claim
requires. -/
theorem claim_C2_atomicity_code_bug :
    (create_transaction_budget_fault ⟨exC2db, exC2db⟩ exC2data 4).committed ≠ exC2db ∧
    (create_transaction_budget_fault ⟨exC2db, exC2db⟩ exC2data 4).committed.transactions.length = 1 ∧
    (∃ a ∈ (create_transaction_budget_fault ⟨exC2db, exC2db⟩ exC2data 4).committed.accounts,
      a.id = 1 ∧ a.balance = -50) := by
  refine ⟨by decide, by decide, ?_⟩
  refine ⟨⟨1, 4, "cash", -50⟩, by decide, by decide, by decide⟩

theorem forall2_mem_left {α β : Type} {r : α → β → Prop}
    {l : List α} {l' : List β} (h : List.Forall₂ r l l') :
    ∀ a ∈ l, ∃ b ∈ l', r a b := by
  induction h with
  | nil => intro a ha; cases ha
  | cons hr _ ih =>
    intro a ha
    rcases List.mem_cons.1 ha with rfl | ha
    · exact ⟨_, List.mem_cons_self _ _, hr⟩
    · obtain ⟨b, hb, hbr⟩ := ih a ha
      exact ⟨b, List.mem_cons_of_mem _ hb, hbr⟩

/-- The spec-modelled ensure_transfer_categories returns ids of categories
named "Outgoing transfer" / "Incoming transfer" owned by the user, present in
the resulting store, and leaves the store unchanged when both already
exist. -/
theorem ensure_transfer_categories_spec (db : DB) (u : Nat) :
    (∃ c ∈ (ensure_transfer_categories db u).1.categories,
      c.id = (ensure_transfer_categories db u).2.1 ∧
      c.name = "Outgoing transfer" ∧ c.user_id = u) ∧
    (∃ c ∈ (ensure_transfer_categories db u).1.categories,
      c.id = (ensure_transfer_categories db u).2.2 ∧
      c.name = "Incoming transfer" ∧ c.user_id = u) ∧
    ((get_category_by_name db "Outgoing transfer" u).isSome →
     (get_category_by_name db "Incoming transfer" u).isSome →
     (ensure_transfer_categories db u).1 = db) := by
  unfold ensure_transfer_categories
  cases ho : get_category_by_name db "Outgoing transfer" u with
  | some co =>
    simp only []
    have hcom : co ∈ db.categories := List.mem_of_find?_eq_some ho
    have hcop := List.find?_some ho
    simp only [Bool.and_eq_true, beq_iff_eq] at hcop
    cases hi : get_category_by_name db "Incoming transfer" u with
    | some ci =>
      simp only []
      have hcim : ci ∈ db.categories := List.mem_of_find?_eq_some hi
      have hcip := List.find?_some hi
      simp only [Bool.and_eq_true, beq_iff_eq] at hcip
      refine ⟨⟨co, hcom, rfl, hcop.1, hcop.2⟩, ⟨ci, hcim, rfl, hcip.1, hcip.2⟩, ?_⟩
      intro _ _
      trivial
    | none =>
      simp only []
      refine ⟨⟨co, List.mem_append_left _ hcom, rfl, hcop.1, hcop.2⟩,
        ⟨⟨db.next_category_id, u, "Incoming transfer", TxType.income, none, true⟩,
          List.mem_append_right _ (List.mem_singleton.2 rfl), rfl, rfl, rfl⟩,
        fun _ hs => ?_⟩
      simp at hs
  | none =>
    simp only []
    cases hi : get_category_by_name { db with
        categories := db.categories ++ [⟨db.next_category_id, u, "Outgoing transfer",
          TxType.expense, none, true⟩]
        next_category_id := db.next_category_id + 1 } "Incoming transfer" u with
    | some ci =>
      simp only []
      have hcim : ci ∈ db.categories ++ [⟨db.next_category_id, u, "Outgoing transfer",
          TxType.expense, none, true⟩] := List.mem_of_find?_eq_some hi
      have hcip := List.find?_some hi
      simp only [Bool.and_eq_true, beq_iff_eq] at hcip
      refine ⟨⟨⟨db.next_category_id, u, "Outgoing transfer", TxType.expense, none, true⟩,
        List.mem_append_right _ (List.mem_singleton.2 rfl), rfl, rfl, rfl⟩,
        ⟨ci, hcim, rfl, hcip.1, hcip.2⟩, fun hs _ => ?_⟩
      simp at hs
    | none =>
      simp only []
      refine ⟨⟨⟨db.next_category_id, u, "Outgoing transfer", TxType.expense, none, true⟩,
        ?_, rfl, rfl, rfl⟩,
        ⟨⟨db.next_category_id + 1, u, "Incoming transfer", TxType.income, none, true⟩,
        ?_, rfl, rfl, rfl⟩, fun hs _ => ?_⟩
      · exact List.mem_append_left _ (List.mem_append_right _ (List.mem_singleton.2 rfl))
      · exact List.mem_append_right _ (List.mem_singleton.2 rfl)
      · simp at hs

/-- Claim C6: create_transfer rejects a same-account transfer as a
validation failure; otherwise it ensures the two reserved transfer
categories exist for the owner (idempotently), generates a fresh
transfer_group_id shared by no existing transaction, inserts both legs
(expense from the source, income to the destination, equal amounts), and
applies -amount to the source balance and +amount to the destination. -/
theorem claim_C6_create_transfer (db : DB) (data : TransferCreate) (u : Nat)
    (hu : ∀ a ∈ db.accounts, a.user_id = u)
    (hnd : (db.accounts.map Account.id).Nodup)
    (hgid : ∀ t ∈ db.transactions, ∀ g, t.transfer_group_id = some g →
      g < db.next_group_id) :
    (data.from_account_id = data.to_account_id →
      create_transfer db data u = Except.error "Cannot transfer to the same account") ∧
    (data.from_account_id ≠ data.to_account_id →
      ∃ r, create_transfer db data u = Except.ok r ∧
        (∃ c ∈ r.1.categories, c.id = r.2.1.category_id ∧
          c.name = "Outgoing transfer" ∧ c.user_id = u) ∧
        (∃ c ∈ r.1.categories, c.id = r.2.2.category_id ∧
          c.name = "Incoming transfer" ∧ c.user_id = u) ∧
        ((get_category_by_name db "Outgoing transfer" u).isSome →
         (get_category_by_name db "Incoming transfer" u).isSome →
         r.1.categories = db.categories) ∧
        r.2.1.transfer_group_id = some db.next_group_id ∧
        r.2.2.transfer_group_id = some db.next_group_id ∧
        (∀ t ∈ db.transactions, t.transfer_group_id ≠ some db.next_group_id) ∧
        r.1.transactions = db.transactions ++ [r.2.1, r.2.2] ∧
        r.2.1.type = TxType.expense ∧ r.2.1.account_id = data.from_account_id ∧
        r.2.1.amount = data.amount ∧ r.2.1.is_transfer = true ∧
        r.2.2.type = TxType.income ∧ r.2.2.account_id = data.to_account_id ∧
        r.2.2.amount = data.amount ∧ r.2.2.is_transfer = true ∧
        (∀ a ∈ db.accounts, ∃ a2 ∈ r.1.accounts, a2.id = a.id ∧
          a2.balance = a.balance +
            (if a.id = data.from_account_id then -data.amount else 0) +
            (if a.id = data.to_account_id then data.amount else 0))) := by
  constructor
  · intro h
    unfold create_transfer
    rw [if_pos h]
  · intro h
    obtain ⟨heacc, hebud, hetx, henid, hegid⟩ :=
      ensure_transfer_categories_only_categories db u
    obtain ⟨hexo, hexi, hidem⟩ := ensure_transfer_categories_spec db u
    unfold create_transfer
    rw [if_neg h]
    simp only []
    refine ⟨_, rfl, ?_⟩
    set db1 : DB := (ensure_transfer_categories db u).1 with hdb1
    set outgoing : Transaction :=
      { id := db1.next_transaction_id
        user_id := u
        date := data.date
        type := TxType.expense
        amount := data.amount
        category_id := (ensure_transfer_categories db u).2.1
        account_id := data.from_account_id
        description := data.description
        is_transfer := true
        transfer_group_id := some db1.next_group_id
        hide_from_summary := data.hide_from_summary
        tags := [] } with hout
    set incoming : Transaction :=
      { id := db1.next_transaction_id + 1
        user_id := u
        date := data.date
        type := TxType.income
        amount := data.amount
        category_id := (ensure_transfer_categories db u).2.2
        account_id := data.to_account_id
        description := data.description
        is_transfer := true
        transfer_group_id := some db1.next_group_id
        hide_from_summary := data.hide_from_summary
        tags := [] } with hinc
    set db2 : DB := { db1 with
      transactions := db1.transactions ++ [outgoing, incoming]
      next_transaction_id := db1.next_transaction_id + 2
      next_group_id := db1.next_group_id + 1 } with hdb2
    set db3 : DB := (update_balance db2 data.from_account_id (-data.amount) u).1
      with hdb3
    set db4 : DB := (update_balance db3 data.to_account_id data.amount u).1
      with hdb4
    have hacc2 : db2.accounts = db.accounts := heacc
    have hcat4 : db4.categories = db1.categories := by
      rw [hdb4, update_balance_categories, hdb3, update_balance_categories]
    have htx4 : db4.transactions = db.transactions ++ [outgoing, incoming] := by
      rw [hdb4, update_balance_transactions, hdb3, update_balance_transactions]
      show db1.transactions ++ [outgoing, incoming] = _
      rw [hetx]
    refine ⟨by rw [hcat4]; exact hexo, by rw [hcat4]; exact hexi, ?_, ?_, ?_, ?_,
      htx4, rfl, rfl, rfl, rfl, rfl, rfl, rfl, rfl, ?_⟩
    · intro h1 h2
      rw [hcat4, hidem h1 h2]
    · show some db1.next_group_id = some db.next_group_id
      rw [hdb1, hegid]
    · show some db1.next_group_id = some db.next_group_id
      rw [hdb1, hegid]
    · intro t ht hc
      exact absurd (hgid t ht db.next_group_id hc) (lt_irrefl _)
    · have hpoint3 := update_balance_spec db2 data.from_account_id (-data.amount) u
        (by rw [hacc2]; exact hu) (by rw [hacc2]; exact hnd)
      have hacc3ids : db3.accounts.map Account.id = db.accounts.map Account.id := by
        rw [hdb3, update_balance_accounts_ids, hacc2]
      have hacc3users : db3.accounts.map Account.user_id =
          db.accounts.map Account.user_id := by
        rw [hdb3, update_balance_accounts_users, hacc2]
      have hu3 : ∀ a ∈ db3.accounts, a.user_id = u :=
        forall_of_map_eq Account.user_id (fun v => v = u) hacc3users hu
      have hnd3 : (db3.accounts.map Account.id).Nodup := by
        rw [hacc3ids]; exact hnd
      have hpoint4 := update_balance_spec db3 data.to_account_id data.amount u hu3 hnd3
      have hcomp := forall2_comp hpoint3 hpoint4
      rw [hacc2] at hcomp
      intro a ha
      obtain ⟨a2, ha2, mid, ⟨h1, h2, h3, h4⟩, ⟨g1, g2, g3, g4⟩⟩ :=
        forall2_mem_left hcomp a ha
      refine ⟨a2, ha2, by rw [g1, h1], ?_⟩
      rw [g4, h4, h1]

/-- Concrete database for the transfer-creation witness: two accounts, no
transfer categories yet (first transfer). -/
def exC6db : DB :=
  { accounts := [⟨1, 5, "cash", 100000⟩, ⟨2, 5, "bank", 0⟩]
    categories := []
    budgets := []
    transactions := []
    next_transaction_id := 100
    next_category_id := 20
    next_group_id := 50 }

def exC6data : TransferCreate := ⟨1, 2, 30000, ⟨2024, 1, 10⟩, "move", true⟩

theorem claim_C6_create_transfer_witness :
    (create_transfer exC6db ⟨1, 1, 500, ⟨2024, 1, 2⟩, "self", true⟩ 5 =
      Except.error "Cannot transfer to the same account") ∧
    (∃ r, create_transfer exC6db exC6data 5 = Except.ok r ∧
      (∃ c ∈ r.1.categories, c.id = r.2.1.category_id ∧
        c.name = "Outgoing transfer" ∧ c.user_id = 5) ∧
      (∃ c ∈ r.1.categories, c.id = r.2.2.category_id ∧
        c.name = "Incoming transfer" ∧ c.user_id = 5) ∧
      ((get_category_by_name exC6db "Outgoing transfer" 5).isSome →
       (get_category_by_name exC6db "Incoming transfer" 5).isSome →
       r.1.categories = exC6db.categories) ∧
      r.2.1.transfer_group_id = some exC6db.next_group_id ∧
      r.2.2.transfer_group_id = some exC6db.next_group_id ∧
      (∀ t ∈ exC6db.transactions,
        t.transfer_group_id ≠ some exC6db.next_group_id) ∧
      r.1.transactions = exC6db.transactions ++ [r.2.1, r.2.2] ∧
      r.2.1.type = TxType.expense ∧ r.2.1.account_id = exC6data.from_account_id ∧
      r.2.1.amount = exC6data.amount ∧ r.2.1.is_transfer = true ∧
      r.2.2.type = TxType.income ∧ r.2.2.account_id = exC6data.to_account_id ∧
      r.2.2.amount = exC6data.amount ∧ r.2.2.is_transfer = true ∧
      (∀ a ∈ exC6db.accounts, ∃ a2 ∈ r.1.accounts, a2.id = a.id ∧
        a2.balance = a.balance +
          (if a.id = exC6data.from_account_id then -exC6data.amount else 0) +
          (if a.id = exC6data.to_account_id then exC6data.amount else 0))) :=
  ⟨(claim_C6_create_transfer exC6db ⟨1, 1, 500, ⟨2024, 1, 2⟩, "self", true⟩ 5
      (by decide) (by decide) (by decide)).1 rfl,
   (claim_C6_create_transfer exC6db exC6data 5
      (by decide) (by decide) (by decide)).2 (by decide)⟩

/-- Claim C7: update_transfer ignores category, account, type and tag
changes in the patch (both legs keep those fields, and hide_from_summary,
which the update schema cannot even carry, is also unchanged on both legs);
when the patch sets the amount, the outgoing account's balance changes by
old - new and the incoming account's by new - old; and the mutable shared
fields (amount, date, description) are applied identically to both legs;
transactions other than the two legs are untouched. -/
theorem claim_C7_update_transfer (db : DB) (tid : Nat) (data : TransactionUpdate)
    (u : Nat) (t p og ic : Transaction)
    (hu : ∀ a ∈ db.accounts, a.user_id = u)
    (hnd : (db.accounts.map Account.id).Nodup)
    (hget : get_transaction db tid u = some t)
    (hT : t.is_transfer = true)
    (hpair : get_paired_transaction db t u = some p)
    (hog : og = if t.type = TxType.expense then t else p)
    (hic : ic = if t.type = TxType.expense then p else t) :
    ∃ db2, update_transfer db tid data u =
      some (db2, applyTransferPatch data og, applyTransferPatch data ic) ∧
    ((applyTransferPatch data og).category_id = og.category_id ∧
     (applyTransferPatch data og).account_id = og.account_id ∧
     (applyTransferPatch data og).type = og.type ∧
     (applyTransferPatch data og).tags = og.tags ∧
     (applyTransferPatch data og).hide_from_summary = og.hide_from_summary) ∧
    ((applyTransferPatch data ic).category_id = ic.category_id ∧
     (applyTransferPatch data ic).account_id = ic.account_id ∧
     (applyTransferPatch data ic).type = ic.type ∧
     (applyTransferPatch data ic).tags = ic.tags ∧
     (applyTransferPatch data ic).hide_from_summary = ic.hide_from_summary) ∧
    (∀ v, data.amount = some v → (applyTransferPatch data og).amount = v ∧
      (applyTransferPatch data ic).amount = v) ∧
    (∀ v, data.date = some v → (applyTransferPatch data og).date = v ∧
      (applyTransferPatch data ic).date = v) ∧
    (∀ v, data.description = some v → (applyTransferPatch data og).description = v ∧
      (applyTransferPatch data ic).description = v) ∧
    (data.amount = none → (applyTransferPatch data og).amount = og.amount ∧
      (applyTransferPatch data ic).amount = ic.amount) ∧
    (∀ newA, data.amount = some newA →
      ∀ a ∈ db.accounts, ∃ a2 ∈ db2.accounts, a2.id = a.id ∧
        a2.balance = a.balance +
          (if a.id = og.account_id then og.amount - newA else 0) +
          (if a.id = ic.account_id then newA - og.amount else 0)) ∧
    (data.amount = none → db2.accounts = db.accounts) ∧
    (∀ x ∈ db.transactions, x.id ≠ og.id → x.id ≠ ic.id →
      x ∈ db2.transactions) := by
  unfold update_transfer
  rw [hget]
  simp only []
  rw [hT]
  simp only [Bool.not_true, Bool.false_eq_true, if_false]
  rw [hpair]
  simp only []
  rw [← hog, ← hic]
  cases hamt : data.amount with
  | none =>
    refine ⟨_, rfl, ⟨rfl, rfl, rfl, rfl, rfl⟩, ⟨rfl, rfl, rfl, rfl, rfl⟩,
      ?_, ?_, ?_, ?_, ?_, ?_, ?_⟩
    · intro v hv
      cases hv
    · intro v hv
      constructor <;> simp [applyTransferPatch, hv]
    · intro v hv
      constructor <;> simp [applyTransferPatch, hv]
    · intro _
      constructor <;> simp [applyTransferPatch, hamt]
    · intro newA hv
      cases hv
    · intro _
      rfl
    · intro x hx hx1 hx2
      show x ∈ db.transactions.map _
      refine List.mem_map.2 ⟨x, hx, ?_⟩
      have e1 : (x.id == og.id) = false := by simp [hx1]
      have e2 : (x.id == ic.id) = false := by simp [hx2]
      simp [e1, e2]
  | some newA =>
    set db1 : DB := (update_balance
      ((update_balance db og.account_id (og.amount - newA) u).1)
      ic.account_id (newA - og.amount) u).1 with hdb1
    refine ⟨_, rfl, ⟨rfl, rfl, rfl, rfl, rfl⟩, ⟨rfl, rfl, rfl, rfl, rfl⟩,
      ?_, ?_, ?_, ?_, ?_, ?_, ?_⟩
    · intro v hv
      cases hv
      constructor <;> simp [applyTransferPatch, hamt]
    · intro v hv
      constructor <;> simp [applyTransferPatch, hv]
    · intro v hv
      constructor <;> simp [applyTransferPatch, hv]
    · intro hn
      cases hn
    · intro newA2 hv
      cases hv
      have hpoint1 := update_balance_spec db og.account_id (og.amount - newA) u hu hnd
      have hmid : DB := (update_balance db og.account_id (og.amount - newA) u).1
      have hids1 : ((update_balance db og.account_id (og.amount - newA) u).1).accounts.map
          Account.id = db.accounts.map Account.id := update_balance_accounts_ids db _ _ u
      have husers1 : ((update_balance db og.account_id (og.amount - newA) u).1).accounts.map
          Account.user_id = db.accounts.map Account.user_id :=
        update_balance_accounts_users db _ _ u
      have hu1 : ∀ a ∈ ((update_balance db og.account_id (og.amount - newA) u).1).accounts,
          a.user_id = u := forall_of_map_eq Account.user_id (fun v => v = u) husers1 hu
      have hnd1 : (((update_balance db og.account_id (og.amount - newA) u).1).accounts.map
          Account.id).Nodup := by rw [hids1]; exact hnd
      have hpoint2 := update_balance_spec
        ((update_balance db og.account_id (og.amount - newA) u).1)
        ic.account_id (newA - og.amount) u hu1 hnd1
      have hcomp := forall2_comp hpoint1 hpoint2
      intro a ha
      obtain ⟨a2, ha2, mid, ⟨h1, h2, h3, h4⟩, ⟨g1, g2, g3, g4⟩⟩ :=
        forall2_mem_left hcomp a ha
      refine ⟨a2, ha2, by rw [g1, h1], ?_⟩
      rw [g4, h4, h1]
    · intro hn
      cases hn
    · intro x hx hx1 hx2
      show x ∈ db1.transactions.map _
      have htx1 : db1.transactions = db.transactions := by
        rw [hdb1, update_balance_transactions, update_balance_transactions]
      rw [htx1]
      refine List.mem_map.2 ⟨x, hx, ?_⟩
      have e1 : (x.id == og.id) = false := by simp [hx1]
      have e2 : (x.id == ic.id) = false := by simp [hx2]
      simp [e1, e2]

def exC7t : Transaction :=
  ⟨100, 6, ⟨2024, 1, 10⟩, TxType.expense, 30000, 21, 1, "move", true, some 50,
    true, []⟩

def exC7p : Transaction :=
  ⟨101, 6, ⟨2024, 1, 10⟩, TxType.income, 30000, 22, 2, "move", true, some 50,
    true, []⟩

/-- Concrete database for the transfer-update witness: one transfer pair. -/
def exC7db : DB :=
  { accounts := [⟨1, 6, "cash", 70000⟩, ⟨2, 6, "bank", 30000⟩]
    categories := [⟨21, 6, "Outgoing transfer", TxType.expense, none, true⟩,
                   ⟨22, 6, "Incoming transfer", TxType.income, none, true⟩]
    budgets := []
    transactions := [exC7t, exC7p]
    next_transaction_id := 102
    next_category_id := 30
    next_group_id := 51 }

def exC7data : TransactionUpdate :=
  { amount := some 20000, description := some "moved" }

theorem claim_C7_update_transfer_witness :
    ∃ db2, update_transfer exC7db 100 exC7data 6 =
      some (db2, applyTransferPatch exC7data exC7t, applyTransferPatch exC7data exC7p) ∧
    ((applyTransferPatch exC7data exC7t).category_id = exC7t.category_id ∧
     (applyTransferPatch exC7data exC7t).account_id = exC7t.account_id ∧
     (applyTransferPatch exC7data exC7t).type = exC7t.type ∧
     (applyTransferPatch exC7data exC7t).tags = exC7t.tags ∧
     (applyTransferPatch exC7data exC7t).hide_from_summary = exC7t.hide_from_summary) ∧
    ((applyTransferPatch exC7data exC7p).category_id = exC7p.category_id ∧
     (applyTransferPatch exC7data exC7p).account_id = exC7p.account_id ∧
     (applyTransferPatch exC7data exC7p).type = exC7p.type ∧
     (applyTransferPatch exC7data exC7p).tags = exC7p.tags ∧
     (applyTransferPatch exC7data exC7p).hide_from_summary = exC7p.hide_from_summary) ∧
    (∀ v, exC7data.amount = some v → (applyTransferPatch exC7data exC7t).amount = v ∧
      (applyTransferPatch exC7data exC7p).amount = v) ∧
    (∀ v, exC7data.date = some v → (applyTransferPatch exC7data exC7t).date = v ∧
      (applyTransferPatch exC7data exC7p).date = v) ∧
    (∀ v, exC7data.description = some v →
      (applyTransferPatch exC7data exC7t).description = v ∧
      (applyTransferPatch exC7data exC7p).description = v) ∧
    (exC7data.amount = none → (applyTransferPatch exC7data exC7t).amount = exC7t.amount ∧
      (applyTransferPatch exC7data exC7p).amount = exC7p.amount) ∧
    (∀ newA, exC7data.amount = some newA →
      ∀ a ∈ exC7db.accounts, ∃ a2 ∈ db2.accounts, a2.id = a.id ∧
        a2.balance = a.balance +
          (if a.id = exC7t.account_id then exC7t.amount - newA else 0) +
          (if a.id = exC7p.account_id then newA - exC7t.amount else 0)) ∧
    (exC7data.amount = none → db2.accounts = exC7db.accounts) ∧
    (∀ x ∈ exC7db.transactions, x.id ≠ exC7t.id → x.id ≠ exC7p.id →
      x ∈ db2.transactions) :=
  claim_C7_update_transfer exC7db 100 exC7data 6 exC7t exC7p exC7t exC7p
    (by decide) (by decide) (by decide) (by decide) (by decide) (by decide)
    (by decide)

/-- The two-level category hierarchy invariant of the claim: a category with
a non-null parent is never itself a parent, and a child's type equals its
parent's type. -/
def CategoryInv (db : DB) : Prop :=
  (∀ c ∈ db.categories, c.parent_id.isSome →
    ∀ d ∈ db.categories, d.parent_id ≠ some c.id) ∧
  (∀ c ∈ db.categories, ∀ pid, c.parent_id = some pid →
    ∀ par ∈ db.categories, par.id = pid → c.type = par.type)

/-- Concrete category store for the hierarchy counterexample: parent P
(expense) with child C (expense). -/
def exC9db : DB :=
  { accounts := []
    categories := [⟨10, 8, "P", TxType.expense, none, false⟩,
                   ⟨11, 8, "C", TxType.expense, some 10, false⟩]
    budgets := []
    transactions := []
    next_transaction_id := 100
    next_category_id := 20
    next_group_id := 50 }

/-- Claim C9 is false as stated: from a store satisfying the hierarchy
invariant, update_category with a type-only patch on the child succeeds (the
code validates only when the patch sets a non-null parent_id) and leaves the
child's type different from its parent's, violating the invariant. -/
theorem claim_C9_counterexample :
    CategoryInv exC9db ∧
    update_category exC9db 11 { type := some TxType.income } 8 =
      Except.ok (some
        ({ exC9db with categories := [⟨10, 8, "P", TxType.expense, none, false⟩,
            ⟨11, 8, "C", TxType.income, some 10, false⟩] },
         ⟨11, 8, "C", TxType.income, some 10, false⟩)) ∧
    ¬CategoryInv { exC9db with categories :=
        [⟨10, 8, "P", TxType.expense, none, false⟩,
         ⟨11, 8, "C", TxType.income, some 10, false⟩] } := by
  refine ⟨?_, rfl, ?_⟩
  · unfold CategoryInv
    decide
  · unfold CategoryInv
    decide

/-- Inserting a fresh category whose parent (if any) is an existing root
with the same type preserves the hierarchy invariant. -/
theorem insert_category_inv (db : DB) (n : Category)
    (hnd : (db.categories.map Category.id).Nodup)
    (hfresh : ∀ c ∈ db.categories, c.id < db.next_category_id)
    (hpbound : ∀ c ∈ db.categories, ∀ q, c.parent_id = some q →
      q < db.next_category_id)
    (hinv : CategoryInv db)
    (hnid : n.id = db.next_category_id)
    (hnpar : ∀ q, n.parent_id = some q → ∃ pr ∈ db.categories, pr.id = q ∧
      pr.parent_id = none ∧ n.type = pr.type) :
    CategoryInv { db with categories := db.categories ++ [n]
                          next_category_id := db.next_category_id + 1 } := by
  have hid_inj : ∀ x ∈ db.categories, ∀ y ∈ db.categories, x.id = y.id → x = y :=
    fun x hx y hy hxy => List.inj_on_of_nodup_map hnd hx hy hxy
  constructor
  · intro c hcmem hcs d hdmem hdc
    simp only [] at hcmem hdmem
    rcases List.mem_append.1 hcmem with hcm | hcn
    · rcases List.mem_append.1 hdmem with hdm | hdn
      · exact hinv.1 c hcm hcs d hdm hdc
      · have hdn2 : d = n := List.mem_singleton.1 hdn
        rw [hdn2] at hdc
        obtain ⟨pr, hpr, hprid, hprn, -⟩ := hnpar c.id hdc
        have hpc : pr = c := hid_inj pr hpr c hcm hprid
        rw [hpc] at hprn
        rw [hprn] at hcs
        cases hcs
    · have hcn2 : c = n := List.mem_singleton.1 hcn
      rw [hcn2] at hdc
      rcases List.mem_append.1 hdmem with hdm | hdn
      · have hlt := hpbound d hdm n.id hdc
        rw [hnid] at hlt
        exact absurd hlt (lt_irrefl _)
      · have hdn2 : d = n := List.mem_singleton.1 hdn
        rw [hdn2] at hdc
        obtain ⟨pr, hpr, hprid, -, -⟩ := hnpar n.id hdc
        have hlt := hfresh pr hpr
        rw [hprid, hnid] at hlt
        exact absurd hlt (lt_irrefl _)
  · intro c hcmem q hq par hpmem hpid
    simp only [] at hcmem hpmem
    rcases List.mem_append.1 hcmem with hcm | hcn
    · rcases List.mem_append.1 hpmem with hpm | hpn
      · exact hinv.2 c hcm q hq par hpm hpid
      · have hpn2 : par = n := List.mem_singleton.1 hpn
        rw [hpn2] at hpid
        have hlt := hpbound c hcm q hq
        rw [← hpid, hnid] at hlt
        exact absurd hlt (lt_irrefl _)
    · have hcn2 : c = n := List.mem_singleton.1 hcn
      rw [hcn2] at hq
      rw [hcn2]
      obtain ⟨pr, hpr, hprid, hprn, hprt⟩ := hnpar q hq
      rcases List.mem_append.1 hpmem with hpm | hpn
      · have hppr : pr = par := hid_inj pr hpr par hpm (by rw [hprid, hpid])
        rw [hprt, hppr]
      · have hpn2 : par = n := List.mem_singleton.1 hpn
        rw [hpn2] at hpid
        have hlt := hfresh pr hpr
        rw [hprid, ← hpid, hnid] at hlt
        exact absurd hlt (lt_irrefl _)

/-- Claim C9, amended: create_category enforces the two-level hierarchy and
parent-type equality (rejecting a grandchild with the depth error and a
mismatched child type with the type error) and preserves the hierarchy
invariant; update_category runs these validations only when the patch sets a
non-null parent_id, checking the new parent's depth and its type against the
patched type — a patch that does not set parent_id is not validated at all
(and can break the invariant, as the counterexample shows). -/
theorem claim_C9_amended_hierarchy (db : DB) (u : Nat) (data : CategoryCreate)
    (udata : CategoryUpdate) (cid pid : Nat) (par cat : Category)
    (hnd : (db.categories.map Category.id).Nodup)
    (hfresh : ∀ c ∈ db.categories, c.id < db.next_category_id)
    (hpbound : ∀ c ∈ db.categories, ∀ q, c.parent_id = some q →
      q < db.next_category_id)
    (hinv : CategoryInv db) :
    (data.parent_id = some pid → get_category db pid u = some par →
      par.parent_id.isSome →
      create_category db data u =
        Except.error "Cannot create more than 2 levels of category hierarchy") ∧
    (data.parent_id = some pid → get_category db pid u = some par →
      par.parent_id = none → par.type ≠ data.type →
      create_category db data u =
        Except.error "Child category must have the same type as parent") ∧
    (∀ r, create_category db data u = Except.ok r → CategoryInv r.1) ∧
    (get_category db cid u = some cat →
      udata.parent_id = some (some pid) → get_category db pid u = some par →
      par.parent_id.isSome →
      update_category db cid udata u =
        Except.error "Cannot create more than 2 levels of category hierarchy") ∧
    (get_category db cid u = some cat →
      udata.parent_id = some (some pid) → get_category db pid u = some par →
      par.parent_id = none → par.type ≠ udata.type.getD cat.type →
      update_category db cid udata u =
        Except.error "Child category must have the same type as parent") := by
  refine ⟨?_, ?_, ?_, ?_, ?_⟩
  · intro hp hpar hps
    unfold create_category
    rw [hp]
    simp only []
    rw [hpar]
    simp only []
    rw [if_pos hps]
  · intro hp hpar hpn hty
    unfold create_category
    rw [hp]
    simp only []
    rw [hpar]
    simp only []
    rw [if_neg (by rw [hpn]; simp), if_pos hty]
  · intro r hr
    unfold create_category at hr
    cases hp : data.parent_id with
    | none =>
      rw [hp] at hr
      simp only [] at hr
      cases hr
      refine insert_category_inv db _ hnd hfresh hpbound hinv rfl ?_
      intro q hq
      have hq2 : (none : Option Nat) = some q := hq
      cases hq2
    | some pid2 =>
      rw [hp] at hr
      simp only [] at hr
      cases hpar2 : get_category db pid2 u with
      | none => rw [hpar2] at hr; cases hr
      | some par2 =>
        rw [hpar2] at hr
        simp only [] at hr
        by_cases h1 : par2.parent_id.isSome
        · rw [if_pos h1] at hr; cases hr
        · rw [if_neg h1] at hr
          by_cases h2 : par2.type ≠ data.type
          · rw [if_pos h2] at hr; cases hr
          · rw [if_neg h2] at hr
            cases hr
            refine insert_category_inv db _ hnd hfresh hpbound hinv rfl ?_
            intro q hq
            have hq2 : some pid2 = some q := hq
            cases hq2
            refine ⟨par2, List.mem_of_find?_eq_some hpar2, ?_, ?_, ?_⟩
            · have := List.find?_some hpar2
              simp only [Bool.and_eq_true, beq_iff_eq] at this
              exact this.1
            · exact Option.not_isSome_iff_eq_none.1 h1
            · show data.type = par2.type
              exact (not_not.1 h2).symm
  · intro hc hp hpar hps
    unfold update_category
    rw [hc]
    simp only []
    rw [hp]
    simp only []
    rw [hpar]
    simp only []
    rw [if_pos hps]
  · intro hc hp hpar hpn hty
    unfold update_category
    rw [hc]
    simp only []
    rw [hp]
    simp only []
    rw [hpar]
    simp only []
    rw [if_neg (by rw [hpn]; simp), if_pos hty]

def exC9C : Category := ⟨11, 8, "C", TxType.expense, some 10, false⟩

def exC9P : Category := ⟨10, 8, "P", TxType.expense, none, false⟩

theorem claim_C9_amended_hierarchy_witness :
    create_category exC9db ⟨"X", TxType.income, some 11⟩ 8 =
      Except.error "Cannot create more than 2 levels of category hierarchy" ∧
    create_category exC9db ⟨"X", TxType.income, some 10⟩ 8 =
      Except.error "Child category must have the same type as parent" ∧
    CategoryInv { exC9db with
      categories := exC9db.categories ++ [⟨20, 8, "X", TxType.expense, some 10, false⟩]
      next_category_id := 21 } ∧
    update_category exC9db 10 { parent_id := some (some 11) } 8 =
      Except.error "Cannot create more than 2 levels of category hierarchy" ∧
    update_category exC9db 11
      { type := some TxType.income, parent_id := some (some 10) } 8 =
      Except.error "Child category must have the same type as parent" := by
  have hside : CategoryInv exC9db := by
    constructor
    · decide
    · decide
  refine ⟨?_, ?_, ?_, ?_, ?_⟩
  · exact (claim_C9_amended_hierarchy exC9db 8 ⟨"X", TxType.income, some 11⟩ {}
      0 11 exC9C exC9P (by decide) (by decide) (by decide) hside).1
      rfl (by decide) (by decide)
  · exact (claim_C9_amended_hierarchy exC9db 8 ⟨"X", TxType.income, some 10⟩ {}
      0 10 exC9P exC9C (by decide) (by decide) (by decide) hside).2.1
      rfl (by decide) (by decide) (by decide)
  · exact (claim_C9_amended_hierarchy exC9db 8 ⟨"X", TxType.expense, some 10⟩ {}
      0 10 exC9P exC9C (by decide) (by decide) (by decide) hside).2.2.1
      ({ exC9db with
        categories := exC9db.categories ++ [⟨20, 8, "X", TxType.expense, some 10, false⟩]
        next_category_id := 21 }, ⟨20, 8, "X", TxType.expense, some 10, false⟩) rfl
  · exact (claim_C9_amended_hierarchy exC9db 8 ⟨"X", TxType.expense, none⟩
      { parent_id := some (some 11) } 10 11 exC9C exC9P
      (by decide) (by decide) (by decide) hside).2.2.2.1
      (by decide) rfl (by decide) (by decide)
  · exact (claim_C9_amended_hierarchy exC9db 8 ⟨"X", TxType.expense, none⟩
      { type := some TxType.income, parent_id := some (some 10) } 11 10 exC9P exC9C
      (by decide) (by decide) (by decide) hside).2.2.2.2
      (by decide) rfl (by decide) (by decide) (by decide)

/-- Single-user well-formedness of the transaction table. -/
def TxnWF (db : DB) (u : Nat) : Prop :=
  (∀ t ∈ db.transactions, t.user_id = u) ∧
  (db.transactions.map Transaction.id).Nodup ∧
  (∀ t ∈ db.transactions, t.id < db.next_transaction_id) ∧
  (∀ t ∈ db.transactions, ∀ g, t.transfer_group_id = some g →
    g < db.next_group_id)

/-- Two members of a list with unique ids are equal when their ids agree. -/
theorem txn_inj {ts : List Transaction}
    (hnd : (ts.map Transaction.id).Nodup) :
    ∀ x ∈ ts, ∀ y ∈ ts, x.id = y.id → x = y :=
  fun x hx y hy hxy => List.inj_on_of_nodup_map hnd hx hy hxy

/-- If a predicate's filter has length two and two distinct satisfying
members are known, every satisfying member is one of those two. -/
theorem two_of_filter_length {α : Type} [DecidableEq α] {p : α → Bool}
    {l : List α} {t s : α} (ht : t ∈ l) (hs : s ∈ l) (hts : t ≠ s)
    (hpt : p t = true) (hps : p s = true)
    (hcount : (l.filter p).length = 2) :
    ∀ x ∈ l, p x = true → x = t ∨ x = s := by
  intro x hx hpx
  by_contra hcon
  push_neg at hcon
  obtain ⟨hxt, hxs⟩ := hcon
  have h1 : t ∈ l.filter p := List.mem_filter.2 ⟨ht, hpt⟩
  have h2 : s ∈ l.filter p := List.mem_filter.2 ⟨hs, hps⟩
  have h3 : x ∈ l.filter p := List.mem_filter.2 ⟨hx, hpx⟩
  have hsub : ({t, s, x} : Finset α) ⊆ (l.filter p).toFinset := by
    intro y hy
    rw [Finset.mem_insert, Finset.mem_insert, Finset.mem_singleton] at hy
    rcases hy with rfl | rfl | rfl <;> rw [List.mem_toFinset] <;> assumption
  have hcard : ({t, s, x} : Finset α).card = 3 := by
    rw [Finset.card_insert_of_not_mem, Finset.card_insert_of_not_mem,
      Finset.card_singleton]
    · rw [Finset.mem_singleton]
      exact fun h => hxs h.symm
    · rw [Finset.mem_insert, Finset.mem_singleton]
      rintro (h | h)
      · exact hts h
      · exact hxt h.symm
  have hle : ({t, s, x} : Finset α).card ≤ (l.filter p).toFinset.card :=
    Finset.card_le_card hsub
  have hle2 : (l.filter p).toFinset.card ≤ (l.filter p).length :=
    List.toFinset_card_le _
  rw [hcard] at hle
  rw [hcount] at hle2
  omega

/-- Under the pairing invariant, a transfer leg's sibling is unique and
get_paired_transaction finds it. -/
theorem get_paired_of_pairInv (db : DB) (u : Nat) (t : Transaction)
    (hwf : TxnWF db u) (hinv : PairInv db)
    (ht : t ∈ db.transactions) (htr : t.is_transfer = true) :
    ∃ g s, t.transfer_group_id = some g ∧ s ∈ db.transactions ∧
      s.id ≠ t.id ∧ s.is_transfer = true ∧ s.transfer_group_id = some g ∧
      s.type = oppositeType t.type ∧ s.account_id ≠ t.account_id ∧
      s.amount = t.amount ∧
      (db.transactions.filter (fun x => x.transfer_group_id == some g)).length = 2 ∧
      get_paired_transaction db t u = some s ∧
      (∀ x ∈ db.transactions, x.transfer_group_id = some g → x = t ∨ x = s) := by
  obtain ⟨g, hg, s, hs, hsid, hstr, hsg, hsty, hsacct, hsamt, hcount⟩ :=
    hinv.2 t ht htr
  have hex : ∀ x ∈ db.transactions, x.transfer_group_id = some g → x = t ∨ x = s := by
    intro x hx hxg
    have := two_of_filter_length ht hs
      (fun he => hsid (by rw [he])) (by simp [hg]) (by simp [hsg]) hcount x hx
      (by simp [hxg])
    tauto
  refine ⟨g, s, hg, hs, hsid, hstr, hsg, hsty, hsacct, hsamt, hcount, ?_, hex⟩
  unfold get_paired_transaction
  rw [htr, hg]
  simp only [Bool.not_true, Option.isNone_some, Bool.or_self, Bool.false_eq_true,
    if_false]
  cases hfind : db.transactions.find? (fun x =>
      x.transfer_group_id == some g && x.user_id == u && x.id != t.id) with
  | none =>
    exfalso
    have := List.find?_eq_none.1 hfind s hs
    apply this
    rw [hsg]
    simp [hwf.1 s hs, hsid]
  | some y =>
    have hymem := List.mem_of_find?_eq_some hfind
    have hyp := List.find?_some hfind
    simp only [Bool.and_eq_true, beq_iff_eq, bne_iff_ne, ne_eq] at hyp
    have hyg : y.transfer_group_id = some g := hyp.1.1
    rcases hex y hymem hyg with rfl | rfl
    · exact absurd rfl hyp.2
    · rfl

/-!
List toolkit for the transfer-pairing claim.
-/

theorem eraseP_eq_filter_of_le_one {α : Type} (p : α → Bool) (l : List α)
    (h : (l.filter p).length ≤ 1) :
    l.eraseP p = l.filter (fun x => !p x) := by
  induction l with
  | nil => rfl
  | cons a l ih =>
    rw [List.filter_cons] at h
    cases hpa : p a with
    | true =>
      rw [hpa] at h
      simp only [if_true] at h
      rw [List.length_cons] at h
      have hnil : l.filter p = [] := List.length_eq_zero.1 (by omega)
      have hall : ∀ x ∈ l, ¬ p x = true := List.filter_eq_nil_iff.1 hnil
      rw [List.eraseP_cons_of_pos hpa, List.filter_cons_of_neg (by simp [hpa])]
      rw [List.filter_eq_self.2 (fun x hx => by simp [hall x hx])]
    | false =>
      rw [hpa] at h
      simp only [Bool.false_eq_true, if_false] at h
      rw [List.eraseP_cons_of_neg (by simp [hpa]),
        List.filter_cons_of_pos (by simp [hpa])]
      rw [ih h]

theorem filter_id_le_one (c : Nat) : ∀ (l : List Transaction),
    (l.map Transaction.id).Nodup →
    (l.filter (fun x => x.id == c)).length ≤ 1 := by
  intro l
  induction l with
  | nil => intro _; simp
  | cons a l ih =>
    intro hnd
    rw [List.map_cons, List.nodup_cons] at hnd
    rw [List.filter_cons]
    cases hpa : (a.id == c) with
    | false =>
      simp only [Bool.false_eq_true, if_false]
      exact ih hnd.2
    | true =>
      simp only [if_true, List.length_cons]
      have hnil : l.filter (fun x => x.id == c) = [] := by
        rw [List.filter_eq_nil_iff]
        intro x hx hxc
        apply hnd.1
        have hax : a.id = x.id := by
          rw [beq_iff_eq] at hpa hxc
          rw [hpa, hxc]
        rw [hax]
        exact List.mem_map_of_mem Transaction.id hx
      rw [hnil]
      simp

theorem filter_filter_of_imp {α : Type} (p q : α → Bool) (l : List α)
    (h : ∀ x ∈ l, p x = true → q x = true) :
    (l.filter q).filter p = l.filter p := by
  induction l with
  | nil => rfl
  | cons a l ih =>
    have hrec := ih (fun x hx => h x (List.mem_cons_of_mem a hx))
    rw [List.filter_cons]
    cases hqa : q a with
    | true =>
      rw [if_pos rfl, List.filter_cons, List.filter_cons, hrec]
    | false =>
      have hpa : p a = false := by
        cases hp : p a with
        | false => rfl
        | true => rw [h a (List.mem_cons_self a l) hp] at hqa; cases hqa
      simp only [Bool.false_eq_true, if_false]
      rw [List.filter_cons, hpa]
      simp only [Bool.false_eq_true, if_false]
      exact hrec

theorem length_filter_map {α : Type} (f : α → α) (p : α → Bool) (l : List α)
    (h : ∀ x, p (f x) = p x) :
    ((l.map f).filter p).length = (l.filter p).length := by
  induction l with
  | nil => rfl
  | cons a l ih =>
    rw [List.map_cons, List.filter_cons, List.filter_cons, h a]
    cases p a with
    | true => simp only [if_true, List.length_cons, ih]
    | false => simp only [Bool.false_eq_true, if_false, ih]

theorem map_map_eq {α β : Type} (f : α → α) (g : α → β) (l : List α)
    (h : ∀ x, g (f x) = g x) : (l.map f).map g = l.map g := by
  rw [List.map_map]
  exact List.map_congr_left (fun x _ => h x)

theorem nodup_append_one {α : Type} {l : List α} {b : α} (hl : l.Nodup)
    (hb : b ∉ l) : (l ++ [b]).Nodup := by
  rw [List.nodup_append]
  refine ⟨hl, List.nodup_singleton b, ?_⟩
  intro x hx hxb
  rw [List.mem_singleton] at hxb
  subst hxb
  exact hb hx

theorem nodup_append_two {α : Type} {l : List α} {b c : α} (hl : l.Nodup)
    (hb : b ∉ l) (hc : c ∉ l) (hbc : b ≠ c) : (l ++ [b, c]).Nodup := by
  rw [List.nodup_append]
  refine ⟨hl, by simp [hbc], ?_⟩
  intro x hx hxm
  rw [List.mem_cons, List.mem_singleton] at hxm
  rcases hxm with rfl | rfl
  · exact hb hx
  · exact hc hx

theorem nodup_middle_drop {α : Type} {l₁ l₂ : List α} {a : α}
    (h : (l₁ ++ a :: l₂).Nodup) : (l₁ ++ l₂).Nodup := by
  rw [List.nodup_append] at h ⊢
  obtain ⟨h₁, h₂, hd⟩ := h
  rw [List.nodup_cons] at h₂
  refine ⟨h₁, h₂.2, ?_⟩
  intro x hx hx₂
  exact hd hx (List.mem_cons_of_mem a hx₂)

theorem mem_middle_of_ne {α : Type} {l₁ l₂ : List α} {a x : α}
    (hx : x ∈ l₁ ++ a :: l₂) (hne : x ≠ a) : x ∈ l₁ ++ l₂ := by
  rw [List.mem_append] at hx ⊢
  rcases hx with hx | hx
  · exact Or.inl hx
  · rw [List.mem_cons] at hx
    rcases hx with rfl | hx
    · exact absurd rfl hne
    · exact Or.inr hx

theorem mem_middle_lift {α : Type} {l₁ l₂ : List α} {x : α} (a : α)
    (hx : x ∈ l₁ ++ l₂) : x ∈ l₁ ++ a :: l₂ := by
  rw [List.mem_append] at hx ⊢
  rcases hx with hx | hx
  · exact Or.inl hx
  · exact Or.inr (List.mem_cons_of_mem a hx)

theorem length_filter_middle {α : Type} (p : α → Bool) (l₁ l₂ : List α)
    (a b : α) (hab : p a = p b) :
    ((l₁ ++ a :: l₂).filter p).length = ((l₁ ++ b :: l₂).filter p).length := by
  rw [List.filter_append, List.filter_append, List.filter_cons, List.filter_cons,
    hab]
  cases p b with
  | true => simp
  | false => simp

theorem length_filter_middle_drop {α : Type} (p : α → Bool) (l₁ l₂ : List α)
    (a : α) (ha : p a = false) :
    ((l₁ ++ l₂).filter p).length = ((l₁ ++ a :: l₂).filter p).length := by
  rw [List.filter_append, List.filter_append, List.filter_cons, ha]
  simp

theorem length_filter_updateFirstP {α : Type} (p q : α → Bool) (f : α → α)
    (h : ∀ x, q (f x) = q x) : ∀ l : List α,
    ((updateFirstP p f l).filter q).length = (l.filter q).length := by
  intro l
  induction l with
  | nil => rfl
  | cons a l ih =>
    simp only [updateFirstP]
    cases hpa : p a with
    | true =>
      simp only [if_true, List.filter_cons, h a]
      cases q a with
      | true => simp
      | false => simp
    | false =>
      simp only [Bool.false_eq_true, if_false, List.filter_cons]
      cases q a with
      | true => simp [ih]
      | false => simp [ih]

/-!
Transfer pairing: operation shapes.
-/

@[simp]
theorem ite_recalc_next_transaction_id (cond : Prop) [Decidable cond] (db : DB)
    (c : Nat) (m : Date) (u : Nat) :
    (if cond then recalculate_spent db c m u else db).next_transaction_id =
      db.next_transaction_id := by
  by_cases h : cond <;> simp [h]

@[simp]
theorem ite_recalc_next_group_id (cond : Prop) [Decidable cond] (db : DB)
    (c : Nat) (m : Date) (u : Nat) :
    (if cond then recalculate_spent db c m u else db).next_group_id =
      db.next_group_id := by
  by_cases h : cond <;> simp [h]

@[simp]
theorem applyPatch_id (t : Transaction) (d : TransactionUpdate) :
    (applyPatch t d).id = t.id := rfl

@[simp]
theorem applyPatch_user_id (t : Transaction) (d : TransactionUpdate) :
    (applyPatch t d).user_id = t.user_id := rfl

@[simp]
theorem applyPatch_is_transfer (t : Transaction) (d : TransactionUpdate) :
    (applyPatch t d).is_transfer = t.is_transfer := rfl

@[simp]
theorem applyPatch_transfer_group_id (t : Transaction) (d : TransactionUpdate) :
    (applyPatch t d).transfer_group_id = t.transfer_group_id := rfl

@[simp]
theorem applyTransferPatch_id (d : TransactionUpdate) (t : Transaction) :
    (applyTransferPatch d t).id = t.id := rfl

@[simp]
theorem applyTransferPatch_user_id (d : TransactionUpdate) (t : Transaction) :
    (applyTransferPatch d t).user_id = t.user_id := rfl

@[simp]
theorem applyTransferPatch_is_transfer (d : TransactionUpdate) (t : Transaction) :
    (applyTransferPatch d t).is_transfer = t.is_transfer := rfl

@[simp]
theorem applyTransferPatch_transfer_group_id (d : TransactionUpdate)
    (t : Transaction) :
    (applyTransferPatch d t).transfer_group_id = t.transfer_group_id := rfl

@[simp]
theorem applyTransferPatch_type (d : TransactionUpdate) (t : Transaction) :
    (applyTransferPatch d t).type = t.type := rfl

@[simp]
theorem applyTransferPatch_account_id (d : TransactionUpdate) (t : Transaction) :
    (applyTransferPatch d t).account_id = t.account_id := rfl

@[simp]
theorem applyTransferPatch_amount (d : TransactionUpdate) (t : Transaction) :
    (applyTransferPatch d t).amount = d.amount.getD t.amount := rfl

/-- Combined transaction-table well-formedness and pairing invariant. -/
def PairWF (db : DB) (u : Nat) : Prop := TxnWF db u ∧ PairInv db

/-- Decomposition of a successful get_transaction lookup. -/
theorem get_transaction_decomp {db : DB} {tid u : Nat} {t : Transaction}
    (h : get_transaction db tid u = some t) :
    t ∈ db.transactions ∧ t.id = tid ∧ t.user_id = u ∧
    ∃ l₁ l₂, db.transactions = l₁ ++ t :: l₂ ∧
      (∀ f, updateFirstP (fun x => x.id == tid && x.user_id == u) f
        db.transactions = l₁ ++ f t :: l₂) ∧
      db.transactions.eraseP (fun x => x.id == tid && x.user_id == u) =
        l₁ ++ l₂ := by
  unfold get_transaction at h
  have hmem := List.mem_of_find?_eq_some h
  have hp := List.find?_some h
  simp only [Bool.and_eq_true, beq_iff_eq] at hp
  obtain ⟨l₁, l₂, hl, h₁, hx, hupd, herase⟩ := find_decomposition h
  exact ⟨hmem, hp.1, hp.2, l₁, l₂, hl, hupd, herase⟩

/-- The transaction-table effect of create_transaction. -/
theorem create_transaction_shape (db : DB) (data : TransactionCreate) (u : Nat) :
    (create_transaction db data u).1.transactions =
      db.transactions ++ [(create_transaction db data u).2] ∧
    (create_transaction db data u).2.id = db.next_transaction_id ∧
    (create_transaction db data u).2.user_id = u ∧
    (create_transaction db data u).2.is_transfer = false ∧
    (create_transaction db data u).2.transfer_group_id = none ∧
    (create_transaction db data u).1.next_transaction_id =
      db.next_transaction_id + 1 ∧
    (create_transaction db data u).1.next_group_id = db.next_group_id := by
  unfold create_transaction
  simp only []
  refine ⟨?_, trivial, trivial, trivial, trivial, ?_, ?_⟩ <;> simp

theorem create_transaction_pairWF (db : DB) (data : TransactionCreate) (u : Nat)
    (h : PairWF db u) : PairWF (create_transaction db data u).1 u := by
  obtain ⟨⟨huser, hnd, hfresh, hgb⟩, hinv⟩ := h
  obtain ⟨htx, hid, hu2, htr, hg, hnext, hng⟩ := create_transaction_shape db data u
  constructor
  · refine ⟨?_, ?_, ?_, ?_⟩
    · intro x hx
      rw [htx] at hx
      rcases List.mem_append.1 hx with hx | hx
      · exact huser x hx
      · rw [List.mem_singleton] at hx
        rw [hx]
        exact hu2
    · rw [htx, List.map_append, List.map_singleton]
      apply nodup_append_one hnd
      intro hmem
      obtain ⟨x, hxm, hxe⟩ := List.mem_map.1 hmem
      have := hfresh x hxm
      rw [hxe, hid] at this
      omega
    · intro x hx
      rw [htx] at hx
      rw [hnext]
      rcases List.mem_append.1 hx with hx | hx
      · have := hfresh x hx
        omega
      · rw [List.mem_singleton] at hx
        rw [hx, hid]
        omega
    · intro x hx g' hg'
      rw [htx] at hx
      rw [hng]
      rcases List.mem_append.1 hx with hx | hx
      · exact hgb x hx g' hg'
      · rw [List.mem_singleton] at hx
        rw [hx, hg] at hg'
        cases hg'
  · constructor
    · intro x hx hxf
      rw [htx] at hx
      rcases List.mem_append.1 hx with hx | hx
      · exact hinv.1 x hx hxf
      · rw [List.mem_singleton] at hx
        rw [hx, hg]
    · intro x hx hxt
      rw [htx] at hx
      rcases List.mem_append.1 hx with hx | hx
      · obtain ⟨g', hg', s, hs, hsid, hstr, hsg, hsty, hsacct, hsamt, hcnt⟩ :=
          hinv.2 x hx hxt
        refine ⟨g', hg', s, ?_, hsid, hstr, hsg, hsty, hsacct, hsamt, ?_⟩
        · rw [htx]
          exact List.mem_append_left _ hs
        · rw [htx, List.filter_append, List.length_append]
          have hz : ([(create_transaction db data u).2].filter
              (fun y => y.transfer_group_id == some g')).length = 0 := by
            rw [List.filter_singleton, hg]
            simp
          rw [hz, hcnt]
      · rw [List.mem_singleton] at hx
        rw [hx, htr] at hxt
        cases hxt

/-- The transaction-table effect of a successful update_transaction. -/
theorem update_transaction_shape {db : DB} {tid : Nat} {data : TransactionUpdate}
    {u : Nat} {r : DB × Transaction}
    (h : update_transaction db tid data u = some r) :
    r.1.transactions = updateFirstP (fun x => x.id == tid && x.user_id == u)
      (fun x => applyPatch x data) db.transactions ∧
    r.1.next_transaction_id = db.next_transaction_id ∧
    r.1.next_group_id = db.next_group_id := by
  unfold update_transaction at h
  cases hget : get_transaction db tid u with
  | none => rw [hget] at h; cases h
  | some t0 =>
    rw [hget] at h
    simp only [] at h
    cases h
    refine ⟨?_, ?_, ?_⟩ <;> simp

theorem update_transaction_pairWF {db : DB} {tid : Nat} {data : TransactionUpdate}
    {u : Nat} {t0 : Transaction} {r : DB × Transaction}
    (hget : get_transaction db tid u = some t0) (ht0 : t0.is_transfer = false)
    (hupd : update_transaction db tid data u = some r)
    (h : PairWF db u) : PairWF r.1 u := by
  obtain ⟨⟨huser, hnd, hfresh, hgb⟩, hinv⟩ := h
  obtain ⟨htx, hnext, hng⟩ := update_transaction_shape hupd
  obtain ⟨hmem, hid0, huser0, l₁, l₂, hl, hupdF, -⟩ := get_transaction_decomp hget
  rw [hupdF (fun x => applyPatch x data)] at htx
  set t1 := applyPatch t0 data with ht1
  have hsub : ∀ x, x ∈ l₁ ++ l₂ → x ∈ db.transactions := by
    intro x hx
    rw [hl]
    exact mem_middle_lift t0 hx
  have hmemnew : ∀ x, x ∈ r.1.transactions → x = t1 ∨ x ∈ db.transactions := by
    intro x hx
    rw [htx] at hx
    by_cases hxe : x = t1
    · exact Or.inl hxe
    · exact Or.inr (hsub x (mem_middle_of_ne hx hxe))
  constructor
  · refine ⟨?_, ?_, ?_, ?_⟩
    · intro x hx
      rcases hmemnew x hx with rfl | hx
      · rw [show t1.user_id = t0.user_id from rfl]
        exact huser0
      · exact huser x hx
    · rw [htx, List.map_append, List.map_cons,
        show t1.id = t0.id from rfl, ← List.map_cons, ← List.map_append, ← hl]
      exact hnd
    · intro x hx
      rw [hnext]
      rcases hmemnew x hx with rfl | hx
      · rw [show t1.id = t0.id from rfl]
        exact hfresh t0 hmem
      · exact hfresh x hx
    · intro x hx g hg
      rw [hng]
      rcases hmemnew x hx with rfl | hx
      · rw [show t1.transfer_group_id = t0.transfer_group_id from rfl] at hg
        exact hgb t0 hmem g hg
      · exact hgb x hx g hg
  · constructor
    · intro x hx hxf
      rcases hmemnew x hx with rfl | hx
      · rw [show t1.transfer_group_id = t0.transfer_group_id from rfl]
        exact hinv.1 t0 hmem ht0
      · exact hinv.1 x hx hxf
    · intro x hx hxt
      have hxold : x ∈ db.transactions := by
        rcases hmemnew x hx with rfl | hx2
        · rw [show t1.is_transfer = t0.is_transfer from rfl, ht0] at hxt
          cases hxt
        · exact hx2
      obtain ⟨g, hg, s, hs, hsid, hstr, hsg, hsty, hsacct, hsamt, hcnt⟩ :=
        hinv.2 x hxold hxt
      have hst0 : s ≠ t0 := by
        intro he
        rw [he, ht0] at hstr
        cases hstr
      refine ⟨g, hg, s, ?_, hsid, hstr, hsg, hsty, hsacct, hsamt, ?_⟩
      · rw [htx]
        apply mem_middle_lift t1
        rw [hl] at hs
        exact mem_middle_of_ne hs hst0
      · rw [htx, length_filter_middle _ l₁ l₂ t1 t0
          (by rw [show t1.transfer_group_id = t0.transfer_group_id from rfl]),
          ← hl]
        exact hcnt

/-- The transaction-table effect of a successful delete_transaction. -/
theorem delete_transaction_shape {db : DB} {tid u : Nat} {r : DB}
    (h : delete_transaction db tid u = some r) :
    r.transactions = db.transactions.eraseP
      (fun x => x.id == tid && x.user_id == u) ∧
    r.next_transaction_id = db.next_transaction_id ∧
    r.next_group_id = db.next_group_id := by
  unfold delete_transaction at h
  cases hget : get_transaction db tid u with
  | none => rw [hget] at h; cases h
  | some t0 =>
    rw [hget] at h
    simp only [] at h
    cases h
    refine ⟨?_, ?_, ?_⟩ <;> simp

theorem delete_transaction_pairWF {db : DB} {tid u : Nat} {t0 : Transaction}
    {r : DB}
    (hget : get_transaction db tid u = some t0) (ht0 : t0.is_transfer = false)
    (hdel : delete_transaction db tid u = some r)
    (h : PairWF db u) : PairWF r u := by
  obtain ⟨⟨huser, hnd, hfresh, hgb⟩, hinv⟩ := h
  obtain ⟨htx, hnext, hng⟩ := delete_transaction_shape hdel
  obtain ⟨hmem, hid0, huser0, l₁, l₂, hl, -, herase⟩ := get_transaction_decomp hget
  rw [herase] at htx
  have hsub : ∀ x, x ∈ r.transactions → x ∈ db.transactions := by
    intro x hx
    rw [htx] at hx
    rw [hl]
    exact mem_middle_lift t0 hx
  have hg0 : t0.transfer_group_id = none := hinv.1 t0 hmem ht0
  constructor
  · refine ⟨fun x hx => huser x (hsub x hx), ?_,
      fun x hx => by rw [hnext]; exact hfresh x (hsub x hx),
      fun x hx g hg => by rw [hng]; exact hgb x (hsub x hx) g hg⟩
    have h0 : (l₁.map Transaction.id ++ t0.id :: l₂.map Transaction.id).Nodup := by
      rw [← List.map_cons, ← List.map_append, ← hl]
      exact hnd
    rw [htx, List.map_append]
    exact nodup_middle_drop h0
  · constructor
    · intro x hx hxf
      exact hinv.1 x (hsub x hx) hxf
    · intro x hx hxt
      obtain ⟨g, hg, s, hs, hsid, hstr, hsg, hsty, hsacct, hsamt, hcnt⟩ :=
        hinv.2 x (hsub x hx) hxt
      have hst0 : s ≠ t0 := by
        intro he
        rw [he, ht0] at hstr
        cases hstr
      refine ⟨g, hg, s, ?_, hsid, hstr, hsg, hsty, hsacct, hsamt, ?_⟩
      · rw [htx]
        rw [hl] at hs
        exact mem_middle_of_ne hs hst0
      · rw [htx, length_filter_middle_drop _ l₁ l₂ t0 (by rw [hg0]; rfl), ← hl]
        exact hcnt

/-- Facts carried by a successful get_paired_transaction lookup. -/
theorem get_paired_facts {db : DB} {t p : Transaction} {u : Nat}
    (h : get_paired_transaction db t u = some p) :
    p ∈ db.transactions ∧ p.transfer_group_id = t.transfer_group_id ∧
    p.user_id = u ∧ p.id ≠ t.id := by
  unfold get_paired_transaction at h
  by_cases hc : (!t.is_transfer || t.transfer_group_id.isNone) = true
  · rw [if_pos hc] at h
    cases h
  · rw [if_neg hc] at h
    have hmem := List.mem_of_find?_eq_some h
    have hp := List.find?_some h
    simp only [Bool.and_eq_true, beq_iff_eq, bne_iff_ne, ne_eq] at hp
    exact ⟨hmem, hp.1.1, hp.1.2, hp.2⟩

/-- The effect of a successful update_transfer. -/
theorem update_transfer_shape {db : DB} {tid : Nat} {data : TransactionUpdate}
    {u : Nat} {r : DB × Transaction × Transaction}
    (h : update_transfer db tid data u = some r) :
    ∃ t p, get_transaction db tid u = some t ∧ t.is_transfer = true ∧
      get_paired_transaction db t u = some p ∧
      r.1.transactions = db.transactions.map (fun x =>
        if x.id == (if t.type = TxType.expense then t else p).id ||
           x.id == (if t.type = TxType.expense then p else t).id then
          applyTransferPatch data x
        else x) ∧
      r.1.next_transaction_id = db.next_transaction_id ∧
      r.1.next_group_id = db.next_group_id ∧
      r.1.accounts.map Account.id = db.accounts.map Account.id ∧
      r.1.accounts.map Account.user_id = db.accounts.map Account.user_id := by
  unfold update_transfer at h
  cases hget : get_transaction db tid u with
  | none => rw [hget] at h; cases h
  | some t =>
    rw [hget] at h
    simp only [] at h
    cases htr : t.is_transfer with
    | false =>
      rw [htr] at h
      simp at h
    | true =>
      rw [htr] at h
      simp only [Bool.not_true, Bool.false_eq_true, if_false] at h
      cases hpair : get_paired_transaction db t u with
      | none => rw [hpair] at h; cases h
      | some p =>
        rw [hpair] at h
        simp only [] at h
        cases h
        refine ⟨t, p, rfl, htr, hpair, ?_, ?_, ?_, ?_, ?_⟩ <;>
          cases hamt : data.amount <;> simp [hamt]

/-- Patching the two legs of one transfer group with identical shared fields
preserves the transaction-table invariants. -/
theorem map_patch_pairWF (db : DB) (u : Nat) (data : TransactionUpdate)
    (t p : Transaction) (g : Nat)
    (hwf : TxnWF db u) (hinv : PairInv db)
    (hmem : t ∈ db.transactions) (hpmem : p ∈ db.transactions)
    (htg : t.transfer_group_id = some g) (hpg : p.transfer_group_id = some g)
    (hex : ∀ x ∈ db.transactions, x.transfer_group_id = some g → x = t ∨ x = p)
    (db' : DB)
    (htx : db'.transactions = db.transactions.map (fun x =>
      if x.id == t.id || x.id == p.id then applyTransferPatch data x else x))
    (hnext : db'.next_transaction_id = db.next_transaction_id)
    (hng : db'.next_group_id = db.next_group_id) :
    PairWF db' u := by
  obtain ⟨huser, hnd, hfresh, hgb⟩ := hwf
  set f := fun x =>
    if x.id == t.id || x.id == p.id then applyTransferPatch data x else x with hf
  have haux : ∀ x, (f x).id = x.id ∧ (f x).user_id = x.user_id ∧
      (f x).is_transfer = x.is_transfer ∧
      (f x).transfer_group_id = x.transfer_group_id ∧
      (f x).type = x.type ∧ (f x).account_id = x.account_id := by
    intro x
    rw [hf]
    by_cases hc : (x.id == t.id || x.id == p.id) = true
    · simp [hc]
    · simp [hc]
  have hmemiff : ∀ y ∈ db.transactions,
      ((y.id = t.id ∨ y.id = p.id) ↔ (y = t ∨ y = p)) := by
    intro y hy
    constructor
    · rintro (hyt | hyp)
      · exact Or.inl (txn_inj hnd y hy t hmem hyt)
      · exact Or.inr (txn_inj hnd y hy p hpmem hyp)
    · rintro (rfl | rfl)
      · exact Or.inl rfl
      · exact Or.inr rfl
  constructor
  · refine ⟨?_, ?_, ?_, ?_⟩
    · intro x hx
      rw [htx] at hx
      obtain ⟨y, hy, rfl⟩ := List.mem_map.1 hx
      rw [(haux y).2.1]
      exact huser y hy
    · rw [htx, map_map_eq f Transaction.id db.transactions (fun x => (haux x).1)]
      exact hnd
    · intro x hx
      rw [htx] at hx
      rw [hnext]
      obtain ⟨y, hy, rfl⟩ := List.mem_map.1 hx
      rw [(haux y).1]
      exact hfresh y hy
    · intro x hx g' hg'
      rw [htx] at hx
      rw [hng]
      obtain ⟨y, hy, rfl⟩ := List.mem_map.1 hx
      rw [(haux y).2.2.2.1] at hg'
      exact hgb y hy g' hg'
  · constructor
    · intro x hx hxf
      rw [htx] at hx
      obtain ⟨y, hy, rfl⟩ := List.mem_map.1 hx
      rw [(haux y).2.2.1] at hxf
      rw [(haux y).2.2.2.1]
      exact hinv.1 y hy hxf
    · intro x hx hxt
      rw [htx] at hx
      obtain ⟨y, hy, rfl⟩ := List.mem_map.1 hx
      rw [(haux y).2.2.1] at hxt
      obtain ⟨gy, hgy, sy, hsymem, hsyid, hsytr, hsyg, hsyty, hsyacct, hsyamt,
        hcnt⟩ := hinv.2 y hy hxt
      have hcond : (sy.id == t.id || sy.id == p.id) =
          (y.id == t.id || y.id == p.id) := by
        rw [Bool.eq_iff_iff]
        simp only [Bool.or_eq_true, beq_iff_eq]
        rw [hmemiff sy hsymem, hmemiff y hy]
        constructor
        · rintro (h1 | h1)
          · have hgyg : gy = g := by
              have h2 := hsyg
              rw [h1, htg] at h2
              exact (Option.some.inj h2).symm
            exact hex y hy (by rw [hgy, hgyg])
          · have hgyg : gy = g := by
              have h2 := hsyg
              rw [h1, hpg] at h2
              exact (Option.some.inj h2).symm
            exact hex y hy (by rw [hgy, hgyg])
        · rintro (h1 | h1)
          · have hgyg : gy = g := by
              have h2 := hgy
              rw [h1, htg] at h2
              exact (Option.some.inj h2).symm
            exact hex sy hsymem (by rw [hsyg, hgyg])
          · have hgyg : gy = g := by
              have h2 := hgy
              rw [h1, hpg] at h2
              exact (Option.some.inj h2).symm
            exact hex sy hsymem (by rw [hsyg, hgyg])
      refine ⟨gy, by rw [(haux y).2.2.2.1]; exact hgy, f sy, ?_, ?_, ?_, ?_, ?_,
        ?_, ?_, ?_⟩
      · rw [htx]
        exact List.mem_map_of_mem f hsymem
      · rw [(haux sy).1, (haux y).1]
        exact hsyid
      · rw [(haux sy).2.2.1]
        exact hsytr
      · rw [(haux sy).2.2.2.1]
        exact hsyg
      · rw [(haux sy).2.2.2.2.1, (haux y).2.2.2.2.1]
        exact hsyty
      · rw [(haux sy).2.2.2.2.2, (haux y).2.2.2.2.2]
        exact hsyacct
      · rw [hf]
        simp only []
        cases hcv : (y.id == t.id || y.id == p.id) with
        | true =>
          have hcs : (sy.id == t.id || sy.id == p.id) = true := by
            rw [hcond, hcv]
          rw [hcs]
          simp [hsyamt]
        | false =>
          have hcs : (sy.id == t.id || sy.id == p.id) = false := by
            rw [hcond, hcv]
          rw [hcs]
          simp [hsyamt]
      · rw [htx,
          length_filter_map f (fun z => z.transfer_group_id == some gy)
            db.transactions (fun z => by simp only [(haux z).2.2.2.1])]
        exact hcnt

theorem update_transfer_pairWF {db : DB} {tid : Nat} {data : TransactionUpdate}
    {u : Nat} {r : DB × Transaction × Transaction}
    (hupd : update_transfer db tid data u = some r)
    (h : PairWF db u) : PairWF r.1 u := by
  obtain ⟨t, p, hget, htr, hpair, htx, hnext, hng, -, -⟩ :=
    update_transfer_shape hupd
  obtain ⟨hmem, hid0, huser0, -⟩ := get_transaction_decomp hget
  obtain ⟨hpmem, hpgid, hpuser, hpid⟩ := get_paired_facts hpair
  obtain ⟨g, s0, hg, hs0mem, hs0id, hs0tr, hs0g, hs0ty, hs0acct, hs0amt, hcnt0,
    hfind0, hex⟩ := get_paired_of_pairInv db u t h.1 h.2 hmem htr
  have hps0 : p = s0 := by
    rw [hpair] at hfind0
    exact Option.some.inj hfind0
  subst hps0
  have hpg : p.transfer_group_id = some g := hs0g
  have hfun : ∀ x ∈ db.transactions,
      (if x.id == (if t.type = TxType.expense then t else p).id ||
          x.id == (if t.type = TxType.expense then p else t).id then
        applyTransferPatch data x else x) =
      (if x.id == t.id || x.id == p.id then applyTransferPatch data x else x) := by
    intro x _
    by_cases hty : t.type = TxType.expense
    · rw [if_pos hty, if_pos hty]
    · rw [if_neg hty, if_neg hty, Bool.or_comm]
  rw [List.map_congr_left hfun] at htx
  exact map_patch_pairWF db u data t p g h.1 h.2 hmem hpmem hg hpg hex r.1 htx
    hnext hng

/-- The effect of a successful create_transfer. -/
theorem create_transfer_shape {db : DB} {data : TransferCreate} {u : Nat}
    {r : DB × Transaction × Transaction}
    (h : create_transfer db data u = Except.ok r) :
    data.from_account_id ≠ data.to_account_id ∧
    r.1.transactions = db.transactions ++ [r.2.1, r.2.2] ∧
    r.2.1.id = db.next_transaction_id ∧ r.2.2.id = db.next_transaction_id + 1 ∧
    r.2.1.user_id = u ∧ r.2.2.user_id = u ∧
    r.2.1.type = TxType.expense ∧ r.2.2.type = TxType.income ∧
    r.2.1.amount = data.amount ∧ r.2.2.amount = data.amount ∧
    r.2.1.account_id = data.from_account_id ∧
    r.2.2.account_id = data.to_account_id ∧
    r.2.1.is_transfer = true ∧ r.2.2.is_transfer = true ∧
    r.2.1.transfer_group_id = some db.next_group_id ∧
    r.2.2.transfer_group_id = some db.next_group_id ∧
    r.1.next_transaction_id = db.next_transaction_id + 2 ∧
    r.1.next_group_id = db.next_group_id + 1 := by
  unfold create_transfer at h
  by_cases hfe : data.from_account_id = data.to_account_id
  · rw [if_pos hfe] at h
    cases h
  · rw [if_neg hfe] at h
    simp only [] at h
    cases h
    obtain ⟨hea, heb, het, hent, heng⟩ :=
      ensure_transfer_categories_only_categories db u
    refine ⟨hfe, ?_, ?_, ?_, ?_, ?_, ?_, ?_, ?_, ?_, ?_, ?_, ?_, ?_, ?_, ?_,
      ?_, ?_⟩ <;> simp [het, hent, heng]

theorem create_transfer_pairWF {db : DB} {data : TransferCreate} {u : Nat}
    {r : DB × Transaction × Transaction}
    (h : create_transfer db data u = Except.ok r)
    (hw : PairWF db u) : PairWF r.1 u := by
  obtain ⟨⟨huser, hnd, hfresh, hgb⟩, hinv⟩ := hw
  obtain ⟨hfe, htx, hoid, hiid, hou, hiu, hoty, hity, hoamt, hiamt, hoacct,
    hiacct, hotr, hitr, hog, hig, hnext, hng⟩ := create_transfer_shape h
  have hmemnew : ∀ x, x ∈ r.1.transactions →
      x ∈ db.transactions ∨ x = r.2.1 ∨ x = r.2.2 := by
    intro x hx
    rw [htx] at hx
    rcases List.mem_append.1 hx with hx | hx
    · exact Or.inl hx
    · rw [List.mem_cons, List.mem_singleton] at hx
      exact Or.inr hx
  have hold0 : db.transactions.filter
      (fun x => x.transfer_group_id == some db.next_group_id) = [] := by
    rw [List.filter_eq_nil_iff]
    intro x hx hc
    rw [beq_iff_eq] at hc
    exact absurd (hgb x hx _ hc) (lt_irrefl _)
  have hcnt_new : (r.1.transactions.filter
      (fun x => x.transfer_group_id == some db.next_group_id)).length = 2 := by
    rw [htx, List.filter_append, hold0]
    simp [hog, hig]
  constructor
  · refine ⟨?_, ?_, ?_, ?_⟩
    · intro x hx
      rcases hmemnew x hx with hx | rfl | rfl
      · exact huser x hx
      · exact hou
      · exact hiu
    · rw [htx, List.map_append, List.map_cons, List.map_singleton]
      apply nodup_append_two hnd
      · intro hc
        obtain ⟨y, hy, hye⟩ := List.mem_map.1 hc
        have := hfresh y hy
        rw [hye, hoid] at this
        omega
      · intro hc
        obtain ⟨y, hy, hye⟩ := List.mem_map.1 hc
        have := hfresh y hy
        rw [hye, hiid] at this
        omega
      · rw [hoid, hiid]
        omega
    · intro x hx
      rw [hnext]
      rcases hmemnew x hx with hx | rfl | rfl
      · have := hfresh x hx
        omega
      · rw [hoid]
        omega
      · rw [hiid]
        omega
    · intro x hx g hg
      rw [hng]
      rcases hmemnew x hx with hx | rfl | rfl
      · have := hgb x hx g hg
        omega
      · rw [hog] at hg
        rw [← Option.some.inj hg]
        omega
      · rw [hig] at hg
        rw [← Option.some.inj hg]
        omega
  · constructor
    · intro x hx hxf
      rcases hmemnew x hx with hx | rfl | rfl
      · exact hinv.1 x hx hxf
      · rw [hotr] at hxf
        cases hxf
      · rw [hitr] at hxf
        cases hxf
    · intro x hx hxt
      rcases hmemnew x hx with hx | rfl | rfl
      · obtain ⟨g, hg, s, hs, hsid, hstr, hsg, hsty, hsacct, hsamt, hcnt⟩ :=
          hinv.2 x hx hxt
        have hgne : ¬(db.next_group_id = g) := by
          have := hgb x hx g hg
          omega
        refine ⟨g, hg, s, ?_, hsid, hstr, hsg, hsty, hsacct, hsamt, ?_⟩
        · rw [htx]
          exact List.mem_append_left _ hs
        · rw [htx, List.filter_append, List.length_append]
          have hz : ([r.2.1, r.2.2].filter
              (fun y => y.transfer_group_id == some g)).length = 0 := by
            simp [hog, hig, hgne]
          rw [hz, hcnt]
      · refine ⟨db.next_group_id, hog, r.2.2, ?_, ?_, hitr, hig, ?_, ?_, ?_,
          hcnt_new⟩
        · rw [htx]
          apply List.mem_append_right
          simp
        · rw [hoid, hiid]
          omega
        · rw [hity, hoty]
          rfl
        · rw [hoacct, hiacct]
          intro hc
          exact hfe hc.symm
        · rw [hoamt, hiamt]
      · refine ⟨db.next_group_id, hig, r.2.1, ?_, ?_, hotr, hog, ?_, ?_, ?_,
          hcnt_new⟩
        · rw [htx]
          apply List.mem_append_right
          simp
        · rw [hoid, hiid]
          omega
        · rw [hity, hoty]
          rfl
        · rw [hoacct, hiacct]
          exact hfe
        · rw [hoamt, hiamt]

theorem filter_and {α : Type} (p q : α → Bool) (l : List α) :
    (l.filter p).filter q = l.filter (fun x => p x && q x) := by
  induction l with
  | nil => rfl
  | cons a l ih =>
    rw [List.filter_cons, List.filter_cons]
    cases hpa : p a with
    | true =>
      simp only [if_true, Bool.true_and, List.filter_cons]
      cases q a with
      | true => simp [ih]
      | false => simp [ih]
    | false =>
      simp only [Bool.false_eq_true, if_false, Bool.false_and, ih]

/-- delete_transfer on a transfer leg under the invariants: it succeeds,
removes exactly the two legs of the group, and reverses both balances. -/
theorem delete_transfer_behaviour {db : DB} {u tid : Nat} {t : Transaction}
    (hw : PairWF db u) (hacct : AcctWF db u)
    (hget : get_transaction db tid u = some t) (htr : t.is_transfer = true) :
    ∃ og ic,
      og ∈ db.transactions ∧ ic ∈ db.transactions ∧
      og.type = TxType.expense ∧ ic.type = TxType.income ∧
      og.is_transfer = true ∧ ic.is_transfer = true ∧
      og.transfer_group_id = t.transfer_group_id ∧
      ic.transfer_group_id = t.transfer_group_id ∧
      (t = og ∨ t = ic) ∧ og.id ≠ ic.id ∧
      og.amount = ic.amount ∧ og.account_id ≠ ic.account_id ∧
      (delete_transfer db tid u).2 = true ∧
      (delete_transfer db tid u).1.transactions =
        db.transactions.filter
          (fun x => !(x.id == og.id) && !(x.id == ic.id)) ∧
      (delete_transfer db tid u).1.next_transaction_id =
        db.next_transaction_id ∧
      (delete_transfer db tid u).1.next_group_id = db.next_group_id ∧
      List.Forall₂ (fun a b => b.id = a.id ∧ b.user_id = a.user_id ∧
          b.name = a.name ∧
          b.balance = a.balance +
            (if a.id = og.account_id then og.amount else 0) +
            (if a.id = ic.account_id then -ic.amount else 0))
        db.accounts (delete_transfer db tid u).1.accounts := by
  obtain ⟨hwf, hinv⟩ := hw
  obtain ⟨hmem, hid0, huser0, -⟩ := get_transaction_decomp hget
  obtain ⟨g, p, hg, hpmem, hpid, hptr, hpg, hpty, hpacct, hpamt, hcnt,
    hfind, hex⟩ := get_paired_of_pairInv db u t hwf hinv hmem htr
  have hD : (delete_transfer db tid u).2 = true ∧
      (delete_transfer db tid u).1.transactions =
        (db.transactions.eraseP (fun x =>
          x.id == (if t.type = TxType.expense then t else p).id)).eraseP
          (fun x => x.id == (if t.type = TxType.expense then p else t).id) ∧
      (delete_transfer db tid u).1.next_transaction_id =
        db.next_transaction_id ∧
      (delete_transfer db tid u).1.next_group_id = db.next_group_id ∧
      (delete_transfer db tid u).1.accounts =
        (update_balance (update_balance db
            (if t.type = TxType.expense then t else p).account_id
            (if t.type = TxType.expense then t else p).amount u).1
          (if t.type = TxType.expense then p else t).account_id
          (-(if t.type = TxType.expense then p else t).amount) u).1.accounts := by
    unfold delete_transfer
    rw [hget]
    simp only []
    rw [htr]
    simp only [Bool.not_true, Bool.false_eq_true, if_false]
    rw [hfind]
    simp only []
    refine ⟨trivial, ?_, ?_, ?_, trivial⟩ <;> simp
  obtain ⟨hsnd, htx0, hni, hngi, hacc0⟩ := hD
  obtain ⟨og, hog⟩ : ∃ og, og = if t.type = TxType.expense then t else p :=
    ⟨_, rfl⟩
  obtain ⟨ic, hic⟩ : ∃ ic, ic = if t.type = TxType.expense then p else t :=
    ⟨_, rfl⟩
  rw [← hog, ← hic] at htx0 hacc0
  have hogf : og.type = TxType.expense ∧ ic.type = TxType.income ∧
      (t = og ∨ t = ic) ∧ og ∈ db.transactions ∧ ic ∈ db.transactions ∧
      og.id ≠ ic.id ∧ og.amount = ic.amount ∧
      og.account_id ≠ ic.account_id ∧ og.is_transfer = true ∧
      ic.is_transfer = true ∧ og.transfer_group_id = t.transfer_group_id ∧
      ic.transfer_group_id = t.transfer_group_id := by
    by_cases hty : t.type = TxType.expense
    · rw [hog, hic, if_pos hty, if_pos hty]
      refine ⟨hty, ?_, Or.inl rfl, hmem, hpmem, ?_, hpamt.symm, ?_, htr, hptr,
        rfl, ?_⟩
      · rw [hpty, hty]
        rfl
      · exact fun hc => hpid hc.symm
      · exact fun hc => hpacct hc.symm
      · rw [hpg, hg]
    · have hty2 : t.type = TxType.income := by
        cases htt : t.type with
        | income => rfl
        | expense => exact absurd htt hty
      rw [hog, hic, if_neg hty, if_neg hty]
      refine ⟨?_, hty2, Or.inr rfl, hpmem, hmem, ?_, hpamt, hpacct, hptr, htr,
        ?_, rfl⟩
      · rw [hpty, hty2]
        rfl
      · intro hc
        exact hpid hc
      · rw [hpg, hg]
  obtain ⟨hogty, hicty, htoi, hogmem, hicmem, hogicid, hogamt, hogacct,
    hogtr, hictr, hoggid, hicgid⟩ := hogf
  have hnd2 : (db.transactions.map Transaction.id).Nodup := hwf.2.1
  have he1 : db.transactions.eraseP (fun x => x.id == og.id) =
      db.transactions.filter (fun x => !(x.id == og.id)) :=
    eraseP_eq_filter_of_le_one _ _ (filter_id_le_one og.id db.transactions hnd2)
  have hnd3 : ((db.transactions.filter
      (fun x => !(x.id == og.id))).map Transaction.id).Nodup :=
    List.Nodup.sublist (List.Sublist.map _ (List.filter_sublist _)) hnd2
  have he2 : (db.transactions.filter (fun x => !(x.id == og.id))).eraseP
      (fun x => x.id == ic.id) =
      (db.transactions.filter (fun x => !(x.id == og.id))).filter
        (fun x => !(x.id == ic.id)) :=
    eraseP_eq_filter_of_le_one _ _ (filter_id_le_one ic.id _ hnd3)
  have htx1 : (delete_transfer db tid u).1.transactions =
      db.transactions.filter
        (fun x => !(x.id == og.id) && !(x.id == ic.id)) := by
    rw [htx0, he1, he2, filter_and]
  refine ⟨og, ic, hogmem, hicmem, hogty, hicty, hogtr, hictr, hoggid, hicgid,
    htoi, hogicid, hogamt, hogacct, hsnd, htx1, hni, hngi, ?_⟩
  have hs1 := update_balance_spec db og.account_id og.amount u hacct.1 hacct.2
  have hu1 : ∀ a ∈ (update_balance db og.account_id og.amount u).1.accounts,
      a.user_id = u :=
    forall_of_map_eq Account.user_id (fun v => v = u)
      (update_balance_accounts_users db og.account_id og.amount u) hacct.1
  have hnd1 : ((update_balance db og.account_id og.amount u).1.accounts.map
      Account.id).Nodup := by
    rw [update_balance_accounts_ids]
    exact hacct.2
  have hs2 := update_balance_spec (update_balance db og.account_id og.amount u).1
    ic.account_id (-ic.amount) u hu1 hnd1
  have hcomp := forall2_comp hs1 hs2
  rw [hacc0]
  refine List.Forall₂.imp ?_ hcomp
  rintro a c ⟨b, ⟨hbid, hbu, hbn, hbb⟩, hcid, hcu, hcn, hcb⟩
  refine ⟨by rw [hcid, hbid], by rw [hcu, hbu], by rw [hcn, hbn], ?_⟩
  rw [hcb, hbb, hbid]

theorem delete_transfer_pairWF {db : DB} {u tid : Nat} {t : Transaction}
    (hw : PairWF db u) (hacct : AcctWF db u)
    (hget : get_transaction db tid u = some t) (htr : t.is_transfer = true) :
    PairWF (delete_transfer db tid u).1 u := by
  obtain ⟨og, ic, hogmem, hicmem, hogty, hicty, hogtr, hictr, hoggid, hicgid,
    htoi, hogicid, hogamt, hogacct, hsnd, htx, hni, hngi, -⟩ :=
    delete_transfer_behaviour hw hacct hget htr
  obtain ⟨⟨huser, hnd, hfresh, hgb⟩, hinv⟩ := hw
  obtain ⟨hmem, -, -, -⟩ := get_transaction_decomp hget
  obtain ⟨g, p, hg, hpmem, hpid, hptr, hpg, hpty, hpacct, hpamt, hcnt, hfind,
    hex⟩ := get_paired_of_pairInv db u t ⟨huser, hnd, hfresh, hgb⟩ hinv hmem htr
  have hogg : og.transfer_group_id = some g := by rw [hoggid, hg]
  have hicg : ic.transfer_group_id = some g := by rw [hicgid, hg]
  have hogic : og ≠ ic := fun he => hogicid (by rw [he])
  have hexoi : ∀ y ∈ db.transactions, y.transfer_group_id = some g →
      y = og ∨ y = ic := by
    intro y hy hyg
    exact two_of_filter_length hogmem hicmem hogic (by simp [hogg])
      (by simp [hicg]) hcnt y hy (by simp [hyg])
  have hsubm : ∀ x, x ∈ (delete_transfer db tid u).1.transactions →
      x ∈ db.transactions ∧ x.id ≠ og.id ∧ x.id ≠ ic.id := by
    intro x hx
    rw [htx] at hx
    obtain ⟨hxm, hxq⟩ := List.mem_filter.1 hx
    simp only [Bool.and_eq_true, Bool.not_eq_true', beq_eq_false_iff_ne,
      ne_eq] at hxq
    exact ⟨hxm, hxq.1, hxq.2⟩
  constructor
  · refine ⟨fun x hx => huser x (hsubm x hx).1, ?_,
      fun x hx => by rw [hni]; exact hfresh x (hsubm x hx).1,
      fun x hx g' hg' => by rw [hngi]; exact hgb x (hsubm x hx).1 g' hg'⟩
    rw [htx]
    exact List.Nodup.sublist (List.Sublist.map _ (List.filter_sublist _)) hnd
  · constructor
    · intro x hx hxf
      exact hinv.1 x (hsubm x hx).1 hxf
    · intro x hx hxt
      obtain ⟨hxm, hxog, hxic⟩ := hsubm x hx
      obtain ⟨gx, hgx, sx, hsxmem, hsxid, hsxtr, hsxg, hsxty, hsxacct, hsxamt,
        hcntx⟩ := hinv.2 x hxm hxt
      have hgxg : gx ≠ g := by
        intro he
        rcases hexoi x hxm (by rw [hgx, he]) with rfl | rfl
        · exact hxog rfl
        · exact hxic rfl
      have hkeep : ∀ y, y ∈ db.transactions → y.transfer_group_id = some gx →
          y.id ≠ og.id ∧ y.id ≠ ic.id := by
        intro y hy hyg
        constructor
        · intro he
          have : y = og := txn_inj hnd y hy og hogmem he
          rw [this, hogg] at hyg
          exact hgxg (Option.some.inj hyg).symm
        · intro he
          have : y = ic := txn_inj hnd y hy ic hicmem he
          rw [this, hicg] at hyg
          exact hgxg (Option.some.inj hyg).symm
      obtain ⟨hsog, hsic⟩ := hkeep sx hsxmem hsxg
      refine ⟨gx, hgx, sx, ?_, hsxid, hsxtr, hsxg, hsxty, hsxacct, hsxamt, ?_⟩
      · rw [htx]
        refine List.mem_filter.2 ⟨hsxmem, ?_⟩
        simp [hsog, hsic]
      · rw [htx, filter_filter_of_imp _ _ db.transactions ?_]
        · exact hcntx
        · intro y hy hyp
          rw [beq_iff_eq] at hyp
          obtain ⟨h1, h2⟩ := hkeep y hy hyp
          simp [h1, h2]

theorem router_update_pairWF (db : DB) (tid : Nat) (data : TransactionUpdate)
    (u : Nat) (h : PairWF db u) :
    PairWF (router_update_transaction db tid data u) u := by
  unfold router_update_transaction
  cases hget : get_transaction db tid u with
  | none => exact h
  | some ex =>
    simp only []
    cases hextr : ex.is_transfer with
    | true =>
      rw [if_pos rfl]
      cases hupd : update_transfer db tid data u with
      | none => exact h
      | some r =>
        obtain ⟨r1, r2, r3⟩ := r
        exact update_transfer_pairWF hupd h
    | false =>
      rw [if_neg (by simp)]
      cases hupd : update_transaction db tid data u with
      | none => exact h
      | some r =>
        obtain ⟨r1, r2⟩ := r
        exact update_transaction_pairWF hget hextr hupd h

theorem router_delete_pairWF (db : DB) (tid u : Nat) (h : PairWF db u)
    (hacct : AcctWF db u) : PairWF (router_delete_transaction db tid u) u := by
  unfold router_delete_transaction
  cases hget : get_transaction db tid u with
  | none => exact h
  | some ex =>
    simp only []
    cases hextr : ex.is_transfer with
    | true =>
      rw [if_pos rfl]
      exact delete_transfer_pairWF h hacct hget hextr
    | false =>
      rw [if_neg (by simp)]
      cases hdel : delete_transaction db tid u with
      | none => exact h
      | some r => exact delete_transaction_pairWF hget hextr hdel h

theorem delete_transfer_accounts_maps (db : DB) (tid u : Nat) :
    (delete_transfer db tid u).1.accounts.map Account.id =
      db.accounts.map Account.id ∧
    (delete_transfer db tid u).1.accounts.map Account.user_id =
      db.accounts.map Account.user_id := by
  unfold delete_transfer
  cases hget : get_transaction db tid u with
  | none => exact ⟨rfl, rfl⟩
  | some t =>
    simp only []
    cases htr2 : t.is_transfer with
    | false =>
      simp
    | true =>
      simp only [Bool.not_true, Bool.false_eq_true, if_false]
      cases hp : get_paired_transaction db t u with
      | none => exact ⟨rfl, rfl⟩
      | some p =>
        simp only []
        constructor <;> simp

theorem create_transfer_ok_accounts_maps {db : DB} {data : TransferCreate}
    {u : Nat} {r : DB × Transaction × Transaction}
    (h : create_transfer db data u = Except.ok r) :
    r.1.accounts.map Account.id = db.accounts.map Account.id ∧
    r.1.accounts.map Account.user_id = db.accounts.map Account.user_id := by
  unfold create_transfer at h
  by_cases hfe : data.from_account_id = data.to_account_id
  · rw [if_pos hfe] at h
    cases h
  · rw [if_neg hfe] at h
    simp only [] at h
    cases h
    constructor <;> simp [ensure_transfer_categories_accounts]

theorem applyROp_acctWF (u : Nat) (db : DB) (op : ROp) (h : AcctWF db u) :
    AcctWF (applyROp u db op) u := by
  cases op with
  | create data => exact applyOp_acctWF u db (Op.create data) h
  | update tid data =>
    simp only [applyROp]
    unfold router_update_transaction
    cases hget : get_transaction db tid u with
    | none => exact h
    | some ex =>
      simp only []
      cases hextr : ex.is_transfer with
      | true =>
        rw [if_pos rfl]
        cases hupd : update_transfer db tid data u with
        | none => exact h
        | some r =>
          obtain ⟨r1, r2, r3⟩ := r
          obtain ⟨t, p, -, -, -, -, -, -, hidm, husm⟩ :=
            update_transfer_shape hupd
          exact ⟨forall_of_map_eq Account.user_id (fun v => v = u) husm h.1,
            by rw [hidm]; exact h.2⟩
      | false =>
        rw [if_neg (by simp)]
        cases hupd : update_transaction db tid data u with
        | none => exact h
        | some r =>
          have h2 := applyOp_acctWF u db (Op.update tid data) h
          simp only [applyOp] at h2
          rw [hupd] at h2
          exact h2
  | delete tid =>
    simp only [applyROp]
    unfold router_delete_transaction
    cases hget : get_transaction db tid u with
    | none => exact h
    | some ex =>
      simp only []
      cases hextr : ex.is_transfer with
      | true =>
        rw [if_pos rfl]
        obtain ⟨hidm, husm⟩ := delete_transfer_accounts_maps db tid u
        exact ⟨forall_of_map_eq Account.user_id (fun v => v = u) husm h.1,
          by rw [hidm]; exact h.2⟩
      | false =>
        rw [if_neg (by simp)]
        cases hdel : delete_transaction db tid u with
        | none => exact h
        | some r =>
          have h2 := applyOp_acctWF u db (Op.delete tid) h
          simp only [applyOp] at h2
          rw [hdel] at h2
          exact h2
  | transfer data =>
    simp only [applyROp]
    cases htr : create_transfer db data u with
    | error e => exact h
    | ok r =>
      obtain ⟨hidm, husm⟩ := create_transfer_ok_accounts_maps htr
      exact ⟨forall_of_map_eq Account.user_id (fun v => v = u) husm h.1,
        by rw [hidm]; exact h.2⟩
  | transfer_update tid data =>
    simp only [applyROp]
    cases hupd : update_transfer db tid data u with
    | none => exact h
    | some r =>
      obtain ⟨t, p, -, -, -, -, -, -, hidm, husm⟩ := update_transfer_shape hupd
      exact ⟨forall_of_map_eq Account.user_id (fun v => v = u) husm h.1,
        by rw [hidm]; exact h.2⟩

theorem applyROp_pairWF (u : Nat) (db : DB) (op : ROp) (h : PairWF db u)
    (hacct : AcctWF db u) : PairWF (applyROp u db op) u := by
  cases op with
  | create data => exact create_transaction_pairWF db data u h
  | update tid data => exact router_update_pairWF db tid data u h
  | delete tid => exact router_delete_pairWF db tid u h hacct
  | transfer data =>
    simp only [applyROp]
    cases htr : create_transfer db data u with
    | ok r => exact create_transfer_pairWF htr h
    | error e => exact h
  | transfer_update tid data =>
    simp only [applyROp]
    cases hupd : update_transfer db tid data u with
    | none => exact h
    | some r => exact update_transfer_pairWF hupd h

theorem applyROps_inv (u : Nat) (ops : List ROp) : ∀ db : DB,
    PairWF db u → AcctWF db u →
    PairWF (applyROps u db ops) u ∧ AcctWF (applyROps u db ops) u := by
  induction ops with
  | nil => exact fun db h ha => ⟨h, ha⟩
  | cons op ops ih =>
    intro db h ha
    simp only [applyROps, List.foldl_cons]
    exact ih (applyROp u db op) (applyROp_pairWF u db op h ha)
      (applyROp_acctWF u db op ha)

/-- Claim C4: after any sequence of router-level transaction operations on a
well-formed single-user database, the transfer pairing invariant holds (for
every transfer, exactly two transactions share its transfer_group_id, with
opposite types, different accounts and equal amounts), and delete_transfer on
either leg deletes both legs and reverses both accounts' balances (adding back
the outgoing amount to the source account and subtracting the incoming amount
from the destination account). -/
theorem claim_C4_transfer_pairing (u : Nat) (db : DB) (ops : List ROp)
    (hwf : TxnWF db u) (hacct : AcctWF db u) (hinv : PairInv db) :
    PairInv (applyROps u db ops) ∧
    (∀ tid t, get_transaction (applyROps u db ops) tid u = some t →
      t.is_transfer = true →
      ∃ og ic,
        og ∈ (applyROps u db ops).transactions ∧
        ic ∈ (applyROps u db ops).transactions ∧
        og.type = TxType.expense ∧ ic.type = TxType.income ∧
        og.transfer_group_id = t.transfer_group_id ∧
        ic.transfer_group_id = t.transfer_group_id ∧
        (t = og ∨ t = ic) ∧ og.amount = ic.amount ∧
        og.account_id ≠ ic.account_id ∧
        (delete_transfer (applyROps u db ops) tid u).2 = true ∧
        (delete_transfer (applyROps u db ops) tid u).1.transactions =
          (applyROps u db ops).transactions.filter
            (fun x => !(x.id == og.id) && !(x.id == ic.id)) ∧
        List.Forall₂ (fun a b => b.id = a.id ∧ b.user_id = a.user_id ∧
            b.name = a.name ∧
            b.balance = a.balance +
              (if a.id = og.account_id then og.amount else 0) +
              (if a.id = ic.account_id then -ic.amount else 0))
          (applyROps u db ops).accounts
          (delete_transfer (applyROps u db ops) tid u).1.accounts) := by
  obtain ⟨hw', ha'⟩ := applyROps_inv u ops db ⟨hwf, hinv⟩ hacct
  refine ⟨hw'.2, ?_⟩
  intro tid t hget htr
  obtain ⟨og, ic, m1, m2, ty1, ty2, -, -, g1, g2, toi, -, amt, acct, snd, tx,
    -, -, bal⟩ := delete_transfer_behaviour hw' ha' hget htr
  exact ⟨og, ic, m1, m2, ty1, ty2, g1, g2, toi, amt, acct, snd, tx, bal⟩

/-- Concrete database for the transfer-pairing witness: two owned accounts
and no transactions yet. -/
def exC4db : DB :=
  { accounts := [⟨1, 1, "cash", 100⟩, ⟨2, 1, "bank", 50⟩]
    categories := []
    budgets := []
    transactions := []
    next_transaction_id := 1
    next_category_id := 10
    next_group_id := 1 }

/-- Concrete transfer creation payload for the witness. -/
def exC4xfer : TransferCreate :=
  ⟨1, 2, 30, ⟨2024, 3, 4⟩, "move", false⟩

theorem claim_C4_transfer_pairing_witness :
    PairInv (applyROps 1 exC4db [ROp.transfer exC4xfer]) ∧
    (delete_transfer (applyROps 1 exC4db [ROp.transfer exC4xfer]) 1 1).2 =
      true := by
  have h := claim_C4_transfer_pairing 1 exC4db [ROp.transfer exC4xfer]
    ⟨fun t ht => absurd ht (List.not_mem_nil t), List.nodup_nil,
     fun t ht => absurd ht (List.not_mem_nil t),
     fun t ht => absurd ht (List.not_mem_nil t)⟩
    ⟨by decide, by decide⟩
    ⟨fun t ht _ => absurd ht (List.not_mem_nil t),
     fun t ht _ => absurd ht (List.not_mem_nil t)⟩
  refine ⟨h.1, ?_⟩
  obtain ⟨og, ic, -, -, -, -, -, -, -, -, -, hsnd, -, -⟩ :=
    h.2 1 ⟨1, 1, ⟨2024, 3, 4⟩, TxType.expense, 30, 10, 1, "move", true, some 1,
      false, []⟩ rfl rfl
  exact hsnd

/-!
Transfer-pair detection (C8).
-/

theorem mem_enumFrom_facts {α : Type} : ∀ (l : List α) (n : Nat) (p : Nat × α),
    p ∈ l.enumFrom n → n ≤ p.1 ∧ p.2 ∈ l := by
  intro l
  induction l with
  | nil => intro n p h; cases h
  | cons a l ih =>
    intro n p h
    rcases List.mem_cons.1 h with rfl | h
    · exact ⟨Nat.le_refl n, List.mem_cons_self a l⟩
    · obtain ⟨h1, h2⟩ := ih (n + 1) p h
      exact ⟨by omega, List.mem_cons_of_mem a h2⟩

theorem enumFrom_fst_inj {α : Type} : ∀ (l : List α) (n : Nat) (p q : Nat × α),
    p ∈ l.enumFrom n → q ∈ l.enumFrom n → p.1 = q.1 → p = q := by
  intro l
  induction l with
  | nil => intro n p q h; cases h
  | cons a l ih =>
    intro n p q hp hq he
    rcases List.mem_cons.1 hp with rfl | hp
    · rcases List.mem_cons.1 hq with rfl | hq
      · rfl
      · have := (mem_enumFrom_facts l (n + 1) q hq).1
        rw [← he] at this
        simp only [] at this
        omega
    · rcases List.mem_cons.1 hq with rfl | hq
      · have := (mem_enumFrom_facts l (n + 1) p hp).1
        rw [he] at this
        simp only [] at this
        omega
      · exact ih (n + 1) p q hp hq he

theorem mem_enumFrom_of_mem {α : Type} : ∀ (l : List α) (r : α) (n : Nat),
    r ∈ l → ∃ i, (i, r) ∈ l.enumFrom n := by
  intro l
  induction l with
  | nil => intro r n h; cases h
  | cons a l ih =>
    intro r n h
    rcases List.mem_cons.1 h with rfl | h
    · exact ⟨n, List.mem_cons_self _ _⟩
    · obtain ⟨i, hi⟩ := ih r (n + 1) h
      exact ⟨i, List.mem_cons_of_mem _ hi⟩

/-- The inner pairing loop: every pair takes its outgoing row from the
outgoing list and its incoming row from the incoming candidates on a
different account; every outgoing row is either paired or reported
unmatched; the matched-incoming set grows only by indices used in pairs. -/
theorem matchOuts_spec (ins : List (Nat × ParsedRow)) :
    ∀ (os : List ParsedRow) (matched : List Nat),
    (∀ pr ∈ (matchOuts ins os matched).1,
      pr.1 ∈ os ∧ (∃ q ∈ ins, pr.2 = q.2) ∧
        pr.1.account_value ≠ pr.2.account_value) ∧
    (∀ o ∈ (matchOuts ins os matched).2.1, o ∈ os) ∧
    (∀ o ∈ os, (∃ pr ∈ (matchOuts ins os matched).1, pr.1 = o) ∨
      o ∈ (matchOuts ins os matched).2.1) ∧
    (∀ i ∈ (matchOuts ins os matched).2.2, i ∈ matched ∨
      ∃ pr ∈ (matchOuts ins os matched).1, ∃ q ∈ ins, q.1 = i ∧ pr.2 = q.2) := by
  intro os
  induction os with
  | nil =>
    intro matched
    refine ⟨?_, ?_, ?_, ?_⟩
    · intro pr hpr
      cases hpr
    · intro o ho
      cases ho
    · intro o ho
      cases ho
    · intro i hi
      exact Or.inl hi
  | cons o os ih =>
    intro matched
    simp only [matchOuts]
    cases hfm : findMatch o.account_value ins matched with
    | some p =>
      have hpmem := List.mem_of_find?_eq_some hfm
      have hppred := List.find?_some hfm
      simp only [Bool.and_eq_true, bne_iff_ne, ne_eq] at hppred
      obtain ⟨ih1, ih2, ih3, ih4⟩ := ih (matched ++ [p.1])
      refine ⟨?_, ?_, ?_, ?_⟩
      · intro pr hpr
        rcases List.mem_cons.1 hpr with rfl | hpr
        · exact ⟨List.mem_cons_self _ _, ⟨p, hpmem, rfl⟩, hppred.1⟩
        · obtain ⟨hm, hq, hacc⟩ := ih1 pr hpr
          exact ⟨List.mem_cons_of_mem _ hm, hq, hacc⟩
      · intro x hx
        exact List.mem_cons_of_mem _ (ih2 x hx)
      · intro x hx
        rcases List.mem_cons.1 hx with rfl | hx
        · exact Or.inl ⟨(x, p.2), List.mem_cons_self _ _, rfl⟩
        · rcases ih3 x hx with ⟨pr, hpr, he⟩ | hun
          · exact Or.inl ⟨pr, List.mem_cons_of_mem _ hpr, he⟩
          · exact Or.inr hun
      · intro i hi
        rcases ih4 i hi with him | ⟨pr, hpr, hq⟩
        · rcases List.mem_append.1 him with him | him
          · exact Or.inl him
          · rw [List.mem_singleton] at him
            exact Or.inr ⟨(o, p.2), List.mem_cons_self _ _, p, hpmem,
              him.symm, rfl⟩
        · exact Or.inr ⟨pr, List.mem_cons_of_mem _ hpr, hq⟩
    | none =>
      obtain ⟨ih1, ih2, ih3, ih4⟩ := ih matched
      refine ⟨?_, ?_, ?_, ?_⟩
      · intro pr hpr
        obtain ⟨hm, hq, hacc⟩ := ih1 pr hpr
        exact ⟨List.mem_cons_of_mem _ hm, hq, hacc⟩
      · intro x hx
        rcases List.mem_cons.1 hx with rfl | hx
        · exact List.mem_cons_self _ _
        · exact List.mem_cons_of_mem _ (ih2 x hx)
      · intro x hx
        rcases List.mem_cons.1 hx with rfl | hx
        · exact Or.inr (List.mem_cons_self _ _)
        · rcases ih3 x hx with hp | hun
          · exact Or.inl hp
          · exact Or.inr (List.mem_cons_of_mem _ hun)
      · exact ih4

/-- Pairing within one group: pairs take a negative-amount and a
positive-amount member on different accounts; unmatched rows are group
members; every nonzero-amount member is paired or unmatched. -/
theorem processGroup_spec (g : List ParsedRow) :
    (∀ pr ∈ (processGroup g).1,
      pr.1 ∈ g ∧ pr.1.amount < 0 ∧ pr.2 ∈ g ∧ pr.2.amount > 0 ∧
        pr.1.account_value ≠ pr.2.account_value) ∧
    (∀ r ∈ (processGroup g).2, r ∈ g) ∧
    (∀ r ∈ g, r.amount ≠ 0 →
      (∃ pr ∈ (processGroup g).1, pr.1 = r ∨ pr.2 = r) ∨
        r ∈ (processGroup g).2) := by
  unfold processGroup
  simp only []
  obtain ⟨m1, m2, m3, m4⟩ :=
    matchOuts_spec ((g.filter (fun r => r.amount > 0)).enum)
      (g.filter (fun r => r.amount < 0)) []
  have houtm : ∀ x, x ∈ g.filter (fun r => r.amount < 0) →
      x ∈ g ∧ x.amount < 0 := by
    intro x hx
    obtain ⟨h1, h2⟩ := List.mem_filter.1 hx
    exact ⟨h1, by simpa using h2⟩
  have hinm : ∀ q : Nat × ParsedRow,
      q ∈ (g.filter (fun r => r.amount > 0)).enum →
      q.2 ∈ g ∧ q.2.amount > 0 := by
    intro q hq
    have h2 := (mem_enumFrom_facts _ 0 q hq).2
    obtain ⟨h3, h4⟩ := List.mem_filter.1 h2
    exact ⟨h3, by simpa using h4⟩
  refine ⟨?_, ?_, ?_⟩
  · intro pr hpr
    obtain ⟨ho, ⟨q, hq, hqe⟩, hacc⟩ := m1 pr hpr
    obtain ⟨ho1, ho2⟩ := houtm pr.1 ho
    obtain ⟨hi1, hi2⟩ := hinm q hq
    rw [hqe]
    exact ⟨ho1, ho2, hi1, hi2, by rw [← hqe]; exact hacc⟩
  · intro r hr
    rcases List.mem_append.1 hr with hr | hr
    · exact (houtm r (m2 r hr)).1
    · obtain ⟨q, hq, hqe⟩ := List.mem_map.1 hr
      have hq2 := List.mem_filter.1 hq
      rw [← hqe]
      exact (hinm q hq2.1).1
  · intro r hr hne
    rcases lt_or_gt_of_ne hne with hlt | hgt
    · have hro : r ∈ g.filter (fun r => r.amount < 0) :=
        List.mem_filter.2 ⟨hr, by simpa using hlt⟩
      rcases m3 r hro with ⟨pr, hpr, he⟩ | hun
      · exact Or.inl ⟨pr, hpr, Or.inl he⟩
      · exact Or.inr (List.mem_append_left _ hun)
    · have hri : r ∈ g.filter (fun r => r.amount > 0) :=
        List.mem_filter.2 ⟨hr, by simpa using hgt⟩
      obtain ⟨i, hi⟩ := mem_enumFrom_of_mem _ r 0 hri
      by_cases him : i ∈ (matchOuts ((g.filter (fun r => r.amount > 0)).enum)
          (g.filter (fun r => r.amount < 0)) []).2.2
      · rcases m4 i him with hinit | ⟨pr, hpr, q, hq, hqi, hqe⟩
        · cases hinit
        · have hqeq : q = (i, r) :=
            enumFrom_fst_inj _ 0 q (i, r) hq hi hqi
          refine Or.inl ⟨pr, hpr, Or.inr ?_⟩
          rw [hqe, hqeq]
      · refine Or.inr (List.mem_append_right _ ?_)
        refine List.mem_map.2 ⟨(i, r), List.mem_filter.2 ⟨hi, ?_⟩, rfl⟩
        simpa using him

/-- Every key of a row appears among the grouping keys. -/
theorem groupKeys_complete : ∀ (rows : List ParsedRow)
    (acc : List (String × Int)) (k : String × Int),
    (k ∈ acc ∨ ∃ r ∈ rows, rowKey r = k) →
    k ∈ rows.foldl (fun acc r =>
      if acc.contains (rowKey r) then acc else acc ++ [rowKey r]) acc := by
  intro rows
  induction rows with
  | nil =>
    intro acc k h
    rcases h with h | ⟨r, hr, -⟩
    · exact h
    · cases hr
  | cons r rows ih =>
    intro acc k h
    rw [List.foldl_cons]
    apply ih
    rcases h with h | ⟨r', hr', hk⟩
    · left
      by_cases hc : acc.contains (rowKey r) = true
      · rw [if_pos hc]
        exact h
      · rw [if_neg hc]
        exact List.mem_append_left _ h
    · rcases List.mem_cons.1 hr' with rfl | hr'
      · left
        rw [← hk]
        by_cases hc : acc.contains (rowKey r') = true
        · rw [if_pos hc]
          simpa using hc
        · rw [if_neg hc]
          exact List.mem_append_right _ (by simp)
      · right
        exact ⟨r', hr', hk⟩

/-- Mapping function for the transfer-detection examples: "TRF" resolves to
the incoming transfer category, everything else is unmapped. -/
def exC8map : String → Option Nat :=
  fun s => if s = "TRF" then some 5 else none

/-- Transfer category ids for the transfer-detection examples. -/
def exC8tc : TransferCatIds := ⟨5, 6⟩

/-- A transfer-candidate row with amount zero. -/
def exC8zero : ParsedRow := ⟨0, "e0", "2024-01-01", "TRF", "A", 0, "zero row"⟩

/-- Claim C8 counterexample: a zero-amount transfer-candidate row is silently
dropped by detect_transfer_pairs — it is a transfer candidate, yet it appears
in no emitted pair, is not appended to the regular rows, and no warning is
recorded, contradicting "every transfer-candidate row left unmatched after
pairing is appended to the regular rows with a warning recorded". -/
theorem claim_C8_counterexample :
    isTransferCandidate exC8map exC8tc exC8zero = true ∧
    detect_transfer_pairs [exC8zero] exC8map exC8tc = ([], [], []) ∧
    exC8zero ∉ (detect_transfer_pairs [exC8zero] exC8map exC8tc).2.1 ∧
    (detect_transfer_pairs [exC8zero] exC8map exC8tc).2.2 = [] := by
  refine ⟨rfl, rfl, ?_, rfl⟩
  intro h
  cases h

/-- Claim C8 (amended): only rows resolving to a reserved transfer category
are candidates; every emitted pair is a negative-amount candidate and a
positive-amount candidate with the same date string, the same absolute
amount, and different account values; the regular rows are exactly the
non-candidates (in order) followed by the unmatched candidates, with one
warning per unmatched row; and every candidate with nonzero amount is either
in a pair or appended to the regular rows with its warning recorded
(zero-amount candidates are dropped, per the counterexample). -/
theorem claim_C8_amended (rows : List ParsedRow) (catMap : String → Option Nat)
    (tc : TransferCatIds) :
    (∀ pr ∈ (detect_transfer_pairs rows catMap tc).1,
      pr.1 ∈ rows ∧ pr.2 ∈ rows ∧
      isTransferCandidate catMap tc pr.1 = true ∧
      isTransferCandidate catMap tc pr.2 = true ∧
      pr.1.amount < 0 ∧ pr.2.amount > 0 ∧
      pr.1.date = pr.2.date ∧ intAbs pr.1.amount = intAbs pr.2.amount ∧
      pr.1.account_value ≠ pr.2.account_value) ∧
    (∃ unmatched : List ParsedRow,
      (detect_transfer_pairs rows catMap tc).2.1 =
        rows.filter (fun r => !isTransferCandidate catMap tc r) ++ unmatched ∧
      (detect_transfer_pairs rows catMap tc).2.2 =
        unmatched.map unmatchedWarning ∧
      ∀ r ∈ unmatched, r ∈ rows ∧ isTransferCandidate catMap tc r = true) ∧
    (∀ r ∈ rows, isTransferCandidate catMap tc r = true → r.amount ≠ 0 →
      (∃ pr ∈ (detect_transfer_pairs rows catMap tc).1, pr.1 = r ∨ pr.2 = r) ∨
      (r ∈ (detect_transfer_pairs rows catMap tc).2.1 ∧
        unmatchedWarning r ∈ (detect_transfer_pairs rows catMap tc).2.2)) := by
  by_cases hemp : (rows.filter (isTransferCandidate catMap tc)).isEmpty = true
  · have hD : detect_transfer_pairs rows catMap tc =
        ([], rows.filter (fun r => !isTransferCandidate catMap tc r), []) := by
      unfold detect_transfer_pairs
      simp only []
      rw [if_pos hemp]
    refine ⟨?_, ⟨[], ?_, ?_, ?_⟩, ?_⟩
    · intro pr hpr
      rw [hD] at hpr
      cases hpr
    · rw [hD, List.append_nil]
    · rw [hD]
      rfl
    · intro r hr
      cases hr
    · intro r hr hc hne
      exfalso
      have hm : r ∈ rows.filter (isTransferCandidate catMap tc) :=
        List.mem_filter.2 ⟨hr, hc⟩
      rw [List.isEmpty_iff] at hemp
      rw [hemp] at hm
      cases hm
  · have hD : detect_transfer_pairs rows catMap tc =
        ((((groupKeys (rows.filter (isTransferCandidate catMap tc))).map
            (fun k => processGroup ((rows.filter
              (isTransferCandidate catMap tc)).filter
                (fun r => rowKey r == k)))).map Prod.fst).flatten,
         rows.filter (fun r => !isTransferCandidate catMap tc r) ++
           (((groupKeys (rows.filter (isTransferCandidate catMap tc))).map
            (fun k => processGroup ((rows.filter
              (isTransferCandidate catMap tc)).filter
                (fun r => rowKey r == k)))).map Prod.snd).flatten,
         ((((groupKeys (rows.filter (isTransferCandidate catMap tc))).map
            (fun k => processGroup ((rows.filter
              (isTransferCandidate catMap tc)).filter
                (fun r => rowKey r == k)))).map Prod.snd).flatten).map
           unmatchedWarning) := by
      unfold detect_transfer_pairs
      simp only []
      rw [if_neg hemp]
    have hgrp : ∀ k r, r ∈ (rows.filter
        (isTransferCandidate catMap tc)).filter (fun r => rowKey r == k) →
        r ∈ rows ∧ isTransferCandidate catMap tc r = true ∧ rowKey r = k := by
      intro k r hr
      obtain ⟨h1, h2⟩ := List.mem_filter.1 hr
      obtain ⟨h3, h4⟩ := List.mem_filter.1 h1
      exact ⟨h3, h4, by simpa using h2⟩
    have hpairs : ∀ pr, pr ∈ (detect_transfer_pairs rows catMap tc).1 →
        ∃ k, pr ∈ (processGroup ((rows.filter
          (isTransferCandidate catMap tc)).filter
            (fun r => rowKey r == k))).1 := by
      intro pr hpr
      rw [hD] at hpr
      obtain ⟨l, hl, hprl⟩ := List.mem_flatten.1 hpr
      obtain ⟨res, hres, hle⟩ := List.mem_map.1 hl
      obtain ⟨k, hk, hke⟩ := List.mem_map.1 hres
      refine ⟨k, ?_⟩
      rw [← hle] at hprl
      rw [← hke] at hprl
      exact hprl
    have hunm : ∀ r, r ∈ (((groupKeys (rows.filter
        (isTransferCandidate catMap tc))).map
          (fun k => processGroup ((rows.filter
            (isTransferCandidate catMap tc)).filter
              (fun r => rowKey r == k)))).map Prod.snd).flatten →
        r ∈ rows ∧ isTransferCandidate catMap tc r = true := by
      intro r hr
      obtain ⟨l, hl, hrl⟩ := List.mem_flatten.1 hr
      obtain ⟨res, hres, hle⟩ := List.mem_map.1 hl
      obtain ⟨k, hk, hke⟩ := List.mem_map.1 hres
      rw [← hle] at hrl
      rw [← hke] at hrl
      have hmem := (processGroup_spec _).2.1 r hrl
      obtain ⟨h1, h2, -⟩ := hgrp k r hmem
      exact ⟨h1, h2⟩
    refine ⟨?_, ?_, ?_⟩
    · intro pr hpr
      obtain ⟨k, hk⟩ := hpairs pr hpr
      obtain ⟨ho, hneg, hi, hpos, hacc⟩ := (processGroup_spec _).1 pr hk
      obtain ⟨ho1, ho2, hok⟩ := hgrp k pr.1 ho
      obtain ⟨hi1, hi2, hik⟩ := hgrp k pr.2 hi
      have hkey : rowKey pr.1 = rowKey pr.2 := by rw [hok, hik]
      unfold rowKey at hkey
      rw [Prod.mk.injEq] at hkey
      exact ⟨ho1, hi1, ho2, hi2, hneg, hpos, hkey.1, hkey.2, hacc⟩
    · refine ⟨(((groupKeys (rows.filter (isTransferCandidate catMap tc))).map
        (fun k => processGroup ((rows.filter
          (isTransferCandidate catMap tc)).filter
            (fun r => rowKey r == k)))).map Prod.snd).flatten, ?_, ?_, ?_⟩
      · rw [hD]
      · rw [hD]
      · exact fun r hr => hunm r hr
    · intro r hr hc hne
      have hrc : r ∈ rows.filter (isTransferCandidate catMap tc) :=
        List.mem_filter.2 ⟨hr, hc⟩
      have hkmem : rowKey r ∈ groupKeys (rows.filter
          (isTransferCandidate catMap tc)) :=
        groupKeys_complete _ [] (rowKey r) (Or.inr ⟨r, hrc, rfl⟩)
      have hrg : r ∈ (rows.filter (isTransferCandidate catMap tc)).filter
          (fun x => rowKey x == rowKey r) :=
        List.mem_filter.2 ⟨hrc, by simp⟩
      have hresmem : processGroup ((rows.filter
          (isTransferCandidate catMap tc)).filter
            (fun x => rowKey x == rowKey r)) ∈
          (groupKeys (rows.filter (isTransferCandidate catMap tc))).map
            (fun k => processGroup ((rows.filter
              (isTransferCandidate catMap tc)).filter
                (fun x => rowKey x == k))) :=
        List.mem_map.2 ⟨rowKey r, hkmem, rfl⟩
      rcases (processGroup_spec _).2.2 r hrg hne with ⟨pr, hpr, he⟩ | hun
      · refine Or.inl ⟨pr, ?_, he⟩
        rw [hD]
        exact List.mem_flatten.2 ⟨_, List.mem_map_of_mem Prod.fst hresmem, hpr⟩
      · have hrunm : r ∈ (((groupKeys (rows.filter
            (isTransferCandidate catMap tc))).map
              (fun k => processGroup ((rows.filter
                (isTransferCandidate catMap tc)).filter
                  (fun x => rowKey x == k)))).map Prod.snd).flatten :=
          List.mem_flatten.2 ⟨_, List.mem_map_of_mem Prod.snd hresmem, hun⟩
        refine Or.inr ⟨?_, ?_⟩
        · rw [hD]
          exact List.mem_append_right _ hrunm
        · rw [hD]
          exact List.mem_map_of_mem unmatchedWarning hrunm

/-- Rows for the transfer-detection witness: a matching pair on different
accounts, an unmatched candidate, and an ordinary row. -/
def exC8out : ParsedRow := ⟨1, "e1", "2024-01-02", "TRF", "A", -30, "out"⟩

def exC8in : ParsedRow := ⟨2, "e2", "2024-01-02", "TRF", "B", 30, "in"⟩

def exC8lone : ParsedRow := ⟨3, "e3", "2024-01-03", "TRF", "A", 10, "lone"⟩

def exC8plain : ParsedRow := ⟨4, "e4", "2024-01-04", "food", "A", -5, "plain"⟩

def exC8rows : List ParsedRow := [exC8out, exC8in, exC8lone, exC8plain]

theorem claim_C8_amended_witness :
    (∃ pr ∈ (detect_transfer_pairs exC8rows exC8map exC8tc).1,
      pr.1 = exC8out ∨ pr.2 = exC8out) ∨
    (exC8out ∈ (detect_transfer_pairs exC8rows exC8map exC8tc).2.1 ∧
      unmatchedWarning exC8out ∈
        (detect_transfer_pairs exC8rows exC8map exC8tc).2.2) :=
  (claim_C8_amended exC8rows exC8map exC8tc).2.2 exC8out (by decide)
    (by decide) (by decide)

/-- Claim C5: execute_import always completes with at most 50 row-level error
strings; each transfer pair either records exactly one error message leaving
the database untouched (the failed pair's write is rolled back) and skips the
two rows, or creates the transfer; each regular row is skipped as already
processed, records exactly one error leaving the database untouched, is
silently skipped (zero amount), or imports one transaction; and the fold
equations show processing always continues with the remaining pairs/rows
after either outcome. -/
theorem claim_C5_import_isolation
    (db : DB) (cat_store acct_store : MappingTable) (u : Nat)
    (parsed_rows : List ParsedRow) (cm am : List MappingItem)
    (ex : List Nat) (accMap catMap : String → Option Nat)
    (vc va : List Nat) (acc : ImportAcc) (pr : ParsedRow × ParsedRow)
    (row : ParsedRow) (rest_p : List (ParsedRow × ParsedRow))
    (rest_r : List ParsedRow) :
    (execute_import db cat_store acct_store u parsed_rows cm am
      ex).2.2.2.errors.length ≤ 50 ∧
    ((∃ e, processPair u accMap va acc pr =
        { acc with errors := acc.errors ++ [e], skipped := acc.skipped + 2 }) ∨
      (∃ td r, create_transfer acc.db td u = Except.ok r ∧
        processPair u accMap va acc pr =
          { acc with
              db := r.1
              transfers := acc.transfers + 1
              processed := (acc.processed ++
                [pr.1.row_index, pr.2.row_index]) })) ∧
    ((processRow u catMap accMap vc va acc row = acc) ∨
      (∃ e, processRow u catMap accMap vc va acc row =
        { acc with errors := acc.errors ++ [e], skipped := acc.skipped + 1 }) ∨
      (processRow u catMap accMap vc va acc row =
        { acc with skipped := acc.skipped + 1 }) ∨
      (∃ td, processRow u catMap accMap vc va acc row =
        { acc with
            db := (create_transaction acc.db td u).1
            imported := acc.imported + 1 })) ∧
    ((pr :: rest_p).foldl (processPair u accMap va) acc =
      rest_p.foldl (processPair u accMap va)
        (processPair u accMap va acc pr)) ∧
    ((row :: rest_r).foldl (processRow u catMap accMap vc va) acc =
      rest_r.foldl (processRow u catMap accMap vc va)
        (processRow u catMap accMap vc va acc row)) := by
  refine ⟨?_, ?_, ?_, rfl, rfl⟩
  · unfold execute_import
    simp only []
    rw [List.length_take]
    exact min_le_left _ _
  · unfold processPair
    simp only []
    cases hd1 : parse_date pr.1.date with
    | none => exact Or.inl ⟨_, rfl⟩
    | some d1 =>
      cases hd2 : parse_date pr.2.date with
      | none => exact Or.inl ⟨_, rfl⟩
      | some d2 =>
        simp only []
        cases ha1 : accMap pr.1.account_value with
        | none => exact Or.inl ⟨_, rfl⟩
        | some fa =>
          cases ha2 : accMap pr.2.account_value with
          | none => exact Or.inl ⟨_, rfl⟩
          | some ta =>
            simp only []
            by_cases hv1 : (!va.contains fa) = true
            · rw [if_pos hv1]
              exact Or.inl ⟨_, rfl⟩
            · rw [if_neg hv1]
              by_cases hv2 : (!va.contains ta) = true
              · rw [if_pos hv2]
                exact Or.inl ⟨_, rfl⟩
              · rw [if_neg hv2]
                cases hct : create_transfer acc.db
                    { from_account_id := fa
                      to_account_id := ta
                      amount := intAbs pr.1.amount
                      date := d1
                      description :=
                        (if pr.1.description ≠ "" then pr.1.description
                         else if pr.2.description ≠ "" then pr.2.description
                         else "Imported transfer")
                      hide_from_summary := true } u with
                | error e => exact Or.inl ⟨_, rfl⟩
                | ok r =>
                  obtain ⟨r1, r2, r3⟩ := r
                  exact Or.inr ⟨_, (r1, r2, r3), hct, rfl⟩
  · unfold processRow
    by_cases hproc : acc.processed.contains row.row_index = true
    · rw [if_pos hproc]
      exact Or.inl rfl
    · rw [if_neg hproc]
      cases hd : parse_date row.date with
      | none => exact Or.inr (Or.inl ⟨_, rfl⟩)
      | some d =>
        simp only []
        cases hc : catMap row.category_value with
        | none => exact Or.inr (Or.inl ⟨_, rfl⟩)
        | some cid =>
          simp only []
          by_cases hvc : (!vc.contains cid) = true
          · rw [if_pos hvc]
            exact Or.inr (Or.inl ⟨_, rfl⟩)
          · rw [if_neg hvc]
            cases ha : accMap row.account_value with
            | none => exact Or.inr (Or.inl ⟨_, rfl⟩)
            | some aid =>
              simp only []
              by_cases hva : (!va.contains aid) = true
              · rw [if_pos hva]
                exact Or.inr (Or.inl ⟨_, rfl⟩)
              · rw [if_neg hva]
                by_cases hz : row.amount = 0
                · rw [if_pos hz]
                  exact Or.inr (Or.inr (Or.inl rfl))
                · rw [if_neg hz]
                  exact Or.inr (Or.inr (Or.inr ⟨_, rfl⟩))

end Dompy
